import Mathlib

/-!
Verification of the receipt-processing pipeline of `backend/ai_processor.py`
(class `ReceiptAIProcessor`): the response sanitizer, the lenient JSON parser
with its repair chain, the extraction fallback, the field validator/normalizer,
the cross-validator, and the retry orchestrator `process_receipt`.

The Python code is shallowly embedded: JSON/Python values become the inductive
type `JValue` (numbers are modelled as rationals, so Python's `int`/`float`
distinction is collapsed; no claim below depends on it), dictionaries become
association lists with first-occurrence lookup/update (CPython dicts never hold
duplicate keys, so the embedding agrees with them on every reachable value),
exceptions become `Except PyErr`, and `datetime.now()` becomes an explicit
`today : PyDate` parameter.  String primitives (`str.strip`, `str.upper`,
regex character classes `\d`, `\w`, `\s`) are modelled on their ASCII fragment,
which covers every string the claims exercise.
-/

namespace ReceiptAI

/-! ### Character helpers (ASCII fragment of Python's string primitives) -/

/-- Backslash character, kept as a named constant. -/
def chBackslash : Char := Char.ofNat 92

/-- Double-quote character. -/
def chDQuote : Char := Char.ofNat 34

/-- Single-quote character. -/
def chSQuote : Char := Char.ofNat 39

/-- Left curly brace. -/
def chLBrace : Char := Char.ofNat 123

/-- Right curly brace. -/
def chRBrace : Char := Char.ofNat 125

/-- Backtick character (markdown code fences). -/
def chBacktick : Char := Char.ofNat 96

/-- Whitespace for Python's `str.strip` and the regex class `\s`
(ASCII fragment: space, tab, newline, carriage return, vertical tab, form feed). -/
def isPyWS (c : Char) : Bool :=
  c = ' ' || c = '\t' || c = '\n' || c = '\r' || c = Char.ofNat 11 || c = Char.ofNat 12

/-- Whitespace accepted between tokens by `json.loads` (space, tab, newline, CR). -/
def isJsonWS (c : Char) : Bool :=
  c = ' ' || c = '\t' || c = '\n' || c = '\r'

/-- ASCII decimal digit test (regex `\d`, ASCII fragment). -/
def isDigitC (c : Char) : Bool := 48 ≤ c.toNat && c.toNat ≤ 57

/-- Numeric value of an ASCII digit character. -/
def digitVal (c : Char) : Nat := c.toNat - 48

/-- ASCII digit character for a value `0..9`. -/
def digitChar (n : Nat) : Char := Char.ofNat (48 + n)

/-- ASCII letter test (Python `str.isalpha`, ASCII fragment). -/
def isAsciiAlphaC (c : Char) : Bool :=
  (65 ≤ c.toNat && c.toNat ≤ 90) || (97 ≤ c.toNat && c.toNat ≤ 122)

/-- Word character for the regex class `\w` (ASCII fragment). -/
def isWordC (c : Char) : Bool := isDigitC c || isAsciiAlphaC c || c = '_'

/-- Uppercasing of one character (`str.upper`, ASCII fragment). -/
def pyUpperC (c : Char) : Char :=
  if 97 ≤ c.toNat ∧ c.toNat ≤ 122 then Char.ofNat (c.toNat - 32) else c

/-- Lowercasing of one character (`str.lower`, ASCII fragment). -/
def pyLowerC (c : Char) : Char :=
  if 65 ≤ c.toNat ∧ c.toNat ≤ 90 then Char.ofNat (c.toNat + 32) else c

/-- Drop matching characters from the right end of a list. -/
def dropRightWhile (p : Char → Bool) (cs : List Char) : List Char :=
  (cs.reverse.dropWhile p).reverse

/-- Python `str.strip()` on character lists. -/
def pyStripL (cs : List Char) : List Char :=
  dropRightWhile isPyWS (cs.dropWhile isPyWS)

/-- Python `str.strip()`. -/
def pyStrip (s : String) : String := String.mk (pyStripL s.toList)

/-- Python `str.upper()` (ASCII fragment). -/
def pyUpper (s : String) : String := String.mk (s.toList.map pyUpperC)

/-- Python `str.lower()` (ASCII fragment). -/
def pyLower (s : String) : String := String.mk (s.toList.map pyLowerC)

/-! ### Dates and times

`datetime.strptime` compiles each directive to a fixed regular expression
(CPython `_strptime.TimeRE`), requires the regex to consume the whole input,
and then runs the `datetime` constructor, which raises `ValueError` on
calendar-invalid components.  Both stages are modelled.  `strftime("%Y-%m-%d")`
delegates `%Y` to the platform: on Linux/glibc CPython the year is printed
unpadded, so years below 1000 render with fewer than four digits
(`datetime(999, 1, 1).strftime("%Y-%m-%d") = "999-01-01"`), a string the
four-digit `%Y` of `strptime` then rejects.  `renderYear` models exactly
this. -/

/-- Calendar date, the fragment of `datetime` the pipeline observes. -/
structure PyDate where
  year : Nat
  month : Nat
  day : Nat
deriving DecidableEq

/-- Gregorian leap-year rule used by `datetime`. -/
def isLeapYear (y : Nat) : Bool :=
  (y % 4 = 0 && y % 100 ≠ 0) || y % 400 = 0

/-- Length of a month, as enforced by the `datetime` constructor. -/
def daysInMonth (y m : Nat) : Nat :=
  if m = 2 then (if isLeapYear y then 29 else 28)
  else if m = 4 ∨ m = 6 ∨ m = 9 ∨ m = 11 then 30
  else 31

/-- Validity of a date per the `datetime` constructor (`MINYEAR = 1`, `MAXYEAR = 9999`). -/
def PyDate.Valid (d : PyDate) : Prop :=
  1 ≤ d.year ∧ d.year ≤ 9999 ∧ 1 ≤ d.month ∧ d.month ≤ 12 ∧
    1 ≤ d.day ∧ d.day ≤ daysInMonth d.year d.month

instance (d : PyDate) : Decidable d.Valid := by
  unfold PyDate.Valid; infer_instance

/-- Model of the `datetime(year, month, day)` constructor: `none` means it raises `ValueError`. -/
def mkValidDate (y m d : Nat) : Option PyDate :=
  if (PyDate.mk y m d).Valid then some (PyDate.mk y m d) else none

/-- Two-digit zero-padded rendering (`%m`, `%d`, `%H`, `%M`). -/
def pad2 (n : Nat) : List Char := [digitChar (n / 10 % 10), digitChar (n % 10)]

/-- Four-digit zero-padded rendering (the shape `%Y` takes for years with
four digits). -/
def pad4 (n : Nat) : List Char :=
  [digitChar (n / 1000 % 10), digitChar (n / 100 % 10), digitChar (n / 10 % 10),
    digitChar (n % 10)]

/-- Decimal rendering of a year as glibc `strftime` `%Y` emits it: unpadded,
so years below 1000 produce fewer than four digits (the `datetime` year range
is 1–9999, so four cases suffice). -/
def renderYear (y : Nat) : List Char :=
  if y < 10 then [digitChar (y % 10)]
  else if y < 100 then [digitChar (y / 10 % 10), digitChar (y % 10)]
  else if y < 1000 then
    [digitChar (y / 100 % 10), digitChar (y / 10 % 10), digitChar (y % 10)]
  else pad4 y

/-- Model of `strftime("%Y-%m-%d")` on Linux/glibc CPython. -/
def renderDate (d : PyDate) : String :=
  String.mk (renderYear d.year ++ '-' :: (pad2 d.month ++ '-' :: pad2 d.day))

/-- Model of `strftime("%H:%M")`. -/
def renderTime (h m : Nat) : String :=
  String.mk (pad2 h ++ ':' :: pad2 m)

/-- Alternation with backtracking into the continuation, as the `re` engine
resolves `a|b|…` inside a larger pattern: try each alternative in order, and if
the rest of the pattern fails, fall through to the next alternative. -/
def tryAlts {α : Type} (alts : List (List Char → Option (Nat × List Char)))
    (cont : Nat → List Char → Option α) (cs : List Char) : Option α :=
  match alts with
  | [] => none
  | a :: rest =>
    match a cs with
    | some (v, cs') =>
      match cont v cs' with
      | some r => some r
      | none => tryAlts rest cont cs
    | none => tryAlts rest cont cs

/-- Literal character in a compiled strptime pattern. -/
def matchLit (c : Char) : List Char → Option (List Char)
  | x :: rest => if x = c then some rest else none
  | [] => none

/-- Alternative matching the two-digit strings from `lo` to `hi` whose first digit is `d1`. -/
def altTwoDigit (d1 lo hi : Nat) : List Char → Option (Nat × List Char)
  | c1 :: c2 :: rest =>
    if c1 = digitChar d1 ∧ isDigitC c2 ∧ lo ≤ 10 * d1 + digitVal c2 ∧ 10 * d1 + digitVal c2 ≤ hi
    then some (10 * d1 + digitVal c2, rest) else none
  | _ => none

/-- Alternative matching any two digits (`[12]\d` style ranges done via `altTwoDigit`). -/
def altOneDigit (lo hi : Nat) : List Char → Option (Nat × List Char)
  | c :: rest =>
    if isDigitC c ∧ lo ≤ digitVal c ∧ digitVal c ≤ hi then some (digitVal c, rest) else none
  | _ => none

/-- Compiled pattern for `%d`: `3[01]|[12]\d|0[1-9]|[1-9]`. -/
def dayAlts : List (List Char → Option (Nat × List Char)) :=
  [altTwoDigit 3 30 31, altTwoDigit 1 10 19, altTwoDigit 2 20 29, altTwoDigit 0 1 9,
    altOneDigit 1 9]

/-- Compiled pattern for `%m`: `1[0-2]|0[1-9]|[1-9]`. -/
def monthAlts : List (List Char → Option (Nat × List Char)) :=
  [altTwoDigit 1 10 12, altTwoDigit 0 1 9, altOneDigit 1 9]

/-- Compiled pattern for `%H`: `2[0-3]|[0-1]\d|\d`. -/
def hourAlts : List (List Char → Option (Nat × List Char)) :=
  [altTwoDigit 2 20 23, altTwoDigit 0 0 9, altTwoDigit 1 10 19, altOneDigit 0 9]

/-- Compiled pattern for `%I`: `1[0-2]|0[1-9]|[1-9]`. -/
def hour12Alts : List (List Char → Option (Nat × List Char)) :=
  [altTwoDigit 1 10 12, altTwoDigit 0 1 9, altOneDigit 1 9]

/-- Compiled pattern for `%M`: `[0-5]\d|\d`. -/
def minuteAlts : List (List Char → Option (Nat × List Char)) :=
  [altTwoDigit 0 0 9, altTwoDigit 1 10 19, altTwoDigit 2 20 29, altTwoDigit 3 30 39,
    altTwoDigit 4 40 49, altTwoDigit 5 50 59, altOneDigit 0 9]

/-- Compiled pattern for `%S`: `6[0-1]|[0-5]\d|\d` (leap seconds pass the regex,
the `datetime` constructor rejects them afterwards). -/
def secondAlts : List (List Char → Option (Nat × List Char)) :=
  [altTwoDigit 6 60 61, altTwoDigit 0 0 9, altTwoDigit 1 10 19, altTwoDigit 2 20 29,
    altTwoDigit 3 30 39, altTwoDigit 4 40 49, altTwoDigit 5 50 59, altOneDigit 0 9]

/-- Compiled pattern for `%Y`: exactly four digits. -/
def year4 : List Char → Option (Nat × List Char)
  | c1 :: c2 :: c3 :: c4 :: rest =>
    if isDigitC c1 ∧ isDigitC c2 ∧ isDigitC c3 ∧ isDigitC c4 then
      some (digitVal c1 * 1000 + digitVal c2 * 100 + digitVal c3 * 10 + digitVal c4, rest)
    else none
  | _ => none

/-- Regex stage of a `YYYYsMMsDD` format with separator `sep`; returns `(y, m, d)`. -/
def regexYMD (sep : Char) (cs : List Char) : Option (Nat × Nat × Nat) :=
  tryAlts [year4] (fun y cs1 =>
    (matchLit sep cs1).bind (fun cs2 =>
      tryAlts monthAlts (fun m cs3 =>
        (matchLit sep cs3).bind (fun cs4 =>
          tryAlts dayAlts (fun d cs5 =>
            if cs5 = [] then some (y, m, d) else none) cs4)) cs2)) cs

/-- Regex stage of a `MMsDDsYYYY` format; returns `(y, m, d)`. -/
def regexMDY (sep : Char) (cs : List Char) : Option (Nat × Nat × Nat) :=
  tryAlts monthAlts (fun m cs1 =>
    (matchLit sep cs1).bind (fun cs2 =>
      tryAlts dayAlts (fun d cs3 =>
        (matchLit sep cs3).bind (fun cs4 =>
          tryAlts [year4] (fun y cs5 =>
            if cs5 = [] then some (y, m, d) else none) cs4)) cs2)) cs

/-- Regex stage of a `DDsMMsYYYY` format; returns `(y, m, d)`. -/
def regexDMY (sep : Char) (cs : List Char) : Option (Nat × Nat × Nat) :=
  tryAlts dayAlts (fun d cs1 =>
    (matchLit sep cs1).bind (fun cs2 =>
      tryAlts monthAlts (fun m cs3 =>
        (matchLit sep cs3).bind (fun cs4 =>
          tryAlts [year4] (fun y cs5 =>
            if cs5 = [] then some (y, m, d) else none) cs4)) cs2)) cs

/-- Date formats accepted by `_validate_date`, in source order:
`%Y-%m-%d`, `%m/%d/%Y`, `%d/%m/%Y`, `%m-%d-%Y`, `%d-%m-%Y`, `%Y/%m/%d`. -/
inductive DateFmt where
  | ymdDash | mdySlash | dmySlash | mdyDash | dmyDash | ymdSlash
deriving DecidableEq

/-- Source-order list of the accepted date formats. -/
def dateFormats : List DateFmt :=
  [.ymdDash, .mdySlash, .dmySlash, .mdyDash, .dmyDash, .ymdSlash]

/-- Regex stage of one date format. -/
def dateRegexOf : DateFmt → List Char → Option (Nat × Nat × Nat)
  | .ymdDash => regexYMD '-'
  | .mdySlash => regexMDY '/'
  | .dmySlash => regexDMY '/'
  | .mdyDash => regexMDY '-'
  | .dmyDash => regexDMY '-'
  | .ymdSlash => regexYMD '/'

/-- Model of `datetime.strptime(s, fmt)` for one date format: regex match of the
whole string, then the `datetime` constructor. `none` means `ValueError`. -/
def tryDateFormat (fmt : DateFmt) (s : String) : Option PyDate :=
  match dateRegexOf fmt s.toList with
  | some (y, m, d) => mkValidDate y m d
  | none => none

/-- The `for fmt in date_formats` loop of `_validate_date`: first format that
parses wins. -/
def tryDateFormats (s : String) : Option PyDate :=
  dateFormats.findSome? (fun fmt => tryDateFormat fmt s)

/-- Date-string normalization core of `_validate_date` for string input:
strip, try the formats in order, re-render the winner as `%Y-%m-%d`, and fall
back to the current date when no format parses. -/
def normalizeDateStr (s : String) (today : PyDate) : String :=
  match tryDateFormats (pyStrip s) with
  | some d => renderDate d
  | none => renderDate today

/-- Matcher for `%p` with `re.IGNORECASE`: `AM` or `PM`; returns 1 for PM. -/
def ampmAlt : List Char → Option (Nat × List Char)
  | c1 :: c2 :: rest =>
    if (c1 = 'a' ∨ c1 = 'A') ∧ (c2 = 'm' ∨ c2 = 'M') then some (0, rest)
    else if (c1 = 'p' ∨ c1 = 'P') ∧ (c2 = 'm' ∨ c2 = 'M') then some (1, rest)
    else none
  | _ => none

/-- Matcher for a whitespace run (`\s+`, which strptime substitutes for spaces
in the format string). -/
def ws1Alt : List Char → Option (Nat × List Char)
  | c :: rest =>
    if isPyWS c then some (0, rest.dropWhile isPyWS) else none
  | _ => none

/-- Regex stage of `%H:%M`; returns `(h, m)`. -/
def regexHM (cs : List Char) : Option (Nat × Nat) :=
  tryAlts hourAlts (fun h cs1 =>
    (matchLit ':' cs1).bind (fun cs2 =>
      tryAlts minuteAlts (fun m cs3 =>
        if cs3 = [] then some (h, m) else none) cs2)) cs

/-- Regex stage of `%I:%M %p` plus the strptime 12-hour conversion; returns `(h, m)` in 24-hour form. -/
def regexIMp (cs : List Char) : Option (Nat × Nat) :=
  tryAlts hour12Alts (fun h12 cs1 =>
    (matchLit ':' cs1).bind (fun cs2 =>
      tryAlts minuteAlts (fun m cs3 =>
        tryAlts [ws1Alt] (fun _ cs4 =>
          tryAlts [ampmAlt] (fun pm cs5 =>
            if cs5 = [] then
              some (if pm = 1 then (if h12 = 12 then 12 else h12 + 12)
                    else (if h12 = 12 then 0 else h12), m)
            else none) cs4) cs3) cs2)) cs

/-- Regex stage of `%H:%M:%S` plus the `datetime` constructor check on seconds
(the regex admits leap seconds 60 and 61, the constructor rejects them);
returns `(h, m)` since `strftime("%H:%M")` discards seconds. -/
def regexHMS (cs : List Char) : Option (Nat × Nat) :=
  tryAlts hourAlts (fun h cs1 =>
    (matchLit ':' cs1).bind (fun cs2 =>
      tryAlts minuteAlts (fun m cs3 =>
        (matchLit ':' cs3).bind (fun cs4 =>
          tryAlts secondAlts (fun s cs5 =>
            if cs5 = [] then (if s ≤ 59 then some (h, m) else none) else none) cs4)) cs2)) cs

/-- The `for fmt in time_formats` loop of `_validate_time`: `%H:%M`,
`%I:%M %p`, `%H:%M:%S`, first success wins, applied to the stripped input. -/
def tryTimeFormats (s : String) : Option (Nat × Nat) :=
  match regexHM (pyStrip s).toList with
  | some hm => some hm
  | none =>
    match regexIMp (pyStrip s).toList with
    | some hm => some hm
    | none => regexHMS (pyStrip s).toList

/-! ### Values, dictionaries, and Python dynamic semantics -/

/-- Values flowing through the pipeline: everything `json.loads` can decode.
Python numbers (int and float alike) are modelled as rationals. -/
inductive JValue where
  | null : JValue
  | bool : Bool → JValue
  | num : ℚ → JValue
  | str : String → JValue
  | arr : List JValue → JValue
  | obj : List (String × JValue) → JValue

/-- Association list representing a Python dict. -/
abbrev Obj := List (String × JValue)

/-- Dict lookup (`d[k]` / `d.get(k)`); first occurrence wins, which agrees
with CPython dicts since they never hold duplicate keys. -/
def dGet : Obj → String → Option JValue
  | [], _ => none
  | (k, v) :: t, key => if k = key then some v else dGet t key

/-- Dict lookup with default (`d.get(k, dflt)`). -/
def dGetD (d : Obj) (key : String) (dflt : JValue) : JValue :=
  (dGet d key).getD dflt

/-- Dict membership (`k in d`). -/
def dMem (d : Obj) (key : String) : Bool :=
  (dGet d key).isSome

/-- Dict update (`d[k] = v`): replace the first binding in place, else append,
matching CPython's insertion-order semantics. -/
def dSet : Obj → String → JValue → Obj
  | [], key, x => [(key, x)]
  | (k, v) :: t, key, x =>
    if k = key then (k, x) :: t else (k, v) :: dSet t key x

/-- Python truthiness of a value. -/
def truthy : JValue → Bool
  | .null => false
  | .bool b => b
  | .num q => q ≠ 0
  | .str s => s ≠ ""
  | .arr xs => !xs.isEmpty
  | .obj d => !d.isEmpty

/-- Exceptions observed by `process_receipt`'s handlers.  The retry loop
distinguishes `json.JSONDecodeError` from every other exception, so the model
keeps that distinction; all remaining exception classes raised inside the
pipeline (TypeError, ValueError, AttributeError) are only ever caught by the
blanket `except Exception`, so they carry just a message. -/
inductive PyErr where
  | jsonDecode : String → PyErr
  | typeError : String → PyErr
  | valueError : String → PyErr
  | transport : String → PyErr
deriving DecidableEq

/-- Message of an exception (`str(e)`). -/
def pyErrStr : PyErr → String
  | .jsonDecode m => m
  | .typeError m => m
  | .valueError m => m
  | .transport m => m

/-- Prefix test on character lists. -/
def listPrefixOf : List Char → List Char → Bool
  | [], _ => true
  | _ :: _, [] => false
  | a :: as, b :: bs => a = b && listPrefixOf as bs

/-- Substring test on character lists (Python `needle in hay` for strings). -/
def containsSub (needle : List Char) : List Char → Bool
  | [] => listPrefixOf needle []
  | c :: rest => listPrefixOf needle (c :: rest) || containsSub needle rest

/-- Membership test `key in v` for an arbitrary value: substring test on
strings, element equality on lists, key lookup on dicts, `TypeError` otherwise. -/
def pyContainsStr (v : JValue) (key : String) : Except PyErr Bool :=
  match v with
  | .obj d => .ok (dMem d key)
  | .arr xs => .ok (xs.any (fun x => match x with | .str s => s = key | _ => false))
  | .str s => .ok (containsSub key.toList s.toList)
  | _ => .error (.typeError "argument is not a container")

/-- Subscript `v[key]` with a string key: only dicts succeed, a missing key is
a `KeyError` (modelled as a non-JSONDecodeError exception). -/
def pyGetItemStr (v : JValue) (key : String) : Except PyErr JValue :=
  match v with
  | .obj d =>
    match dGet d key with
    | some x => .ok x
    | none => .error (.typeError "KeyError")
  | _ => .error (.typeError "indices must be integers")

/-- Subscript assignment `v[key] = x`: only dicts succeed. -/
def pySetItemStr (v : JValue) (key : String) (x : JValue) : Except PyErr JValue :=
  match v with
  | .obj d => .ok (.obj (dSet d key x))
  | _ => .error (.typeError "object does not support item assignment")

/-- Truncation toward zero, the behaviour of Python `int()` on floats. -/
def pyTrunc (q : ℚ) : ℤ :=
  if q < 0 then -((-q).floor) else q.floor

/-- Integer-literal parse for `int(s)`: optional surrounding whitespace, an
optional sign, then digits optionally separated by single underscores. -/
def pyIntOfChars (cs : List Char) : Option ℤ :=
  let cs := pyStripL cs
  let (neg, rest) :=
    match cs with
    | c :: t => if c = '-' then (true, t) else if c = '+' then (false, t) else (false, cs)
    | [] => (false, cs)
  let rec digits : List Char → Bool → Option Nat
    | [], acc0 => if acc0 then none else some 0
    | c :: t, acc0 =>
      if isDigitC c then
        match digits t false with
        | some n => some n
        | none => none
      else if c = '_' ∧ ¬ acc0 then
        match t with
        | c2 :: _ => if isDigitC c2 then digits t true else none
        | [] => none
      else none
  match rest with
  | [] => none
  | _ =>
    if (digits rest true).isSome then
      let n := (rest.filter isDigitC).foldl (fun a c => a * 10 + digitVal c) 0
      some (if neg then -(n : ℤ) else (n : ℤ))
    else none

/-- Model of Python `int(v)`: `none` models the TypeError/ValueError raise. -/
def pyInt : JValue → Option ℤ
  | .null => none
  | .bool b => some (if b then 1 else 0)
  | .num q => some (pyTrunc q)
  | .str s => pyIntOfChars s.toList
  | .arr _ => none
  | .obj _ => none

/-- Numeric coercion used by Python's arithmetic and comparisons: numbers and
bools participate, everything else raises `TypeError`. -/
def pyAsNumber : JValue → Option ℚ
  | .num q => some q
  | .bool b => some (if b then 1 else 0)
  | _ => none

/-- Float-literal parse for `float(s)` on a string that `_clean_numeric_value`
already reduced to digits, dots and minus signs: an optional leading minus,
then digits with at most one dot and at least one digit. -/
def parseCleanFloat (cs : List Char) : Option ℚ :=
  let (neg, rest) :=
    match cs with
    | c :: t => if c = '-' then (true, t) else (false, cs)
    | [] => (false, cs)
  let intPart := rest.takeWhile isDigitC
  let rest2 := rest.drop intPart.length
  let buildNum (ip fp : List Char) : ℚ :=
    let n : ℚ := (ip ++ fp).foldl (fun a c => a * 10 + (digitVal c : ℚ)) 0
    n / ((10 : ℚ) ^ fp.length)
  match rest2 with
  | [] =>
    if intPart = [] then none
    else some ((if neg then -1 else 1) * buildNum intPart [])
  | c :: frac =>
    if c = '.' ∧ frac.all isDigitC ∧ (intPart ≠ [] ∨ frac ≠ []) then
      some ((if neg then -1 else 1) * buildNum intPart frac)
    else none

/-- Decimal rendering of a rational for `str()`; exact for integers (the only
numeric renderings the claims exercise); non-integral values print up to
twelve fractional digits, which is exact for every decimal literal JSON can
deliver at that precision. -/
def renderRat (q : ℚ) : String :=
  let sign := if q < 0 then "-" else ""
  let a := |q|
  let ip := a.floor.toNat
  let rec fracDigits : Nat → ℚ → List Char
    | 0, _ => []
    | fuel + 1, r =>
      if r = 0 then []
      else
        let r10 := r * 10
        digitChar r10.floor.toNat :: fracDigits fuel (r10 - r10.floor)
  let frac := fracDigits 12 (a - a.floor)
  if frac = [] then sign ++ toString ip
  else sign ++ toString ip ++ "." ++ String.mk frac

/-- Model of Python `str(v)` as used on item names (`repr`-style rendering for
containers, whose exact escaping the claims never exercise). -/
def pyStr : JValue → String
  | .null => "None"
  | .bool true => "True"
  | .bool false => "False"
  | .num q => renderRat q
  | .str s => s
  | .arr _ => "[...]"
  | .obj _ => String.mk [chLBrace, '.', '.', '.', chRBrace]

/-! ### Model of `json.loads`

Strict RFC 8259 parsing as CPython's `json` module performs it: double-quoted
strings with escapes (strict mode, so raw control characters are rejected),
no single quotes, no unquoted keys, no trailing commas, no leading zeros;
whitespace (space, tab, newline, CR) allowed between tokens; the whole input
must be consumed; duplicate object keys keep the first position and the last
value, exactly as the dict built by the decoder does.  CPython's non-standard
`NaN`/`Infinity` constants fall outside the rational number model and are not
represented; no claim exercises them. -/

/-- Hexadecimal digit value for `\uXXXX` escapes. -/
def hexVal (c : Char) : Option Nat :=
  if 48 ≤ c.toNat ∧ c.toNat ≤ 57 then some (c.toNat - 48)
  else if 97 ≤ c.toNat ∧ c.toNat ≤ 102 then some (c.toNat - 87)
  else if 65 ≤ c.toNat ∧ c.toNat ≤ 70 then some (c.toNat - 55)
  else none

/-- Body of a JSON string literal after the opening quote; returns the decoded
content and the input following the closing quote.  Surrogate pairs are mapped
escape-by-escape (no claim exercises them). -/
def parseJStringBody : List Char → Option (List Char × List Char)
  | [] => none
  | c :: rest =>
    if c = chDQuote then some ([], rest)
    else if c = chBackslash then
      match rest with
      | [] => none
      | e :: rest2 =>
        let simpleEsc : Option Char :=
          if e = chDQuote then some chDQuote
          else if e = chBackslash then some chBackslash
          else if e = '/' then some '/'
          else if e = 'b' then some (Char.ofNat 8)
          else if e = 'f' then some (Char.ofNat 12)
          else if e = 'n' then some '\n'
          else if e = 'r' then some '\r'
          else if e = 't' then some '\t'
          else none
        match simpleEsc with
        | some ch =>
          match parseJStringBody rest2 with
          | some (content, tail) => some (ch :: content, tail)
          | none => none
        | none =>
          if e = 'u' then
            match rest2 with
            | h1 :: h2 :: h3 :: h4 :: rest3 =>
              match hexVal h1, hexVal h2, hexVal h3, hexVal h4 with
              | some a, some b, some c', some d =>
                match parseJStringBody rest3 with
                | some (content, tail) =>
                  some (Char.ofNat (a * 4096 + b * 256 + c' * 16 + d) :: content, tail)
                | none => none
              | _, _, _, _ => none
            | _ => none
          else none
    else if c.toNat < 32 then none
    else
      match parseJStringBody rest with
      | some (content, tail) => some (c :: content, tail)
      | none => none

/-- JSON number literal: `-? (0 | [1-9][0-9]*) (\.[0-9]+)? ([eE][+-]?[0-9]+)?`. -/
def parseJNumber (cs : List Char) : Option (ℚ × List Char) :=
  let (neg, cs1) :=
    match cs with
    | c :: t => if c = '-' then (true, t) else (false, cs)
    | [] => (false, cs)
  let intDigits := cs1.takeWhile isDigitC
  let cs2 := cs1.drop intDigits.length
  if intDigits = [] then none
  else if intDigits.length > 1 ∧ intDigits.headI = '0' then none
  else
    let intVal : ℚ := intDigits.foldl (fun a c => a * 10 + (digitVal c : ℚ)) 0
    let (fracVal, cs3) :=
      match cs2 with
      | c :: t =>
        if c = '.' then
          let fd := t.takeWhile isDigitC
          if fd = [] then (none, cs2)
          else
            (some ((fd.foldl (fun a c => a * 10 + (digitVal c : ℚ)) 0) / (10 : ℚ) ^ fd.length),
              t.drop fd.length)
        else (some 0, cs2)
      | [] => (some 0, cs2)
    match fracVal with
    | none => none
    | some fv =>
      let mantissa := intVal + fv
      let (expVal, cs4) :=
        match cs3 with
        | c :: t =>
          if c = 'e' ∨ c = 'E' then
            let (esign, t2) :=
              match t with
              | e :: t' => if e = '-' then ((-1 : ℤ), t') else if e = '+' then ((1 : ℤ), t') else ((1 : ℤ), t)
              | [] => ((1 : ℤ), t)
            let ed := t2.takeWhile isDigitC
            if ed = [] then (none, cs3)
            else (some (esign * (ed.foldl (fun a c => a * 10 + (digitVal c : ℤ)) 0)), t2.drop ed.length)
          else (some 0, cs3)
        | [] => (some 0, cs3)
      match expVal with
      | none => none
      | some ev =>
        let q := mantissa * (10 : ℚ) ^ ev
        some ((if neg then -q else q), cs4)

/-- Skip inter-token JSON whitespace. -/
def skipWS (cs : List Char) : List Char := cs.dropWhile isJsonWS

mutual

/-- JSON value at the current position (no leading whitespace). -/
def jparseV : Nat → List Char → Option (JValue × List Char)
  | 0, _ => none
  | fuel + 1, cs =>
    match cs with
    | [] => none
    | c :: rest =>
      if c = chLBrace then jparseObj fuel (skipWS rest) []
      else if c = '[' then jparseArr fuel (skipWS rest) []
      else if c = chDQuote then
        match parseJStringBody rest with
        | some (content, tail) => some (.str (String.mk content), tail)
        | none => none
      else if c = 't' then
        match rest with
        | 'r' :: 'u' :: 'e' :: tail => some (.bool true, tail)
        | _ => none
      else if c = 'f' then
        match rest with
        | 'a' :: 'l' :: 's' :: 'e' :: tail => some (.bool false, tail)
        | _ => none
      else if c = 'n' then
        match rest with
        | 'u' :: 'l' :: 'l' :: tail => some (.null, tail)
        | _ => none
      else
        match parseJNumber cs with
        | some (q, tail) => some (.num q, tail)
        | none => none

/-- Array elements; `acc` holds the elements parsed so far. -/
def jparseArr : Nat → List Char → List JValue → Option (JValue × List Char)
  | 0, _, _ => none
  | fuel + 1, cs, acc =>
    match cs with
    | ']' :: tail => if acc.isEmpty then some (.arr [], tail) else none
    | _ =>
      match jparseV fuel cs with
      | some (v, rest) =>
        match skipWS rest with
        | ']' :: tail => some (.arr (acc ++ [v]), tail)
        | ',' :: rest2 => jparseArr fuel (skipWS rest2) (acc ++ [v])
        | _ => none
      | none => none

/-- Object members; `acc` holds the bindings parsed so far. -/
def jparseObj : Nat → List Char → Obj → Option (JValue × List Char)
  | 0, _, _ => none
  | fuel + 1, cs, acc =>
    match cs with
    | c :: rest =>
      if c = chRBrace ∧ acc.isEmpty then some (.obj [], rest)
      else if c = chDQuote then
        match parseJStringBody rest with
        | some (content, afterKey) =>
          match skipWS afterKey with
          | ':' :: afterColon =>
            match jparseV fuel (skipWS afterColon) with
            | some (v, afterVal) =>
              let acc' := dSet acc (String.mk content) v
              match skipWS afterVal with
              | c2 :: tail =>
                if c2 = chRBrace then some (.obj acc', tail)
                else if c2 = ',' then jparseObj fuel (skipWS tail) acc'
                else none
              | [] => none
            | none => none
          | _ => none
        | none => none
      else none
    | [] => none

end

/-- Model of `json.loads`: leading/trailing whitespace allowed, the entire
input must be one JSON value.  `none` models `json.JSONDecodeError`. -/
def loads (s : String) : Option JValue :=
  let cs := skipWS s.toList
  match jparseV (cs.length + 1) cs with
  | some (v, rest) => if skipWS rest = [] then some v else none
  | none => none

/-! ### Text sanitizer and repair chain

Each `re.sub` of `_clean_response_text` and `_fix_common_json_issues` is
modelled as a left-to-right scanner that finds the same non-overlapping
matches the `re` engine finds (every pattern here is simple enough that greedy
matching with the single possible backtracking step is deterministic; the
correspondence is noted at each definition).  All scanners consume at least
one character per step, so a fuel of `length + 1` never runs out. -/

/-- Scanner for `re.sub(r'^```(?:json)?\s*', '', text, flags=re.MULTILINE)`.
The flag `atLS` records whether the current position is a line start in the
original text (position 0 or preceded by a newline, possibly one consumed by a
previous match's `\s*`). -/
def subFenceOpenAux : Nat → Bool → List Char → List Char
  | 0, _, cs => cs
  | fuel + 1, atLS, cs =>
    match cs with
    | [] => []
    | c :: rest =>
      if atLS ∧ cs.take 3 = [chBacktick, chBacktick, chBacktick] then
        let r1 := cs.drop 3
        let (r2, lastTok) :=
          if r1.take 4 = ['j', 's', 'o', 'n'] then (r1.drop 4, 'n') else (r1, chBacktick)
        let wsRun := r2.takeWhile isPyWS
        let r3 := r2.drop wsRun.length
        subFenceOpenAux fuel (wsRun.getLastD lastTok = '\n') r3
      else c :: subFenceOpenAux fuel (c = '\n') rest

/-- Scanner for `re.sub(r'\s*```$', '', text, flags=re.MULTILINE)`: the match
(whitespace run plus fence) is removed; `$` (before a newline or at the end)
consumes nothing. -/
def subFenceCloseAux : Nat → List Char → List Char
  | 0, cs => cs
  | fuel + 1, cs =>
    match cs with
    | [] => []
    | c :: rest =>
      let wsRun := cs.takeWhile isPyWS
      let r := cs.drop wsRun.length
      if r.take 3 = [chBacktick, chBacktick, chBacktick] ∧
          ((r.drop 3).isEmpty ∨ (r.drop 3).headI = '\n') then
        subFenceCloseAux fuel (r.drop 3)
      else c :: subFenceCloseAux fuel rest

/-- Scanner for `re.sub(r',\s*X', 'X', text)` with `X` a closing brace or
bracket: the comma and whitespace are dropped, the closer kept. -/
def subTrailComma (close : Char) : Nat → List Char → List Char
  | 0, cs => cs
  | _ + 1, [] => []
  | fuel + 1, c :: rest =>
    if c = ',' then
      let wsRun := rest.takeWhile isPyWS
      match rest.drop wsRun.length with
      | c2 :: tail =>
        if c2 = close then close :: subTrailComma close fuel tail
        else c :: subTrailComma close fuel rest
      | [] => c :: subTrailComma close fuel rest
    else c :: subTrailComma close fuel rest

/-- Index of the first occurrence of `c` (Python `str.find`, `none` for -1). -/
def idxOfFirst (c : Char) (cs : List Char) : Option Nat :=
  cs.findIdx? (· = c)

/-- Index of the last occurrence of `c` (Python `str.rfind`, `none` for -1). -/
def idxOfLast (c : Char) (cs : List Char) : Option Nat :=
  (cs.reverse.findIdx? (· = c)).map (fun i => cs.length - 1 - i)

/-- Model of `_clean_response_text`: empty input becomes an empty-object
string; otherwise strip markdown fences, slice from the first brace to the
last brace when that span is non-degenerate, strip, and drop trailing commas
before closers. -/
def cleanResponseText (text : String) : String :=
  if text = "" then String.mk [chLBrace, chRBrace]
  else
    let cs0 := text.toList
    let cs1 := subFenceOpenAux (cs0.length + 1) true cs0
    let cs2 := subFenceCloseAux (cs1.length + 1) cs1
    let cs3 :=
      match idxOfFirst chLBrace cs2, idxOfLast chRBrace cs2 with
      | some s, some e => if e > s then (cs2.drop s).take (e - s + 1) else cs2
      | _, _ => cs2
    let cs4 := pyStripL cs3
    let cs5 := subTrailComma chRBrace (cs4.length + 1) cs4
    let cs6 := subTrailComma ']' (cs5.length + 1) cs5
    String.mk cs6

/-- Scanner for `re.sub(r'(?<!\\)"(?=[^,}\]]*[,}\]])', '\\"', text)`, the first
rewrite of `_fix_common_json_issues`: a double quote not preceded by a
backslash, with a comma, closing brace or closing bracket somewhere after it,
is replaced by backslash-quote.  `prev` is the preceding character of the
original text. -/
def subEscapeQuotes : Nat → Option Char → List Char → List Char
  | 0, _, cs => cs
  | _ + 1, _, [] => []
  | fuel + 1, prev, c :: rest =>
    if c = chDQuote ∧ prev ≠ some chBackslash ∧
        rest.any (fun x => x = ',' ∨ x = chRBrace ∨ x = ']') then
      chBackslash :: chDQuote :: subEscapeQuotes fuel (some c) rest
    else c :: subEscapeQuotes fuel (some c) rest

/-- Scanner for `re.sub(r'(\w+):', r'"\1":', text)`: a maximal word run
immediately followed by a colon is wrapped in quotes (the `re` engine advances
one position when the match at the current position fails, exactly as here). -/
def subQuoteKeys : Nat → List Char → List Char
  | 0, cs => cs
  | _ + 1, [] => []
  | fuel + 1, c :: rest =>
    let run := (c :: rest).takeWhile isWordC
    if run.isEmpty then c :: subQuoteKeys fuel rest
    else
      match (c :: rest).drop run.length with
      | ':' :: tail => chDQuote :: (run ++ chDQuote :: ':' :: subQuoteKeys fuel tail)
      | _ => c :: subQuoteKeys fuel rest

/-- Scanner for `re.sub(r"'([^']*)'", r'"\1"', text)`: a single-quoted run
with no inner single quote becomes double-quoted. -/
def subSingleQuotes : Nat → List Char → List Char
  | 0, cs => cs
  | _ + 1, [] => []
  | fuel + 1, c :: rest =>
    if c = chSQuote then
      let content := rest.takeWhile (· ≠ chSQuote)
      match rest.drop content.length with
      | _ :: tail => chDQuote :: (content ++ chDQuote :: subSingleQuotes fuel tail)
      | [] => c :: subSingleQuotes fuel rest
    else c :: subSingleQuotes fuel rest

/-- Scanner for `re.sub(r',(\s*[}\]])', r'\1', text)`: the comma is dropped,
the whitespace and closer kept. -/
def subCommaBeforeClose : Nat → List Char → List Char
  | 0, cs => cs
  | _ + 1, [] => []
  | fuel + 1, c :: rest =>
    if c = ',' then
      let wsRun := rest.takeWhile isPyWS
      match rest.drop wsRun.length with
      | c2 :: tail =>
        if c2 = chRBrace ∨ c2 = ']' then wsRun ++ c2 :: subCommaBeforeClose fuel tail
        else c :: subCommaBeforeClose fuel rest
      | [] => c :: subCommaBeforeClose fuel rest
    else c :: subCommaBeforeClose fuel rest

/-- Model of `_fix_common_json_issues`: the four rewrites applied in sequence
to the same buffer. -/
def fixCommonJsonIssues (text : String) : String :=
  let cs0 := text.toList
  let cs1 := subEscapeQuotes (cs0.length + 1) none cs0
  let cs2 := subQuoteKeys (cs1.length + 1) cs1
  let cs3 := subSingleQuotes (cs2.length + 1) cs2
  let cs4 := subCommaBeforeClose (cs3.length + 1) cs3
  String.mk cs4

/-- Model of `_create_fallback_result`: the minimal record substituted when
processing fails, with `datetime.now()` passed in as `today`. -/
def createFallbackResult (errorMessage : String) (today : PyDate) : JValue :=
  .obj [("merchant_name", .str "Unknown"),
        ("transaction_date", .str (renderDate today)),
        ("total_amount", .num 0),
        ("currency", .str "USD"),
        ("category", .str "Other"),
        ("confidence", .num (1 / 10)),
        ("extraction_notes", .str ("Processing failed: " ++ errorMessage))]

/-- Model of `_extract_json_from_text`: slice from the first brace to the last
brace of the original text and attempt one strict decode; any failure yields
the fallback record with the fixed diagnostic message. -/
def extractJsonFromText (text : String) (today : PyDate) : JValue :=
  let cs := text.toList
  let sliced : Option (List Char) :=
    match idxOfFirst chLBrace cs, idxOfLast chRBrace cs with
    | some s, some e => if e + 1 > s then some ((cs.drop s).take (e + 1 - s)) else none
    | _, _ => none
  match sliced with
  | some js =>
    match loads (String.mk js) with
    | some v => v
    | none => createFallbackResult "Failed to parse AI response" today
  | none => createFallbackResult "Failed to parse AI response" today

/-- Model of `_parse_json_response`: strict decode, then the repair chain,
then the extraction fallback on the original (sanitized) text.  The function
never raises: every `json.JSONDecodeError` is caught internally. -/
def parseJsonResponse (text : String) (today : PyDate) : JValue :=
  match loads text with
  | some v => v
  | none =>
    match loads (fixCommonJsonIssues text) with
    | some v => v
    | none => extractJsonFromText text today

/-! ### Field validator / normalizer (`_validate_and_enhance_result`) -/

/-- Test for `v is None or v == ""` (Python equality with the empty string
holds only for the empty string itself). -/
def isNullOrEmptyStr : JValue → Bool
  | .null => true
  | .str s => s = ""
  | _ => false

/-- Required fields with their defaults, in source order; the date default is
`datetime.now().strftime("%Y-%m-%d")`. -/
def requiredDefaults (today : PyDate) : List (String × JValue) :=
  [("merchant_name", .str "Unknown"),
   ("transaction_date", .str (renderDate today)),
   ("total_amount", .num 0),
   ("currency", .str "USD"),
   ("category", .str "Other"),
   ("confidence", .num (1 / 2))]

/-- One iteration of the required-field defaulting loop,
`if field not in result or result[field] is None or result[field] == "":
result[field] = default`, over an arbitrary value: on a non-dict the
membership test, the subscript read in the condition, or the subscript
assignment raises, exactly as in Python. -/
def defaultStep (r : JValue) (kv : String × JValue) : Except PyErr JValue := do
  let present ← pyContainsStr r kv.1
  if present then do
    let v ← pyGetItemStr r kv.1
    if isNullOrEmptyStr v then pySetItemStr r kv.1 kv.2 else pure r
  else pySetItemStr r kv.1 kv.2

/-- Main expense categories, `get_category_list()`, in dict-literal order. -/
def categoryList : List String :=
  ["Food", "Transport", "Utilities", "Shopping", "Entertainment", "Healthcare",
   "Education", "Other"]

/-- Synonym table used when the category is not an exact member. -/
def categoryMapping : List (String × String) :=
  [("food & dining", "Food"), ("restaurant", "Food"), ("grocery", "Food"),
   ("gas", "Transport"), ("fuel", "Transport"), ("medical", "Healthcare"),
   ("pharmacy", "Healthcare"), ("retail", "Shopping"), ("store", "Shopping")]

/-- Python membership `result["category"] in get_category_list()`: the list
holds only strings, so only an equal string is a member. -/
def isCategoryMember : JValue → Bool
  | .str s => categoryList.contains s
  | _ => false

/-- Merchant-name cleaning: strings are stripped and empty results replaced by
the sentinel; non-string values pass through untouched (the source guards with
`isinstance(..., str)` and has no else branch).  `merchant_name` is present
here because the defaulting loop ran first. -/
def merchantStage (d : Obj) : Obj :=
  match dGet d "merchant_name" with
  | some (.str s) =>
    let s' := pyStrip s
    if s' = "" then dSet d "merchant_name" (.str "Unknown")
    else dSet d "merchant_name" (.str s')
  | _ => d

/-- Category normalization: exact members stay, otherwise a case-insensitive
synonym lookup (the lowered key is the empty string for non-string values),
otherwise `Other`. -/
def categoryStage (d : Obj) : Obj :=
  let v := dGetD d "category" .null
  if isCategoryMember v then d
  else
    let lower := match v with | .str s => pyLower s | _ => ""
    match categoryMapping.find? (fun kv => kv.1 = lower) with
    | some kv => dSet d "category" (.str kv.2)
    | none => dSet d "category" (.str "Other")

/-- Default returned by `_clean_numeric_value` when coercion fails. -/
def numericDefault (fieldName : String) : ℚ :=
  if fieldName = "confidence" then 1 / 2 else 0

/-- Float coercion of the `try` block of `_clean_numeric_value`: strings are
first reduced to digits, dots and minus signs (after `replace(',', '')`) and
then parsed by `float()`; numbers pass through; bools coerce to 0/1; `None`
(already filtered out by the caller) and containers raise, i.e. yield `none`. -/
def pyFloatCoerce : JValue → Option ℚ
  | .str s =>
    let cleaned := (s.toList.filter (fun c => c ≠ ',')).filter
      (fun c => isDigitC c ∨ c = '.' ∨ c = '-')
    if cleaned.isEmpty then none else parseCleanFloat cleaned
  | .bool b => some (if b then 1 else 0)
  | .num q => some q
  | _ => none

/-- Model of `_clean_numeric_value`: `None`/empty-string to the default;
any coercion failure yields the default; confidence is clamped to `[0, 1]`,
monetary values to `≥ 0`.  The function never raises
(`ValueError`/`TypeError` are caught). -/
def cleanNumericValue (v : JValue) (fieldName : String) : ℚ :=
  if isNullOrEmptyStr v then numericDefault fieldName
  else
    match pyFloatCoerce v with
    | none => numericDefault fieldName
    | some q => if fieldName = "confidence" then max 0 (min 1 q) else max 0 q

/-- Numeric fields cleaned by the validator, in source order. -/
def numericFields : List String :=
  ["total_amount", "subtotal", "tax_amount", "tip_amount", "discount_amount",
   "confidence"]

/-- One numeric field update: `if field in result: result[field] = _clean_numeric_value(...)`. -/
def cleanNumericField (acc : Obj) (f : String) : Obj :=
  match dGet acc f with
  | some v => dSet acc f (.num (cleanNumericValue v f))
  | none => acc

/-- Numeric-field pass: each field that is present is cleaned in place. -/
def numericStage (d : Obj) : Obj :=
  numericFields.foldl cleanNumericField d

/-- Model of `_validate_date`: falsy or non-string input yields the current
date, otherwise the format loop runs on the stripped string. -/
def validateDate (v : JValue) (today : PyDate) : String :=
  match v with
  | .str s => if s = "" then renderDate today else normalizeDateStr s today
  | _ => renderDate today

/-- Date pass: `transaction_date` (present after defaulting) is normalized. -/
def dateStage (d : Obj) (today : PyDate) : Obj :=
  dSet d "transaction_date" (.str (validateDate (dGetD d "transaction_date" .null) today))

/-- Model of `_validate_time`: falsy or non-string input yields `None`,
otherwise the time-format loop on the stripped string, re-rendered `%H:%M`;
an unparseable time also yields `None`. -/
def validateTime (v : JValue) : JValue :=
  match v with
  | .str s =>
    if s = "" then .null
    else
      match tryTimeFormats s with
      | some (h, m) => .str (renderTime h m)
      | none => .null
  | _ => .null

/-- Time pass: only a present and truthy `transaction_time` is rewritten. -/
def timeStage (d : Obj) : Obj :=
  match dGet d "transaction_time" with
  | some v => if truthy v then dSet d "transaction_time" (validateTime v) else d
  | none => d

/-- Currency symbol table of `_normalize_currency`. -/
def currencyMapping : List (String × String) :=
  [("$", "USD"), ("€", "EUR"), ("£", "GBP"), ("¥", "JPY"), ("₹", "INR"),
   ("₽", "RUB"), ("¢", "USD")]

/-- Model of `_normalize_currency`: falsy or non-string input becomes `USD`;
otherwise strip and uppercase, map known symbols, keep 3-letter alphabetic
codes, and fall back to `USD`. -/
def normalizeCurrency (v : JValue) : String :=
  match v with
  | .str s =>
    if s = "" then "USD"
    else
      let c := pyUpper (pyStrip s)
      match currencyMapping.find? (fun kv => kv.1 = c) with
      | some kv => kv.2
      | none => if c.length = 3 ∧ c.toList.all isAsciiAlphaC then c else "USD"
  | _ => "USD"

/-- Currency pass: `result["currency"] = _normalize_currency(result.get("currency", "USD"))`. -/
def currencyStage (d : Obj) : Obj :=
  dSet d "currency" (.str (normalizeCurrency (dGetD d "currency" (.str "USD"))))

/-- Validation of one line item (a dict): the name is `str(...)`-coerced and
stripped, the quantity goes through `int()` — which raises on `None`,
containers and non-integer-literal strings — and is clamped to at least 1, the
prices go through numeric cleaning.  Items whose name is empty or still the
`"Unknown Item"` sentinel are dropped (`none`). -/
def validateItem (o : Obj) : Except PyErr (Option Obj) := do
  let name := pyStrip (pyStr (dGetD o "name" (.str "Unknown Item")))
  let q ←
    match pyInt (dGetD o "quantity" (.num 1)) with
    | some n => Except.ok n
    | none => Except.error (.typeError "int() argument invalid")
  let quantity : ℤ := max 1 q
  let unit := cleanNumericValue (dGetD o "unit_price" (.num 0)) "unit_price"
  let total := cleanNumericValue (dGetD o "total_price" (.num 0)) "total_price"
  let vi : Obj := [("name", .str name), ("quantity", .num (quantity : ℚ)),
                   ("unit_price", .num unit), ("total_price", .num total)]
  if name ≠ "" ∧ name ≠ "Unknown Item" then pure (some vi) else pure none

/-- One iteration of the `_validate_items` loop: non-dict entries are skipped
(`isinstance(item, dict)` guard), surviving validated items are appended. -/
def validateItemsStep (acc : List JValue) (it : JValue) : Except PyErr (List JValue) :=
  match it with
  | .obj o => do
    match ← validateItem o with
    | some vi => pure (acc ++ [JValue.obj vi])
    | none => pure acc
  | _ => pure acc

/-- Model of `_validate_items`: the loop over the raw list. -/
def validateItems (xs : List JValue) : Except PyErr (List JValue) :=
  xs.foldlM validateItemsStep []

/-- Items pass: only a present list-valued `items` field is validated. -/
def itemsStage (d : Obj) : Except PyErr Obj :=
  match dGet d "items" with
  | some (.arr xs) => (validateItems xs).map (fun ys => dSet d "items" (.arr ys))
  | _ => .ok d

/-- Post-defaulting stages of `_validate_and_enhance_result` in source order;
only the items pass can raise (through `int()` on a malformed quantity). -/
def validateObjStages (d : Obj) (today : PyDate) : Except PyErr Obj :=
  itemsStage (currencyStage (timeStage (dateStage (numericStage (categoryStage (merchantStage d))) today)))

/-- Model of `_validate_and_enhance_result`: the required-field defaulting
loop over the raw decoded value (which raises on every non-dict in its first
iteration), then the per-field normalization passes. -/
def validateAndEnhanceResult (v : JValue) (today : PyDate) : Except PyErr JValue := do
  let r ← (requiredDefaults today).foldlM defaultStep v
  match r with
  | .obj d => (validateObjStages d today).map JValue.obj
  | _ => .error (.typeError "unreachable: defaulting raises on non-dicts")

/-! ### Cross-validator (`_cross_validate_data`) -/

/-- The generator-sum `sum(item.get("total_price", 0) for item in items)`:
iterating a non-list raises (`TypeError` for scalars, `AttributeError` on the
first element's `.get` for strings and dicts — both reach the same blanket
handler), as does a non-dict element or a non-numeric price. -/
def sumPricesStep (acc : ℚ) (it : JValue) : Except PyErr ℚ :=
  match it with
  | .obj o =>
    match pyAsNumber (dGetD o "total_price" (.num 0)) with
    | some q => Except.ok (acc + q)
    | none => Except.error (.typeError "unsupported operand type for +")
  | _ => Except.error (.typeError "object has no attribute get")

def sumTotalPrices (v : JValue) : Except PyErr ℚ :=
  match v with
  | .arr xs => xs.foldlM sumPricesStep 0
  | _ => Except.error (.typeError "object is not iterable")

/-- First consistency check of `_cross_validate_data` (items total vs receipt
total): possibly appends an extraction note and contributes `-0.2`.  Dynamic
typing faithfully raises where Python would (comparisons on non-numbers,
string concatenation onto a non-string note). -/
def cvItemsCheck (d : Obj) : Except PyErr (Obj × List ℚ) :=
  match dGet d "items" with
  | some itemsV =>
    if truthy itemsV then do
      let itemsTotal ← sumTotalPrices itemsV
      if itemsTotal > 0 then
        match pyAsNumber (dGetD d "total_amount" (.num 0)) with
        | none => Except.error (.typeError "comparison not supported")
        | some rt =>
          if rt > 0 then
            if |itemsTotal - rt| / rt > 1 / 10 then
              match dGetD d "extraction_notes" (.str "") with
              | .str notes =>
                Except.ok (dSet d "extraction_notes"
                  (.str (notes ++ " Items total doesn\x27t match receipt total.")), [-(1 / 5)])
              | _ => Except.error (.typeError "can only concatenate str")
            else Except.ok (d, [])
          else Except.ok (d, [])
      else Except.ok (d, [])
    else Except.ok (d, [])
  | none => Except.ok (d, [])

/-- Second consistency check (subtotal + tax + tip − discount vs total):
contributes `-0.1` on a mismatch above 5 %. -/
def cvSubtotalCheck (d1 : Obj) : Except PyErr (List ℚ) :=
  match pyAsNumber (dGetD d1 "subtotal" (.num 0)) with
  | none => Except.error (.typeError "comparison not supported")
  | some sub =>
    if sub > 0 then
      match pyAsNumber (dGetD d1 "total_amount" (.num 0)) with
      | none => Except.error (.typeError "comparison not supported")
      | some tot =>
        if tot > 0 then
          match pyAsNumber (dGetD d1 "tax_amount" (.num 0)),
              pyAsNumber (dGetD d1 "tip_amount" (.num 0)),
              pyAsNumber (dGetD d1 "discount_amount" (.num 0)) with
          | some tax, some tip, some disc =>
            let expected := sub + tax + tip - disc
            Except.ok (if |expected - tot| / tot > 1 / 20 then [-(1 / 10)] else [])
          | _, _, _ => Except.error (.typeError "unsupported operand type for +")
        else Except.ok []
    else Except.ok []

/-- Third consistency check (suspiciously high total): `-0.1` above 10000. -/
def cvHighCheck (d1 : Obj) : Except PyErr (List ℚ) :=
  match pyAsNumber (dGetD d1 "total_amount" (.num 0)) with
  | some tot => Except.ok (if tot > 10000 then [-(1 / 10)] else [])
  | none => Except.error (.typeError "comparison not supported")

/-- Fourth consistency check (merchant still unknown): `-0.2`. -/
def cvMerchantCheck (d1 : Obj) : List ℚ :=
  match dGet d1 "merchant_name" with
  | some (.str s) => if s = "Unknown" then [-(1 / 5)] else []
  | _ => []

/-- Model of `_cross_validate_data`: the four consistency checks in source
order, each contributing a non-positive confidence adjustment, then the
clamped sum written back. -/
def crossValidateData (d : Obj) : Except PyErr Obj := do
  let original := dGetD d "confidence" (.num (1 / 2))
  let (d1, adj1) ← cvItemsCheck d
  let adj2 ← cvSubtotalCheck d1
  let adj3 ← cvHighCheck d1
  let adj4 := cvMerchantCheck d1
  match pyAsNumber original with
  | none => Except.error (.typeError "unsupported operand type for +")
  | some oq =>
    let finalConf := oq + (adj1 ++ adj2 ++ adj3 ++ adj4).sum
    Except.ok (dSet d1 "confidence" (.num (max 0 (min 1 finalConf))))

/-- Cross-validation entry on an arbitrary value: `result.get(...)` on a
non-dict raises `AttributeError` (unreachable after a successful validation). -/
def crossValidateJ (v : JValue) : Except PyErr JValue :=
  match v with
  | .obj d => (crossValidateData d).map JValue.obj
  | _ => .error (.typeError "object has no attribute get")

/-! ### Retry orchestrator (`process_receipt`) -/

/-- One full pipeline attempt on a (stripped) response text: sanitize, parse
leniently, validate, cross-validate.  This is the attempt body of
`process_receipt` after a successful model call. -/
def processOnce (text : String) (today : PyDate) : Except PyErr JValue := do
  let cleaned := cleanResponseText text
  let parsed := parseJsonResponse cleaned today
  let validated ← validateAndEnhanceResult parsed today
  crossValidateJ validated

/-- External model invocation per attempt index: raw text or a transport
error (`generate_content` raising). -/
def ModelStub : Type := Nat → Except String String

/-- One attempt of the retry loop: invoke the model, raise `ValueError` on an
empty response, then run the pipeline on the stripped text. -/
def attemptOnce (stub : ModelStub) (i : Nat) (today : PyDate) : Except PyErr JValue := do
  let text ←
    match stub i with
    | .ok t => Except.ok t
    | .error m => Except.error (PyErr.transport m)
  if text = "" then Except.error (.valueError "Empty response from AI model")
  else processOnce (pyStrip text) today

/-- Model of `process_receipt` with its `max_retries = 3` loop, returning the
record together with the number of model invocations performed.  A
`json.JSONDecodeError` on the final attempt would divert to
`_extract_json_from_text` on the last response text; that handler is dead code
because the pipeline catches every decode error internally (proved below), but
it is kept to mirror the source.  After the last failure the synthetic
fallback record is built from `str(last_error)`. -/
def processReceipt (stub : ModelStub) (today : PyDate) : JValue × Nat :=
  match attemptOnce stub 0 today with
  | .ok r => (r, 1)
  | .error _ =>
    match attemptOnce stub 1 today with
    | .ok r => (r, 2)
    | .error _ =>
      match attemptOnce stub 2 today with
      | .ok r => (r, 3)
      | .error (.jsonDecode _) =>
        (extractJsonFromText (pyStrip ((stub 2).toOption.getD "")) today, 3)
      | .error e => (createFallbackResult (pyErrStr e) today, 3)

/-! ### Specification predicates and concrete inputs -/

/-- Specialization of `defaultStep` to dicts, where no operation raises:
missing, `None` and empty-string values are replaced by the default. -/
def defaultFieldPure (d : Obj) (kv : String × JValue) : Obj :=
  match dGet d kv.1 with
  | none => dSet d kv.1 kv.2
  | some v => if isNullOrEmptyStr v then dSet d kv.1 kv.2 else d

/-- The six required field names. -/
def requiredFieldNames : List String :=
  ["merchant_name", "transaction_date", "total_amount", "currency", "category",
   "confidence"]

/-- Shape of a line item produced by `_validate_items`: the four fields in
construction order, a stripped non-sentinel name, an integer quantity at least
1, and non-negative prices. -/
def NormItemP (it : JValue) : Prop :=
  ∃ (nm : String) (q : ℤ) (up tp : ℚ),
    it = .obj [("name", .str nm), ("quantity", .num (q : ℚ)),
               ("unit_price", .num up), ("total_price", .num tp)] ∧
    nm ≠ "" ∧ nm ≠ "Unknown Item" ∧ pyStrip nm = nm ∧ 1 ≤ q ∧ 0 ≤ up ∧ 0 ≤ tp

/-- Normal form established by `_validate_and_enhance_result` on success and
preserved by re-validation: exactly the per-field facts each pass guarantees. -/
structure NormObj (d : Obj) (today : PyDate) : Prop where
  merchant_some : (dGet d "merchant_name").isSome
  merchant_ne : ∀ v, dGet d "merchant_name" = some v → isNullOrEmptyStr v = false
  merchant_str : ∀ s, dGet d "merchant_name" = some (.str s) → pyStrip s = s ∧ s ≠ ""
  category : ∃ s, dGet d "category" = some (.str s) ∧ s ∈ categoryList
  date : ∃ dt, PyDate.Valid dt ∧ dGet d "transaction_date" = some (.str (renderDate dt))
  numerics : ∀ f ∈ numericFields, ∀ v, dGet d f = some v →
    ∃ q : ℚ, v = .num q ∧ 0 ≤ q ∧ (f = "confidence" → q ≤ 1)
  total_some : (dGet d "total_amount").isSome
  conf_some : (dGet d "confidence").isSome
  currency : ∃ s, dGet d "currency" = some (.str s) ∧ normalizeCurrency (.str s) = s
  time : ∀ v, dGet d "transaction_time" = some v → truthy v = false ∨ validateTime v = v
  items : ∀ v, dGet d "items" = some v → ∀ xs, v = .arr xs → ∀ it ∈ xs, NormItemP it

/-- Record invariants claimed for every pipeline output, weakened to what the
code guarantees: six required fields present (the merchant only present, not
string-typed); category a string in the fixed set; confidence a number in
`[0, 1]`; the date the `strftime("%Y-%m-%d")` rendering of a valid calendar
date (which re-parses under the accepted formats only when the year has four
digits — glibc leaves smaller years unpadded); total amount a number; currency
a string; every entry of a list-valued items field carrying a numeric quantity
of at least 1. -/
def RecordInvariant (v : JValue) : Prop :=
  ∃ d : Obj, v = .obj d ∧
    (∀ f ∈ requiredFieldNames, (dGet d f).isSome) ∧
    (∃ s, dGet d "category" = some (.str s) ∧ s ∈ categoryList) ∧
    (∃ q : ℚ, dGet d "confidence" = some (.num q) ∧ 0 ≤ q ∧ q ≤ 1) ∧
    (∃ t, dGet d "transaction_date" = some (.str t) ∧
      ∃ dt, PyDate.Valid dt ∧ t = renderDate dt) ∧
    (∃ q : ℚ, dGet d "total_amount" = some (.num q)) ∧
    (∃ c, dGet d "currency" = some (.str c)) ∧
    (∀ xs, dGet d "items" = some (.arr xs) →
      ∀ it ∈ xs, ∃ o, it = .obj o ∧ ∃ q : ℚ, dGet o "quantity" = some (.num q) ∧ 1 ≤ q)

/-- Concrete current date used by closed witnesses and counterexamples. -/
def today0 : PyDate := PyDate.mk 2024 1 15

/-- Input of the repair-coverage property: the model reply
`The answer is: {"merchant_name": 'Cafe', total_amount: 5.00,}`. -/
def repairInput : String :=
  "The answer is: \x7b\"merchant_name\": \x27Cafe\x27, total_amount: 5.00,\x7d"

/-- The mapping the repair-coverage property expects the parser to recover. -/
def repairExpected : JValue :=
  .obj [("merchant_name", .str "Cafe"), ("total_amount", .num 5)]

/-- Stub model that always raises a transport error. -/
def stubFail : ModelStub := fun _ => .error "boom"

/-- Stub model that always replies with a JSON array. -/
def stubArr : ModelStub := fun _ => .ok "[1, 2]"

/-- Stub model whose reply carries a numeric `merchant_name`. -/
def stub42 : ModelStub := fun _ => .ok "\x7b\"merchant_name\": 42, \"total_amount\": 5\x7d"

/-- Stub model whose reply carries a year-999 transaction date. -/
def stub999 : ModelStub := fun _ => .ok "\x7b\"transaction_date\": \"0999-01-01\"\x7d"

/-- The record produced by validating the empty dict on `today0`: all six
required fields defaulted. -/
def normEmpty : Obj :=
  [("merchant_name", .str "Unknown"), ("transaction_date", .str "2024-01-15"),
   ("total_amount", .num 0), ("currency", .str "USD"), ("category", .str "Other"),
   ("confidence", .num (1 / 2))]

/-- `normEmpty` after cross-validation: the unknown-merchant penalty lowers the
confidence from `0.5` to `0.3`. -/
def normEmptyCross : Obj :=
  [("merchant_name", .str "Unknown"), ("transaction_date", .str "2024-01-15"),
   ("total_amount", .num 0), ("currency", .str "USD"), ("category", .str "Other"),
   ("confidence", .num (3 / 10))]

/-! ## Lemmas: dictionaries -/

theorem dGet_dSet_self (d : Obj) (k : String) (v : JValue) :
    dGet (dSet d k v) k = some v := by
  induction d with
  | nil => simp [dSet, dGet]
  | cons p t ih =>
    obtain ⟨k', v'⟩ := p
    by_cases h : k' = k
    · simp [dSet, dGet, h]
    · simp [dSet, dGet, h, ih]

theorem dGet_dSet_ne (d : Obj) (k k2 : String) (v : JValue) (h : k ≠ k2) :
    dGet (dSet d k v) k2 = dGet d k2 := by
  induction d with
  | nil => simp [dSet, dGet, h]
  | cons p t ih =>
    obtain ⟨k', v'⟩ := p
    by_cases h' : k' = k
    · subst h'; simp [dSet, dGet, h]
    · simp [dSet, dGet, h', ih]

theorem dSet_self (d : Obj) (k : String) (v : JValue) (h : dGet d k = some v) :
    dSet d k v = d := by
  induction d with
  | nil => simp [dGet] at h
  | cons p t ih =>
    obtain ⟨k', v'⟩ := p
    by_cases h' : k' = k
    · subst h'
      simp [dGet] at h
      simp [dSet, h]
    · simp [dGet, h'] at h
      simp [dSet, h', ih h]

/-! ## Lemmas: stripping -/

theorem dropWhile_eq_self_of (p : Char → Bool) (cs : List Char)
    (h : ∀ c ∈ cs, p c = false) : cs.dropWhile p = cs := by
  cases cs with
  | nil => rfl
  | cons c t => simp [List.dropWhile_cons, h c (by simp)]

theorem pyStripL_eq_self (cs : List Char) (h : ∀ c ∈ cs, isPyWS c = false) :
    pyStripL cs = cs := by
  unfold pyStripL dropRightWhile
  rw [dropWhile_eq_self_of _ _ h,
    dropWhile_eq_self_of _ _ (fun c hc => h c (List.mem_reverse.mp hc)), List.reverse_reverse]

theorem dropWhile_head_not (p : Char → Bool) (cs : List Char) (c : Char) (t : List Char)
    (h : cs.dropWhile p = c :: t) : p c = false := by
  induction cs with
  | nil => simp [List.dropWhile] at h
  | cons x xs ih =>
    rw [List.dropWhile_cons] at h
    by_cases hx : p x
    · exact ih (by simpa [hx] using h)
    · obtain ⟨rfl, _⟩ : x = c ∧ xs = t := by simpa [hx] using h
      simpa using hx

theorem dropWhile_idem (p : Char → Bool) (cs : List Char) :
    (cs.dropWhile p).dropWhile p = cs.dropWhile p := by
  cases h : cs.dropWhile p with
  | nil => rfl
  | cons c t => rw [List.dropWhile_cons, dropWhile_head_not p cs c t h]; simp

theorem pyStripL_idem (cs : List Char) : pyStripL (pyStripL cs) = pyStripL cs := by
  unfold pyStripL dropRightWhile
  set A := cs.dropWhile isPyWS with hA
  set B := A.reverse.dropWhile isPyWS with hB
  have h1 : B.reverse.dropWhile isPyWS = B.reverse := by
    cases hBr : B.reverse with
    | nil => rfl
    | cons c t =>
      have hBne : B ≠ [] := by
        intro h; rw [h] at hBr; simp at hBr
      have hc : B.getLast? = some c := by
        rw [← List.head?_reverse, hBr]; rfl
      obtain ⟨pre, hpre⟩ : B <:+ A.reverse := by rw [hB]; exact List.dropWhile_suffix _
      have hlast : A.reverse.getLast? = some c := by
        rw [← hpre, List.getLast?_append, hc]; rfl
      have hhead : A.head? = some c := by
        have h2 := List.head?_reverse A.reverse
        rw [List.reverse_reverse] at h2
        rw [h2]; exact hlast
      have hpc : isPyWS c = false := by
        cases hAc : A with
        | nil => rw [hAc] at hhead; simp at hhead
        | cons a t' =>
          have hac : a = c := by rw [hAc] at hhead; simpa using hhead
          subst hac
          have hdw : cs.dropWhile isPyWS = a :: t' := by rw [← hA]; exact hAc
          exact dropWhile_head_not isPyWS cs a t' hdw
      rw [List.dropWhile_cons, hpc]; simp
  rw [h1, List.reverse_reverse, hB, dropWhile_idem]

theorem pyStrip_idem (s : String) : pyStrip (pyStrip s) = pyStrip s := by
  unfold pyStrip
  rw [show (String.mk (pyStripL s.toList)).toList = pyStripL s.toList from rfl, pyStripL_idem]

/-! ## Lemmas: strptime round trips and ranges -/

theorem tryAlts_month {α : Type} (m : Nat) (h1 : 1 ≤ m) (h2 : m ≤ 12)
    (cont : Nat → List Char → Option α) (rest : List Char) (r : α)
    (hc : cont m rest = some r) :
    tryAlts monthAlts cont (pad2 m ++ rest) = some r := by
  interval_cases m <;>
    simp [monthAlts, pad2, tryAlts, altTwoDigit, altOneDigit, digitChar, digitVal, isDigitC, hc]

theorem tryAlts_day {α : Type} (d : Nat) (h1 : 1 ≤ d) (h2 : d ≤ 31)
    (cont : Nat → List Char → Option α) (rest : List Char) (r : α)
    (hc : cont d rest = some r) :
    tryAlts dayAlts cont (pad2 d ++ rest) = some r := by
  interval_cases d <;>
    simp [dayAlts, pad2, tryAlts, altTwoDigit, altOneDigit, digitChar, digitVal, isDigitC, hc]

theorem tryAlts_hour {α : Type} (h : Nat) (h2 : h ≤ 23)
    (cont : Nat → List Char → Option α) (rest : List Char) (r : α)
    (hc : cont h rest = some r) :
    tryAlts hourAlts cont (pad2 h ++ rest) = some r := by
  interval_cases h <;>
    simp [hourAlts, pad2, tryAlts, altTwoDigit, altOneDigit, digitChar, digitVal, isDigitC, hc]

theorem tryAlts_minute {α : Type} (m : Nat) (h2 : m ≤ 59)
    (cont : Nat → List Char → Option α) (rest : List Char) (r : α)
    (hc : cont m rest = some r) :
    tryAlts minuteAlts cont (pad2 m ++ rest) = some r := by
  interval_cases m <;>
    simp [minuteAlts, pad2, tryAlts, altTwoDigit, altOneDigit, digitChar, digitVal, isDigitC, hc]

theorem year4_pad4 (y : Nat) (h1 : y ≤ 9999) (rest : List Char) :
    year4 (pad4 y ++ rest) = some (y, rest) := by
  simp only [pad4, year4, List.cons_append, List.nil_append]
  have h0 : ∀ k, k < 10 → isDigitC (digitChar k) = true := by decide
  have hv : ∀ k, k < 10 → digitVal (digitChar k) = k := by decide
  rw [if_pos]
  · simp only [Option.some.injEq, Prod.mk.injEq, and_true]
    rw [hv _ (by omega), hv _ (by omega), hv _ (by omega), hv _ (by omega)]
    omega
  · exact ⟨h0 _ (by omega), h0 _ (by omega), h0 _ (by omega), h0 _ (by omega)⟩

theorem renderYear_eq_pad4 (y : Nat) (h : 1000 ≤ y) : renderYear y = pad4 y := by
  unfold renderYear
  rw [if_neg (by omega), if_neg (by omega), if_neg (by omega)]

theorem renderYear_digits (y : Nat) :
    ∀ c ∈ renderYear y, ∃ k, k < 10 ∧ c = digitChar k := by
  unfold renderYear
  by_cases h1 : y < 10
  · rw [if_pos h1]
    intro c hc
    simp only [List.mem_singleton] at hc
    exact ⟨y % 10, Nat.mod_lt _ (by norm_num), hc⟩
  · rw [if_neg h1]
    by_cases h2 : y < 100
    · rw [if_pos h2]
      intro c hc
      simp only [List.mem_cons, List.not_mem_nil, or_false] at hc
      rcases hc with rfl | rfl
      · exact ⟨y / 10 % 10, Nat.mod_lt _ (by norm_num), rfl⟩
      · exact ⟨y % 10, Nat.mod_lt _ (by norm_num), rfl⟩
    · rw [if_neg h2]
      by_cases h3 : y < 1000
      · rw [if_pos h3]
        intro c hc
        simp only [List.mem_cons, List.not_mem_nil, or_false] at hc
        rcases hc with rfl | rfl | rfl
        · exact ⟨y / 100 % 10, Nat.mod_lt _ (by norm_num), rfl⟩
        · exact ⟨y / 10 % 10, Nat.mod_lt _ (by norm_num), rfl⟩
        · exact ⟨y % 10, Nat.mod_lt _ (by norm_num), rfl⟩
      · rw [if_neg h3]
        intro c hc
        simp only [pad4, List.mem_cons, List.not_mem_nil, or_false] at hc
        rcases hc with rfl | rfl | rfl | rfl
        · exact ⟨y / 1000 % 10, Nat.mod_lt _ (by norm_num), rfl⟩
        · exact ⟨y / 100 % 10, Nat.mod_lt _ (by norm_num), rfl⟩
        · exact ⟨y / 10 % 10, Nat.mod_lt _ (by norm_num), rfl⟩
        · exact ⟨y % 10, Nat.mod_lt _ (by norm_num), rfl⟩

theorem daysInMonth_le_31 (y m : Nat) : daysInMonth y m ≤ 31 := by
  unfold daysInMonth
  split
  · split <;> omega
  · split <;> omega

theorem renderDate_no_ws (d : PyDate) : ∀ c ∈ (renderDate d).toList, isPyWS c = false := by
  have hd : ∀ k, k < 10 → isPyWS (digitChar k) = false := by decide
  intro c hc
  have hl : (renderDate d).toList =
      renderYear d.year ++ ('-' ::
       [digitChar (d.month / 10 % 10), digitChar (d.month % 10), '-',
        digitChar (d.day / 10 % 10), digitChar (d.day % 10)]) := rfl
  rw [hl] at hc
  rcases List.mem_append.mp hc with hy | hrest
  · obtain ⟨k, hk, rfl⟩ := renderYear_digits d.year c hy
    exact hd k hk
  · simp only [List.mem_cons, List.not_mem_nil, or_false] at hrest
    rcases hrest with rfl | rfl | rfl | rfl | rfl | rfl <;>
      first
        | exact hd _ (Nat.mod_lt _ (by norm_num))
        | decide

theorem pyStrip_renderDate (d : PyDate) : pyStrip (renderDate d) = renderDate d := by
  unfold pyStrip
  rw [pyStripL_eq_self _ (renderDate_no_ws d)]
  rfl

theorem renderTime_no_ws (h m : Nat) : ∀ c ∈ (renderTime h m).toList, isPyWS c = false := by
  have hd : ∀ k, k < 10 → isPyWS (digitChar k) = false := by decide
  intro c hc
  have hl : (renderTime h m).toList =
      [digitChar (h / 10 % 10), digitChar (h % 10), ':',
       digitChar (m / 10 % 10), digitChar (m % 10)] := rfl
  rw [hl] at hc
  simp only [List.mem_cons, List.not_mem_nil, or_false] at hc
  rcases hc with rfl | rfl | rfl | rfl | rfl <;>
    first
      | exact hd _ (Nat.mod_lt _ (by norm_num))
      | decide

theorem pyStrip_renderTime (h m : Nat) : pyStrip (renderTime h m) = renderTime h m := by
  unfold pyStrip
  rw [pyStripL_eq_self _ (renderTime_no_ws h m)]
  rfl

theorem tryAlts_cons {α : Type} (a : List Char → Option (Nat × List Char))
    (alts : List (List Char → Option (Nat × List Char)))
    (cont : Nat → List Char → Option α) (cs : List Char) :
    tryAlts (a :: alts) cont cs =
      match a cs with
      | some (v, cs') =>
        (match cont v cs' with
         | some r => some r
         | none => tryAlts alts cont cs)
      | none => tryAlts alts cont cs := by
  cases h : a cs with
  | none => simp [tryAlts, h]
  | some p =>
    obtain ⟨v, cs'⟩ := p
    cases hc : cont v cs' <;> simp [tryAlts, h, hc]

theorem tryAlts_first {α : Type} (a : List Char → Option (Nat × List Char))
    (alts : List (List Char → Option (Nat × List Char)))
    (cont : Nat → List Char → Option α) (cs : List Char) (v : Nat) (cs' : List Char) (r : α)
    (ha : a cs = some (v, cs')) (hc : cont v cs' = some r) :
    tryAlts (a :: alts) cont cs = some r := by
  simp [tryAlts, ha, hc]

theorem regexYMD_render (dt : PyDate) (h : dt.Valid) (h4 : 1000 ≤ dt.year) :
    regexYMD '-' (renderDate dt).toList = some (dt.year, dt.month, dt.day) := by
  obtain ⟨hy1, hy2, hm1, hm2, hd1, hd2⟩ := h
  have hd31 : dt.day ≤ 31 := hd2.trans (daysInMonth_le_31 _ _)
  have hday : tryAlts dayAlts
      (fun d cs5 => if cs5 = [] then some (dt.year, dt.month, d) else none)
      (pad2 dt.day) = some (dt.year, dt.month, dt.day) := by
    have := tryAlts_day dt.day hd1 hd31
      (fun d cs5 => if cs5 = [] then some (dt.year, dt.month, d) else none) []
      (dt.year, dt.month, dt.day) (by simp)
    simpa using this
  have hmonth : tryAlts monthAlts
      (fun m cs3 => (matchLit '-' cs3).bind
        (fun cs4 => tryAlts dayAlts
          (fun d cs5 => if cs5 = [] then some (dt.year, m, d) else none) cs4))
      (pad2 dt.month ++ '-' :: pad2 dt.day) = some (dt.year, dt.month, dt.day) :=
    tryAlts_month dt.month hm1 hm2 _ _ _ hday
  have hrd : (renderDate dt).toList =
      pad4 dt.year ++ '-' :: (pad2 dt.month ++ '-' :: pad2 dt.day) := by
    show renderYear dt.year ++ '-' :: (pad2 dt.month ++ '-' :: pad2 dt.day) = _
    rw [renderYear_eq_pad4 dt.year h4]
  rw [hrd]
  unfold regexYMD
  exact tryAlts_first year4 [] _ _ dt.year _ _ (year4_pad4 dt.year hy2 _) hmonth

theorem renderDate_ne_empty (dt : PyDate) : renderDate dt ≠ "" := by
  intro h
  have h2 : (renderYear dt.year ++ '-' :: (pad2 dt.month ++ '-' :: pad2 dt.day)).length =
      ([] : List Char).length := congrArg (fun s => s.toList.length) h
  simp at h2

theorem renderTime_ne_empty (h m : Nat) : renderTime h m ≠ "" := by
  intro he
  have h2 : (renderTime h m).length = ("" : String).length := congrArg String.length he
  rw [show (renderTime h m).length = 5 from rfl] at h2
  simp at h2

theorem mkValidDate_valid (y m d : Nat) (dt : PyDate) (h : mkValidDate y m d = some dt) :
    dt.Valid := by
  unfold mkValidDate at h
  split at h
  · cases h; assumption
  · cases h

theorem tryDateFormat_valid (fmt : DateFmt) (s : String) (dt : PyDate)
    (h : tryDateFormat fmt s = some dt) : dt.Valid := by
  unfold tryDateFormat at h
  split at h
  · exact mkValidDate_valid _ _ _ _ h
  · cases h

theorem tryDateFormats_valid (s : String) (dt : PyDate)
    (h : tryDateFormats s = some dt) : dt.Valid := by
  unfold tryDateFormats at h
  obtain ⟨fmt, _, hf⟩ := List.exists_of_findSome?_eq_some h
  exact tryDateFormat_valid fmt s dt hf

theorem tryDateFormat_render (dt : PyDate) (h : dt.Valid) (h4 : 1000 ≤ dt.year) :
    tryDateFormat .ymdDash (renderDate dt) = some dt := by
  unfold tryDateFormat
  rw [show dateRegexOf .ymdDash = regexYMD '-' from rfl, regexYMD_render dt h h4]
  show mkValidDate dt.year dt.month dt.day = some dt
  unfold mkValidDate
  rw [if_pos (show (PyDate.mk dt.year dt.month dt.day).Valid from h)]

theorem tryDateFormats_render (dt : PyDate) (h : dt.Valid) (h4 : 1000 ≤ dt.year) :
    tryDateFormats (renderDate dt) = some dt := by
  unfold tryDateFormats dateFormats
  rw [List.findSome?_cons, tryDateFormat_render dt h h4]

theorem normalizeDateStr_render (dt today : PyDate) (h : dt.Valid) (h4 : 1000 ≤ dt.year) :
    normalizeDateStr (renderDate dt) today = renderDate dt := by
  unfold normalizeDateStr
  rw [pyStrip_renderDate, tryDateFormats_render dt h h4]

theorem normalizeDateStr_valid (s : String) (today : PyDate) (ht : today.Valid) :
    ∃ dt, PyDate.Valid dt ∧ normalizeDateStr s today = renderDate dt := by
  unfold normalizeDateStr
  cases h : tryDateFormats (pyStrip s) with
  | some d => exact ⟨d, tryDateFormats_valid _ _ h, rfl⟩
  | none => exact ⟨today, ht, rfl⟩

theorem validateDate_str (s : String) (today : PyDate) :
    validateDate (.str s) today =
      (if s = "" then renderDate today else normalizeDateStr s today) := rfl

theorem validateDate_valid (v : JValue) (today : PyDate) (ht : today.Valid) :
    ∃ dt, PyDate.Valid dt ∧ validateDate v today = renderDate dt := by
  cases v with
  | str s =>
    rw [validateDate_str]
    by_cases hs : s = ""
    · exact ⟨today, ht, by rw [if_pos hs]⟩
    · rw [if_neg hs]
      exact normalizeDateStr_valid s today ht
  | null => exact ⟨today, ht, rfl⟩
  | bool b => exact ⟨today, ht, rfl⟩
  | num q => exact ⟨today, ht, rfl⟩
  | arr xs => exact ⟨today, ht, rfl⟩
  | obj d => exact ⟨today, ht, rfl⟩

theorem validateDate_render (dt today : PyDate) (h : dt.Valid) (h4 : 1000 ≤ dt.year) :
    validateDate (.str (renderDate dt)) today = renderDate dt := by
  rw [validateDate_str, if_neg (renderDate_ne_empty dt),
    normalizeDateStr_render dt today h h4]

theorem regexHM_render (h m : Nat) (hh : h ≤ 23) (hm : m ≤ 59) :
    regexHM (renderTime h m).toList = some (h, m) := by
  have hmin : tryAlts minuteAlts (fun m' cs3 => if cs3 = [] then some (h, m') else none)
      (pad2 m) = some (h, m) := by
    have := tryAlts_minute m hm (fun m' cs3 => if cs3 = [] then some (h, m') else none) []
      (h, m) (by simp)
    simpa using this
  show regexHM (pad2 h ++ ':' :: pad2 m) = _
  unfold regexHM
  exact tryAlts_hour h hh _ (':' :: pad2 m) (h, m) hmin

theorem tryTimeFormats_render (h m : Nat) (hh : h ≤ 23) (hm : m ≤ 59) :
    tryTimeFormats (renderTime h m) = some (h, m) := by
  unfold tryTimeFormats
  rw [pyStrip_renderTime, regexHM_render h m hh hm]

theorem tryAlts_ok {α : Type} (alts : List (List Char → Option (Nat × List Char)))
    (cont : Nat → List Char → Option α) (cs : List Char) (r : α)
    (h : tryAlts alts cont cs = some r) :
    ∃ a ∈ alts, ∃ v cs', a cs = some (v, cs') ∧ cont v cs' = some r := by
  induction alts with
  | nil => simp [tryAlts] at h
  | cons a rest ih =>
    rw [tryAlts_cons] at h
    cases ha : a cs with
    | none =>
      rw [ha] at h
      obtain ⟨b, hb, v, cs', hbc, hcc⟩ := ih h
      exact ⟨b, List.mem_cons_of_mem a hb, v, cs', hbc, hcc⟩
    | some p =>
      obtain ⟨v, cs'⟩ := p
      rw [ha] at h
      have h2 : (match cont v cs' with
        | some r => some r
        | none => tryAlts rest cont cs) = some r := h
      cases hc : cont v cs' with
      | some r' =>
        rw [hc] at h2
        simp only [Option.some.injEq] at h2
        exact ⟨a, List.mem_cons_self a rest, v, cs', ha, by rw [hc, h2]⟩
      | none =>
        rw [hc] at h2
        obtain ⟨b, hb, v', cs'', hbc, hcc⟩ := ih h2
        exact ⟨b, List.mem_cons_of_mem a hb, v', cs'', hbc, hcc⟩

theorem altTwoDigit_bound (d1 lo hi : Nat) (cs : List Char) (v : Nat) (cs' : List Char)
    (h : altTwoDigit d1 lo hi cs = some (v, cs')) : lo ≤ v ∧ v ≤ hi := by
  match cs with
  | [] => exact Option.noConfusion h
  | [c] => exact Option.noConfusion h
  | c1 :: c2 :: rest =>
    have heq : altTwoDigit d1 lo hi (c1 :: c2 :: rest) =
        (if c1 = digitChar d1 ∧ isDigitC c2 ∧ lo ≤ 10 * d1 + digitVal c2 ∧
            10 * d1 + digitVal c2 ≤ hi
         then some (10 * d1 + digitVal c2, rest) else none) := rfl
    rw [heq] at h
    by_cases hcond : c1 = digitChar d1 ∧ isDigitC c2 ∧ lo ≤ 10 * d1 + digitVal c2 ∧
        10 * d1 + digitVal c2 ≤ hi
    · rw [if_pos hcond] at h
      simp only [Option.some.injEq, Prod.mk.injEq] at h
      obtain ⟨_, _, h3, h4⟩ := hcond
      omega
    · rw [if_neg hcond] at h
      exact Option.noConfusion h

theorem altOneDigit_bound (lo hi : Nat) (cs : List Char) (v : Nat) (cs' : List Char)
    (h : altOneDigit lo hi cs = some (v, cs')) : lo ≤ v ∧ v ≤ hi := by
  match cs with
  | [] => exact Option.noConfusion h
  | c :: rest =>
    have heq : altOneDigit lo hi (c :: rest) =
        (if isDigitC c ∧ lo ≤ digitVal c ∧ digitVal c ≤ hi
         then some (digitVal c, rest) else none) := rfl
    rw [heq] at h
    by_cases hcond : isDigitC c ∧ lo ≤ digitVal c ∧ digitVal c ≤ hi
    · rw [if_pos hcond] at h
      simp only [Option.some.injEq, Prod.mk.injEq] at h
      obtain ⟨_, h2, h3⟩ := hcond
      omega
    · rw [if_neg hcond] at h
      exact Option.noConfusion h

theorem hourAlts_bound (cs : List Char) (v : Nat) (cs' : List Char)
    (a : List Char → Option (Nat × List Char)) (hmem : a ∈ hourAlts)
    (h : a cs = some (v, cs')) : v ≤ 23 := by
  simp only [hourAlts, List.mem_cons, List.not_mem_nil, or_false] at hmem
  rcases hmem with rfl | rfl | rfl | rfl
  · exact (altTwoDigit_bound _ _ _ _ _ _ h).2
  · exact le_trans (altTwoDigit_bound _ _ _ _ _ _ h).2 (by norm_num)
  · exact le_trans (altTwoDigit_bound _ _ _ _ _ _ h).2 (by norm_num)
  · exact le_trans (altOneDigit_bound _ _ _ _ _ h).2 (by norm_num)

theorem minuteAlts_bound (cs : List Char) (v : Nat) (cs' : List Char)
    (a : List Char → Option (Nat × List Char)) (hmem : a ∈ minuteAlts)
    (h : a cs = some (v, cs')) : v ≤ 59 := by
  simp only [minuteAlts, List.mem_cons, List.not_mem_nil, or_false] at hmem
  rcases hmem with rfl | rfl | rfl | rfl | rfl | rfl | rfl <;>
    first
      | exact le_trans (altTwoDigit_bound _ _ _ _ _ _ h).2 (by norm_num)
      | exact le_trans (altOneDigit_bound _ _ _ _ _ h).2 (by norm_num)

theorem hour12Alts_bound (cs : List Char) (v : Nat) (cs' : List Char)
    (a : List Char → Option (Nat × List Char)) (hmem : a ∈ hour12Alts)
    (h : a cs = some (v, cs')) : 1 ≤ v ∧ v ≤ 12 := by
  simp only [hour12Alts, List.mem_cons, List.not_mem_nil, or_false] at hmem
  rcases hmem with rfl | rfl | rfl
  · have := altTwoDigit_bound _ _ _ _ _ _ h; omega
  · have := altTwoDigit_bound _ _ _ _ _ _ h; omega
  · have := altOneDigit_bound _ _ _ _ _ h; omega


theorem ampmAlt_bound (cs : List Char) (v : Nat) (cs' : List Char)
    (h : ampmAlt cs = some (v, cs')) : v ≤ 1 := by
  match cs with
  | [] => exact Option.noConfusion h
  | [c] => exact Option.noConfusion h
  | c1 :: c2 :: rest =>
    have heq : ampmAlt (c1 :: c2 :: rest) =
        (if (c1 = 'a' ∨ c1 = 'A') ∧ (c2 = 'm' ∨ c2 = 'M') then some (0, rest)
         else if (c1 = 'p' ∨ c1 = 'P') ∧ (c2 = 'm' ∨ c2 = 'M') then some (1, rest)
         else none) := rfl
    rw [heq] at h
    by_cases h1 : (c1 = 'a' ∨ c1 = 'A') ∧ (c2 = 'm' ∨ c2 = 'M')
    · rw [if_pos h1] at h
      simp only [Option.some.injEq, Prod.mk.injEq] at h
      omega
    · rw [if_neg h1] at h
      by_cases h2 : (c1 = 'p' ∨ c1 = 'P') ∧ (c2 = 'm' ∨ c2 = 'M')
      · rw [if_pos h2] at h
        simp only [Option.some.injEq, Prod.mk.injEq] at h
        omega
      · rw [if_neg h2] at h
        exact Option.noConfusion h

theorem regexHM_range (cs : List Char) (h m : Nat) (hr : regexHM cs = some (h, m)) :
    h ≤ 23 ∧ m ≤ 59 := by
  unfold regexHM at hr
  obtain ⟨a, ha, v, cs1, hacs, hcont⟩ := tryAlts_ok _ _ _ _ hr
  have hv23 : v ≤ 23 := hourAlts_bound cs v cs1 a ha hacs
  cases hml : matchLit ':' cs1 with
  | none => rw [hml] at hcont; simp at hcont
  | some cs2 =>
    rw [hml] at hcont
    have hcont2 : tryAlts minuteAlts
        (fun m' cs3 => if cs3 = [] then some (v, m') else none) cs2 = some (h, m) := hcont
    obtain ⟨b, hb, v2, cs3, hbcs, hbc⟩ := tryAlts_ok _ _ _ _ hcont2
    have hv59 : v2 ≤ 59 := minuteAlts_bound cs2 v2 cs3 b hb hbcs
    by_cases hcs3 : cs3 = []
    · rw [if_pos hcs3] at hbc
      simp only [Option.some.injEq, Prod.mk.injEq] at hbc
      obtain ⟨rfl, rfl⟩ := hbc
      exact ⟨hv23, hv59⟩
    · rw [if_neg hcs3] at hbc
      exact Option.noConfusion hbc

theorem regexIMp_range (cs : List Char) (h m : Nat) (hr : regexIMp cs = some (h, m)) :
    h ≤ 23 ∧ m ≤ 59 := by
  unfold regexIMp at hr
  obtain ⟨a, ha, h12, cs1, hacs, hcont⟩ := tryAlts_ok _ _ _ _ hr
  obtain ⟨h12lo, h12hi⟩ := hour12Alts_bound cs h12 cs1 a ha hacs
  cases hml : matchLit ':' cs1 with
  | none => rw [hml] at hcont; simp at hcont
  | some cs2 =>
    rw [hml] at hcont
    have hcont2 : tryAlts minuteAlts
        (fun m' cs3 => tryAlts [ws1Alt]
          (fun _ cs4 => tryAlts [ampmAlt]
            (fun pm cs5 =>
              if cs5 = [] then
                some (if pm = 1 then (if h12 = 12 then 12 else h12 + 12)
                      else (if h12 = 12 then 0 else h12), m')
              else none) cs4) cs3) cs2 = some (h, m) := hcont
    obtain ⟨b, hb, v2, cs3, hbcs, hbc⟩ := tryAlts_ok _ _ _ _ hcont2
    have hv59 : v2 ≤ 59 := minuteAlts_bound cs2 v2 cs3 b hb hbcs
    obtain ⟨c, hc, v3, cs4, hccs, hcc⟩ := tryAlts_ok _ _ _ _ hbc
    obtain ⟨d, hd, pm, cs5, hdcs, hdc⟩ := tryAlts_ok _ _ _ _ hcc
    have hpm : pm ≤ 1 := by
      simp only [List.mem_cons, List.not_mem_nil, or_false] at hd
      subst hd
      exact ampmAlt_bound cs4 pm cs5 hdcs
    by_cases hcs5 : cs5 = []
    · rw [if_pos hcs5] at hdc
      simp only [Option.some.injEq, Prod.mk.injEq] at hdc
      obtain ⟨hh, rfl⟩ := hdc
      constructor
      · by_cases hp1 : pm = 1 <;> by_cases h12e : h12 = 12 <;>
          simp [hp1, h12e] at hh <;> omega
      · exact hv59
    · rw [if_neg hcs5] at hdc
      exact Option.noConfusion hdc

theorem regexHMS_range (cs : List Char) (h m : Nat) (hr : regexHMS cs = some (h, m)) :
    h ≤ 23 ∧ m ≤ 59 := by
  unfold regexHMS at hr
  obtain ⟨a, ha, v, cs1, hacs, hcont⟩ := tryAlts_ok _ _ _ _ hr
  have hv23 : v ≤ 23 := hourAlts_bound cs v cs1 a ha hacs
  cases hml : matchLit ':' cs1 with
  | none => rw [hml] at hcont; simp at hcont
  | some cs2 =>
    rw [hml] at hcont
    have hcont2 : tryAlts minuteAlts
        (fun m' cs3 => (matchLit ':' cs3).bind
          (fun cs4 => tryAlts secondAlts
            (fun s cs5 =>
              if cs5 = [] then (if s ≤ 59 then some (v, m') else none) else none) cs4)) cs2 =
        some (h, m) := hcont
    obtain ⟨b, hb, v2, cs3, hbcs, hbc⟩ := tryAlts_ok _ _ _ _ hcont2
    have hv59 : v2 ≤ 59 := minuteAlts_bound cs2 v2 cs3 b hb hbcs
    cases hml2 : matchLit ':' cs3 with
    | none => rw [hml2] at hbc; simp at hbc
    | some cs4 =>
      rw [hml2] at hbc
      have hbc2 : tryAlts secondAlts
          (fun s cs5 =>
            if cs5 = [] then (if s ≤ 59 then some (v, v2) else none) else none) cs4 =
          some (h, m) := hbc
      obtain ⟨c, hc, v3, cs5, hccs, hcc⟩ := tryAlts_ok _ _ _ _ hbc2
      by_cases hcs5 : cs5 = []
      · rw [if_pos hcs5] at hcc
        by_cases hs59 : v3 ≤ 59
        · rw [if_pos hs59] at hcc
          simp only [Option.some.injEq, Prod.mk.injEq] at hcc
          obtain ⟨rfl, rfl⟩ := hcc
          exact ⟨hv23, hv59⟩
        · rw [if_neg hs59] at hcc
          exact Option.noConfusion hcc
      · rw [if_neg hcs5] at hcc
        exact Option.noConfusion hcc

theorem tryTimeFormats_range (s : String) (h m : Nat)
    (hr : tryTimeFormats s = some (h, m)) : h ≤ 23 ∧ m ≤ 59 := by
  unfold tryTimeFormats at hr
  cases h1 : regexHM (pyStrip s).toList with
  | some hm =>
    rw [h1] at hr
    obtain ⟨rfl⟩ : hm = (h, m) := by simpa using hr
    exact regexHM_range _ _ _ h1
  | none =>
    rw [h1] at hr
    cases h2 : regexIMp (pyStrip s).toList with
    | some hm =>
      rw [h2] at hr
      obtain ⟨rfl⟩ : hm = (h, m) := by simpa using hr
      exact regexIMp_range _ _ _ h2
    | none =>
      rw [h2] at hr
      exact regexHMS_range _ _ _ hr

theorem validateTime_str (s : String) :
    validateTime (.str s) =
      (if s = "" then .null
       else
        match tryTimeFormats s with
        | some (h, m) => .str (renderTime h m)
        | none => .null) := rfl

theorem validateTime_out (v : JValue) :
    validateTime v = .null ∨
      ∃ h m, h ≤ 23 ∧ m ≤ 59 ∧ validateTime v = .str (renderTime h m) := by
  cases v with
  | str s =>
    rw [validateTime_str]
    by_cases hs : s = ""
    · left; rw [if_pos hs]
    · rw [if_neg hs]
      cases ht : tryTimeFormats s with
      | some hm =>
        obtain ⟨h, m⟩ := hm
        obtain ⟨h23, m59⟩ := tryTimeFormats_range s h m ht
        exact Or.inr ⟨h, m, h23, m59, rfl⟩
      | none => left; rfl
  | null => left; rfl
  | bool b => left; rfl
  | num q => left; rfl
  | arr xs => left; rfl
  | obj d => left; rfl

theorem validateTime_render (h m : Nat) (hh : h ≤ 23) (hm : m ≤ 59) :
    validateTime (.str (renderTime h m)) = .str (renderTime h m) := by
  rw [validateTime_str, if_neg (renderTime_ne_empty h m), tryTimeFormats_render h m hh hm]

theorem validateTime_fix (v : JValue) :
    truthy (validateTime v) = false ∨ validateTime (validateTime v) = validateTime v := by
  rcases validateTime_out v with h | ⟨hh, mm, h23, m59, h⟩
  · left; rw [h]; rfl
  · right
    rw [h]
    exact validateTime_render hh mm h23 m59


/-! ## Lemmas: the required-field defaulting loop -/

theorem exceptBind_ok {ε α β : Type} (a : α) (f : α → Except ε β) :
    (Except.ok a >>= f) = f a := rfl

theorem exceptBind_err {ε α β : Type} (e : ε) (f : α → Except ε β) :
    ((Except.error e : Except ε α) >>= f) = Except.error e := rfl

theorem exceptPure {ε α : Type} (a : α) : (pure a : Except ε α) = Except.ok a := rfl

theorem defaultStep_obj (d : Obj) (kv : String × JValue) :
    defaultStep (.obj d) kv = .ok (.obj (defaultFieldPure d kv)) := by
  unfold defaultStep defaultFieldPure
  cases h : dGet d kv.1 with
  | none => simp [pyContainsStr, dMem, pyGetItemStr, pySetItemStr, h, exceptBind_ok, exceptBind_err, exceptPure]
  | some v =>
    by_cases hv : isNullOrEmptyStr v <;>
      simp [pyContainsStr, dMem, pyGetItemStr, pySetItemStr, h, hv, exceptBind_ok, exceptBind_err, exceptPure]

theorem defaultStep_nonobj (v : JValue) (kv : String × JValue) (hno : ∀ d, v ≠ .obj d) :
    ∃ msg, defaultStep v kv = .error (.typeError msg) := by
  cases v with
  | obj d => exact absurd rfl (hno d)
  | null => exact ⟨"argument is not a container", rfl⟩
  | bool b => exact ⟨"argument is not a container", rfl⟩
  | num q => exact ⟨"argument is not a container", rfl⟩
  | str s =>
    refine ⟨if containsSub kv.1.toList s.toList then "indices must be integers"
      else "object does not support item assignment", ?_⟩
    by_cases hc : containsSub kv.1.toList s.toList
    all_goals
      simp only [String.toList] at hc
      simp [defaultStep, pyContainsStr, pyGetItemStr, pySetItemStr, exceptBind_ok,
        exceptBind_err, exceptPure, hc]
  | arr xs =>
    refine ⟨if xs.any (fun x => match x with | .str s => s = kv.1 | _ => false)
        then "indices must be integers"
      else "object does not support item assignment", ?_⟩
    by_cases hc : xs.any (fun x => match x with | .str s => s = kv.1 | _ => false)
    all_goals
      simp only [] at hc
      simp [defaultStep, pyContainsStr, pyGetItemStr, pySetItemStr, exceptBind_ok,
        exceptBind_err, exceptPure, hc]

theorem foldlM_defaultStep_obj (lst : List (String × JValue)) (d : Obj) :
    lst.foldlM defaultStep (JValue.obj d) = .ok (.obj (lst.foldl defaultFieldPure d)) := by
  induction lst generalizing d with
  | nil => rfl
  | cons kv t ih =>
    rw [List.foldlM_cons, defaultStep_obj]
    show List.foldlM defaultStep (JValue.obj (defaultFieldPure d kv)) t = _
    rw [ih, List.foldl_cons]

theorem foldlM_defaultStep_nonobj (today : PyDate) (v : JValue) (hno : ∀ d, v ≠ .obj d) :
    ∃ msg, (requiredDefaults today).foldlM defaultStep v = .error (.typeError msg) := by
  obtain ⟨msg, hmsg⟩ := defaultStep_nonobj v ("merchant_name", .str "Unknown") hno
  refine ⟨msg, ?_⟩
  show List.foldlM defaultStep v (("merchant_name", JValue.str "Unknown") :: _) = _
  rw [List.foldlM_cons, hmsg]
  rfl

theorem defaultFieldPure_none (d : Obj) (kv : String × JValue) (h : dGet d kv.1 = none) :
    defaultFieldPure d kv = dSet d kv.1 kv.2 := by
  unfold defaultFieldPure
  rw [h]

theorem defaultFieldPure_some (d : Obj) (kv : String × JValue) (v : JValue)
    (h : dGet d kv.1 = some v) :
    defaultFieldPure d kv = if isNullOrEmptyStr v then dSet d kv.1 kv.2 else d := by
  unfold defaultFieldPure
  rw [h]

theorem defaultFieldPure_get_self (d : Obj) (kv : String × JValue)
    (hne : isNullOrEmptyStr kv.2 = false) :
    ∃ v, dGet (defaultFieldPure d kv) kv.1 = some v ∧ isNullOrEmptyStr v = false := by
  cases h : dGet d kv.1 with
  | none =>
    rw [defaultFieldPure_none d kv h]
    exact ⟨kv.2, dGet_dSet_self d kv.1 kv.2, hne⟩
  | some v =>
    rw [defaultFieldPure_some d kv v h]
    by_cases hv : isNullOrEmptyStr v
    · rw [if_pos hv]
      exact ⟨kv.2, dGet_dSet_self d kv.1 kv.2, hne⟩
    · rw [if_neg hv]
      exact ⟨v, h, by simpa using hv⟩

theorem defaultFieldPure_frame (d : Obj) (kv : String × JValue) (k : String) (h : k ≠ kv.1) :
    dGet (defaultFieldPure d kv) k = dGet d k := by
  cases hg : dGet d kv.1 with
  | none =>
    rw [defaultFieldPure_none d kv hg]
    exact dGet_dSet_ne d kv.1 k kv.2 (Ne.symm h)
  | some v =>
    rw [defaultFieldPure_some d kv v hg]
    by_cases hv : isNullOrEmptyStr v
    · rw [if_pos hv]
      exact dGet_dSet_ne d kv.1 k kv.2 (Ne.symm h)
    · rw [if_neg hv]

theorem foldl_defaultFieldPure_frame (lst : List (String × JValue)) (d0 : Obj) (k : String)
    (h : ∀ kv ∈ lst, kv.1 ≠ k) :
    dGet (lst.foldl defaultFieldPure d0) k = dGet d0 k := by
  induction lst generalizing d0 with
  | nil => rfl
  | cons a t ih =>
    rw [List.foldl_cons, ih _ (fun kv hkv => h kv (List.mem_cons_of_mem a hkv)),
      defaultFieldPure_frame d0 a k (Ne.symm (h a (List.mem_cons_self a t)))]

theorem foldl_defaultFieldPure_post (lst : List (String × JValue)) (d0 : Obj)
    (hvals : ∀ kv ∈ lst, isNullOrEmptyStr kv.2 = false)
    (hkeys : lst.Pairwise (fun a b => a.1 ≠ b.1)) :
    ∀ kv ∈ lst, ∃ v, dGet (lst.foldl defaultFieldPure d0) kv.1 = some v ∧
      isNullOrEmptyStr v = false := by
  induction lst generalizing d0 with
  | nil => simp
  | cons a t ih =>
    intro kv hkv
    rw [List.foldl_cons]
    rcases List.mem_cons.mp hkv with rfl | hmem
    · obtain ⟨v, hv, hvne⟩ :=
        defaultFieldPure_get_self d0 kv (hvals kv (List.mem_cons_self kv t))
      refine ⟨v, ?_, hvne⟩
      rw [foldl_defaultFieldPure_frame t (defaultFieldPure d0 kv) kv.1
        (fun b hb => Ne.symm ((List.pairwise_cons.mp hkeys).1 b hb))]
      exact hv
    · exact ih (defaultFieldPure d0 a)
        (fun kv h => hvals kv (List.mem_cons_of_mem a h))
        (List.pairwise_cons.mp hkeys).2 kv hmem

theorem requiredDefaults_vals (today : PyDate) :
    ∀ kv ∈ requiredDefaults today, isNullOrEmptyStr kv.2 = false := by
  intro kv hkv
  unfold requiredDefaults at hkv
  simp only [List.mem_cons, List.not_mem_nil, or_false] at hkv
  rcases hkv with rfl | rfl | rfl | rfl | rfl | rfl
  · rfl
  · simpa [isNullOrEmptyStr] using renderDate_ne_empty today
  · rfl
  · rfl
  · rfl
  · rfl

theorem requiredDefaults_keys (today : PyDate) :
    (requiredDefaults today).Pairwise (fun a b => a.1 ≠ b.1) := by
  unfold requiredDefaults
  simp [List.pairwise_cons]


/-! ## Lemmas: the normalization stages -/

theorem merchantStage_eq_str (d : Obj) (s : String)
    (h : dGet d "merchant_name" = some (.str s)) :
    merchantStage d =
      (if pyStrip s = "" then dSet d "merchant_name" (.str "Unknown")
       else dSet d "merchant_name" (.str (pyStrip s))) := by
  unfold merchantStage
  rw [h]

theorem merchantStage_other (d : Obj)
    (h : ∀ s, dGet d "merchant_name" ≠ some (.str s)) : merchantStage d = d := by
  unfold merchantStage
  cases hg : dGet d "merchant_name" with
  | none => rfl
  | some v => cases v with
    | str s => exact absurd hg (h s)
    | null => rfl
    | bool b => rfl
    | num q => rfl
    | arr xs => rfl
    | obj o => rfl

theorem merchantStage_frame (d : Obj) (k : String) (h : k ≠ "merchant_name") :
    dGet (merchantStage d) k = dGet d k := by
  cases hg : dGet d "merchant_name" with
  | none =>
    rw [merchantStage_other d (fun s hs => by rw [hg] at hs; cases hs)]
  | some v => cases v with
    | str s =>
      rw [merchantStage_eq_str d s hg]
      by_cases he : pyStrip s = "" <;>
        simp [he, dGet_dSet_ne _ _ _ _ (Ne.symm h)]
    | null => rw [merchantStage_other d (fun s hs => by rw [hg] at hs; cases hs)]
    | bool b => rw [merchantStage_other d (fun s hs => by rw [hg] at hs; cases hs)]
    | num q => rw [merchantStage_other d (fun s hs => by rw [hg] at hs; cases hs)]
    | arr xs => rw [merchantStage_other d (fun s hs => by rw [hg] at hs; cases hs)]
    | obj o => rw [merchantStage_other d (fun s hs => by rw [hg] at hs; cases hs)]

theorem merchantStage_post (d : Obj)
    (hpre : ∃ v, dGet d "merchant_name" = some v ∧ isNullOrEmptyStr v = false) :
    (dGet (merchantStage d) "merchant_name").isSome = true ∧
    (∀ v, dGet (merchantStage d) "merchant_name" = some v → isNullOrEmptyStr v = false) ∧
    (∀ s, dGet (merchantStage d) "merchant_name" = some (.str s) → pyStrip s = s ∧ s ≠ "") := by
  obtain ⟨v, hv, hvne⟩ := hpre
  cases v with
  | null => simp [isNullOrEmptyStr] at hvne
  | str s =>
    rw [merchantStage_eq_str d s hv]
    by_cases he : pyStrip s = ""
    · rw [if_pos he]
      rw [show dGet (dSet d "merchant_name" (.str "Unknown")) "merchant_name" =
        some (.str "Unknown") from dGet_dSet_self _ _ _]
      refine ⟨rfl, ?_, ?_⟩
      · intro v hv2
        cases hv2
        rfl
      · intro s2 hs2
        cases hs2
        exact ⟨by decide, by decide⟩
    · rw [if_neg he]
      rw [show dGet (dSet d "merchant_name" (.str (pyStrip s))) "merchant_name" =
        some (.str (pyStrip s)) from dGet_dSet_self _ _ _]
      refine ⟨rfl, ?_, ?_⟩
      · intro v hv2
        cases hv2
        simpa [isNullOrEmptyStr] using he
      · intro s2 hs2
        cases hs2
        exact ⟨pyStrip_idem s, he⟩
  | bool b =>
    rw [merchantStage_other d (fun s hs => by rw [hv] at hs; cases hs), hv]
    exact ⟨rfl, fun v h2 => by cases h2; exact hvne, fun s h2 => by cases h2⟩
  | num q =>
    rw [merchantStage_other d (fun s hs => by rw [hv] at hs; cases hs), hv]
    exact ⟨rfl, fun v h2 => by cases h2; exact hvne, fun s h2 => by cases h2⟩
  | arr xs =>
    rw [merchantStage_other d (fun s hs => by rw [hv] at hs; cases hs), hv]
    exact ⟨rfl, fun v h2 => by cases h2; exact hvne, fun s h2 => by cases h2⟩
  | obj o =>
    rw [merchantStage_other d (fun s hs => by rw [hv] at hs; cases hs), hv]
    exact ⟨rfl, fun v h2 => by cases h2; exact hvne, fun s h2 => by cases h2⟩

theorem isCategoryMember_iff (v : JValue) :
    isCategoryMember v = true ↔ ∃ s, v = .str s ∧ s ∈ categoryList := by
  cases v with
  | str s =>
    simp only [isCategoryMember]
    constructor
    · intro h
      exact ⟨s, rfl, List.mem_of_elem_eq_true h⟩
    · rintro ⟨s2, hs2, hmem⟩
      cases hs2
      exact List.elem_eq_true_of_mem hmem
  | null => simp [isCategoryMember]
  | bool b => simp [isCategoryMember]
  | num q => simp [isCategoryMember]
  | arr xs => simp [isCategoryMember]
  | obj o => simp [isCategoryMember]

theorem categoryStage_eq (d : Obj) :
    categoryStage d =
      (if isCategoryMember (dGetD d "category" .null) then d
       else
        match categoryMapping.find? (fun kv => kv.1 =
            (match dGetD d "category" .null with | .str s => pyLower s | _ => "")) with
        | some kv => dSet d "category" (.str kv.2)
        | none => dSet d "category" (.str "Other")) := rfl

theorem categoryStage_frame (d : Obj) (k : String) (h : k ≠ "category") :
    dGet (categoryStage d) k = dGet d k := by
  rw [categoryStage_eq]
  by_cases hm : isCategoryMember (dGetD d "category" .null)
  · rw [if_pos hm]
  · rw [if_neg hm]
    cases categoryMapping.find? (fun kv => kv.1 =
        (match dGetD d "category" .null with | .str s => pyLower s | _ => "")) with
    | some kv => exact dGet_dSet_ne _ _ _ _ (Ne.symm h)
    | none => exact dGet_dSet_ne _ _ _ _ (Ne.symm h)

theorem categoryMapping_range : ∀ kv ∈ categoryMapping, kv.2 ∈ categoryList := by
  decide

theorem categoryStage_post (d : Obj) :
    ∃ s, dGet (categoryStage d) "category" = some (.str s) ∧ s ∈ categoryList := by
  rw [categoryStage_eq]
  by_cases hm : isCategoryMember (dGetD d "category" .null)
  · rw [if_pos hm]
    obtain ⟨s, hs, hmem⟩ := (isCategoryMember_iff _).mp hm
    refine ⟨s, ?_, hmem⟩
    unfold dGetD at hs
    cases hg : dGet d "category" with
    | none => rw [hg] at hs; cases hs
    | some v =>
      rw [hg] at hs
      have hv : v = .str s := by simpa using hs
      rw [hv]
  · rw [if_neg hm]
    cases hfind : categoryMapping.find? (fun kv => kv.1 =
        (match dGetD d "category" .null with | .str s => pyLower s | _ => "")) with
    | some kv =>
      exact ⟨kv.2, dGet_dSet_self _ _ _,
        categoryMapping_range kv (List.mem_of_find?_eq_some hfind)⟩
    | none => exact ⟨"Other", dGet_dSet_self _ _ _, by decide⟩

theorem numericDefault_nonneg (f : String) : 0 ≤ numericDefault f := by
  unfold numericDefault
  split <;> norm_num

theorem cleanNumericValue_nonneg (v : JValue) (f : String) : 0 ≤ cleanNumericValue v f := by
  unfold cleanNumericValue
  by_cases h0 : isNullOrEmptyStr v
  · rw [if_pos h0]
    exact numericDefault_nonneg f
  · rw [if_neg h0]
    cases hp : pyFloatCoerce v with
    | none => exact numericDefault_nonneg f
    | some q =>
      show (0 : ℚ) ≤ (if f = "confidence" then max 0 (min 1 q) else max 0 q)
      split
      · exact le_max_left 0 _
      · exact le_max_left 0 _

theorem cleanNumericValue_conf_le_one (v : JValue) :
    cleanNumericValue v "confidence" ≤ 1 := by
  unfold cleanNumericValue
  by_cases h0 : isNullOrEmptyStr v
  · rw [if_pos h0]
    unfold numericDefault
    norm_num
  · rw [if_neg h0]
    cases hp : pyFloatCoerce v with
    | none =>
      show numericDefault "confidence" ≤ 1
      unfold numericDefault
      norm_num
    | some q =>
      show (if "confidence" = "confidence" then max 0 (min 1 q) else max 0 q) ≤ 1
      rw [if_pos rfl]
      exact max_le (by norm_num) (min_le_left 1 q)

theorem cleanNumericValue_num_eq (q : ℚ) (f : String) (hf : f ≠ "confidence") (hq : 0 ≤ q) :
    cleanNumericValue (.num q) f = q := by
  unfold cleanNumericValue
  rw [if_neg (by simp [isNullOrEmptyStr])]
  show (if f = "confidence" then max 0 (min 1 q) else max 0 q) = q
  rw [if_neg hf]
  exact max_eq_right hq

theorem cleanNumericValue_conf_eq (q : ℚ) (h0 : 0 ≤ q) (h1 : q ≤ 1) :
    cleanNumericValue (.num q) "confidence" = q := by
  unfold cleanNumericValue
  rw [if_neg (by simp [isNullOrEmptyStr])]
  show (if "confidence" = "confidence" then max 0 (min 1 q) else max 0 q) = q
  rw [if_pos rfl, min_eq_right h1, max_eq_right h0]

theorem cleanNumericField_eq_some (d : Obj) (f : String) (v : JValue)
    (h : dGet d f = some v) :
    cleanNumericField d f = dSet d f (.num (cleanNumericValue v f)) := by
  unfold cleanNumericField
  rw [h]

theorem cleanNumericField_eq_none (d : Obj) (f : String) (h : dGet d f = none) :
    cleanNumericField d f = d := by
  unfold cleanNumericField
  rw [h]

theorem cleanNumericField_frame (d : Obj) (f k : String) (h : k ≠ f) :
    dGet (cleanNumericField d f) k = dGet d k := by
  cases hg : dGet d f with
  | none => rw [cleanNumericField_eq_none d f hg]
  | some v =>
    rw [cleanNumericField_eq_some d f v hg]
    exact dGet_dSet_ne _ _ _ _ (Ne.symm h)

theorem cleanNumericField_get (d : Obj) (f : String) :
    dGet (cleanNumericField d f) f = (dGet d f).map (fun v => .num (cleanNumericValue v f)) := by
  cases hg : dGet d f with
  | none => rw [cleanNumericField_eq_none d f hg, hg]; rfl
  | some v =>
    rw [cleanNumericField_eq_some d f v hg, dGet_dSet_self]
    rfl

theorem numericFold_frame (lst : List String) (d : Obj) (k : String) (h : k ∉ lst) :
    dGet (lst.foldl cleanNumericField d) k = dGet d k := by
  induction lst generalizing d with
  | nil => rfl
  | cons f t ih =>
    rw [List.foldl_cons, ih _ (fun hk => h (List.mem_cons_of_mem f hk)),
      cleanNumericField_frame d f k (fun he => h (he ▸ List.mem_cons_self f t))]

theorem numericFold_get (lst : List String) (d : Obj) (hnd : lst.Nodup) :
    ∀ f ∈ lst, dGet (lst.foldl cleanNumericField d) f =
      (dGet d f).map (fun v => .num (cleanNumericValue v f)) := by
  induction lst generalizing d with
  | nil => simp
  | cons g t ih =>
    intro f hf
    rw [List.foldl_cons]
    rcases List.mem_cons.mp hf with rfl | hmem
    · rw [numericFold_frame t (cleanNumericField d f) f (List.nodup_cons.mp hnd).1]
      exact cleanNumericField_get d f
    · rw [ih (cleanNumericField d g) (List.nodup_cons.mp hnd).2 f hmem,
        cleanNumericField_frame d g f]
      intro he
      exact (List.nodup_cons.mp hnd).1 (he ▸ hmem)

theorem numericFields_nodup : numericFields.Nodup := by decide

theorem numericStage_frame (d : Obj) (k : String) (h : k ∉ numericFields) :
    dGet (numericStage d) k = dGet d k :=
  numericFold_frame numericFields d k h

theorem numericStage_get (d : Obj) :
    ∀ f ∈ numericFields, dGet (numericStage d) f =
      (dGet d f).map (fun v => .num (cleanNumericValue v f)) :=
  numericFold_get numericFields d numericFields_nodup

theorem dateStage_frame (d : Obj) (today : PyDate) (k : String) (h : k ≠ "transaction_date") :
    dGet (dateStage d today) k = dGet d k :=
  dGet_dSet_ne _ _ _ _ (Ne.symm h)

theorem dateStage_get (d : Obj) (today : PyDate) :
    dGet (dateStage d today) "transaction_date" =
      some (.str (validateDate (dGetD d "transaction_date" .null) today)) :=
  dGet_dSet_self _ _ _

theorem timeStage_eq_none (d : Obj) (hg : dGet d "transaction_time" = none) :
    timeStage d = d := by
  unfold timeStage
  rw [hg]

theorem timeStage_eq_some (d : Obj) (v : JValue) (hg : dGet d "transaction_time" = some v) :
    timeStage d = (if truthy v then dSet d "transaction_time" (validateTime v) else d) := by
  unfold timeStage
  rw [hg]

theorem timeStage_skip (d : Obj)
    (h : ∀ v, dGet d "transaction_time" = some v → truthy v = false) :
    timeStage d = d := by
  cases hg : dGet d "transaction_time" with
  | none => exact timeStage_eq_none d hg
  | some v => rw [timeStage_eq_some d v hg, h v hg]; rfl

theorem timeStage_set (d : Obj) (v : JValue) (hg : dGet d "transaction_time" = some v)
    (ht : truthy v = true) :
    timeStage d = dSet d "transaction_time" (validateTime v) := by
  rw [timeStage_eq_some d v hg, ht]
  rfl

theorem timeStage_frame (d : Obj) (k : String) (h : k ≠ "transaction_time") :
    dGet (timeStage d) k = dGet d k := by
  cases hg : dGet d "transaction_time" with
  | none => rw [timeStage_eq_none d hg]
  | some v =>
    rw [timeStage_eq_some d v hg]
    cases ht : truthy v with
    | false => simp
    | true =>
      rw [if_pos rfl]
      exact dGet_dSet_ne _ _ _ _ (Ne.symm h)

theorem timeStage_post (d : Obj) :
    ∀ v, dGet (timeStage d) "transaction_time" = some v →
      truthy v = false ∨ validateTime v = v := by
  intro v hv
  cases hg : dGet d "transaction_time" with
  | none =>
    rw [timeStage_skip d (fun w hw => by rw [hg] at hw; cases hw), hg] at hv
    cases hv
  | some w =>
    cases ht : truthy w with
    | false =>
      rw [timeStage_skip d (fun u hu => by rw [hg] at hu; cases hu; exact ht), hg] at hv
      cases hv
      exact Or.inl ht
    | true =>
      rw [timeStage_set d w hg ht, dGet_dSet_self] at hv
      cases hv
      rcases validateTime_fix w with h1 | h1
      · exact Or.inl h1
      · exact Or.inr h1

theorem currencyStage_frame (d : Obj) (k : String) (h : k ≠ "currency") :
    dGet (currencyStage d) k = dGet d k :=
  dGet_dSet_ne _ _ _ _ (Ne.symm h)

theorem currencyStage_get (d : Obj) :
    dGet (currencyStage d) "currency" =
      some (.str (normalizeCurrency (dGetD d "currency" (.str "USD")))) :=
  dGet_dSet_self _ _ _


/-! ## Lemmas: currency normalization -/

theorem charToNat_ofNat (n : Nat) (h : n < 55296) : (Char.ofNat n).toNat = n := by
  unfold Char.ofNat
  rw [dif_pos (Or.inl h)]
  rfl

theorem alpha_not_ws (c : Char) (h : isAsciiAlphaC c = true) : isPyWS c = false := by
  cases hws : isPyWS c with
  | false => rfl
  | true =>
    exfalso
    have hn : (65 ≤ c.toNat ∧ c.toNat ≤ 90) ∨ (97 ≤ c.toNat ∧ c.toNat ≤ 122) := by
      simpa [isAsciiAlphaC] using h
    have hw := hws
    simp only [isPyWS, Bool.or_eq_true, decide_eq_true_eq] at hw
    rcases hw with ((((rfl | rfl) | rfl) | rfl) | rfl) | rfl <;> exact absurd hn (by decide)

theorem pyUpperC_idem (ch : Char) : pyUpperC (pyUpperC ch) = pyUpperC ch := by
  unfold pyUpperC
  by_cases h : 97 ≤ ch.toNat ∧ ch.toNat ≤ 122
  · rw [if_pos h]
    have ht : (Char.ofNat (ch.toNat - 32)).toNat = ch.toNat - 32 :=
      charToNat_ofNat _ (by omega)
    rw [if_neg (by rw [ht]; omega)]
  · rw [if_neg h, if_neg h]

theorem pyUpper_idem (s : String) : pyUpper (pyUpper s) = pyUpper s := by
  unfold pyUpper
  rw [show (String.mk (s.toList.map pyUpperC)).toList = s.toList.map pyUpperC from rfl,
    List.map_map]
  exact congrArg String.mk (List.map_congr_left (fun a _ => pyUpperC_idem a))

theorem pyStrip_of_alpha (s : String) (h : s.toList.all isAsciiAlphaC = true) :
    pyStrip s = s := by
  unfold pyStrip
  rw [pyStripL_eq_self s.toList
    (fun c hc => alpha_not_ws c (List.all_eq_true.mp h c hc))]
  rfl

theorem currencyMapping_key_len : ∀ kv ∈ currencyMapping, kv.1.length = 1 := by decide

theorem normalizeCurrency_str (s : String) :
    normalizeCurrency (.str s) =
      (if s = "" then "USD"
       else
        match currencyMapping.find? (fun kv => kv.1 = pyUpper (pyStrip s)) with
        | some kv => kv.2
        | none =>
          if (pyUpper (pyStrip s)).length = 3 ∧ (pyUpper (pyStrip s)).toList.all isAsciiAlphaC
          then pyUpper (pyStrip s) else "USD") := rfl

theorem normalizeCurrency_code (s0 : String)
    (hc3 : (pyUpper (pyStrip s0)).length = 3)
    (hal : (pyUpper (pyStrip s0)).toList.all isAsciiAlphaC = true) :
    normalizeCurrency (.str (pyUpper (pyStrip s0))) = pyUpper (pyStrip s0) := by
  set c := pyUpper (pyStrip s0) with hc
  have hne : c ≠ "" := by
    intro h
    rw [h] at hc3
    simp at hc3
  have hupper : pyUpper (pyStrip c) = c := by
    rw [pyStrip_of_alpha c hal, hc, pyUpper_idem]
  rw [normalizeCurrency_str, if_neg hne, hupper]
  rw [List.find?_eq_none.mpr]
  · rw [if_pos ⟨hc3, hal⟩]
  · intro kv hkv
    simp only [decide_eq_true_eq]
    intro hkey
    have h1 : kv.1.length = 1 := currencyMapping_key_len kv hkv
    rw [hkey] at h1
    rw [h1] at hc3
    cases hc3

theorem currencyMapping_codes :
    ∀ kv ∈ currencyMapping, normalizeCurrency (.str kv.2) = kv.2 ∧ kv.2 ≠ "" := by
  decide

theorem normalizeCurrency_fix (v : JValue) :
    normalizeCurrency (.str (normalizeCurrency v)) = normalizeCurrency v ∧
      normalizeCurrency v ≠ "" := by
  cases v with
  | str s =>
    by_cases hs : s = ""
    · rw [normalizeCurrency_str s, if_pos hs]
      exact ⟨by decide, by decide⟩
    · rw [normalizeCurrency_str s, if_neg hs]
      cases hfind : List.find? (fun kv => kv.1 = pyUpper (pyStrip s)) currencyMapping with
      | some kv =>
        exact currencyMapping_codes kv (List.mem_of_find?_eq_some hfind)
      | none =>
        by_cases hcode : (pyUpper (pyStrip s)).length = 3 ∧
            (pyUpper (pyStrip s)).toList.all isAsciiAlphaC
        all_goals
          show (normalizeCurrency (.str (if (pyUpper (pyStrip s)).length = 3 ∧
              (pyUpper (pyStrip s)).toList.all isAsciiAlphaC then pyUpper (pyStrip s)
              else "USD")) = (if (pyUpper (pyStrip s)).length = 3 ∧
              (pyUpper (pyStrip s)).toList.all isAsciiAlphaC then pyUpper (pyStrip s)
              else "USD")) ∧ (if (pyUpper (pyStrip s)).length = 3 ∧
              (pyUpper (pyStrip s)).toList.all isAsciiAlphaC then pyUpper (pyStrip s)
              else "USD") ≠ ""
        · rw [if_pos hcode]
          refine ⟨normalizeCurrency_code s hcode.1 hcode.2, ?_⟩
          intro h
          rw [h] at hcode
          simp at hcode
        · rw [if_neg hcode]
          exact ⟨by decide, by decide⟩
  | null => exact ⟨by decide, by decide⟩
  | bool b =>
    show normalizeCurrency (.str "USD") = "USD" ∧ ("USD" : String) ≠ ""
    exact ⟨by decide, by decide⟩
  | num q =>
    show normalizeCurrency (.str "USD") = "USD" ∧ ("USD" : String) ≠ ""
    exact ⟨by decide, by decide⟩
  | arr xs =>
    show normalizeCurrency (.str "USD") = "USD" ∧ ("USD" : String) ≠ ""
    exact ⟨by decide, by decide⟩
  | obj o =>
    show normalizeCurrency (.str "USD") = "USD" ∧ ("USD" : String) ≠ ""
    exact ⟨by decide, by decide⟩

/-! ## Lemmas: item validation -/

theorem pyTrunc_intCast (n : ℤ) : pyTrunc ((n : ℚ)) = n := by
  unfold pyTrunc
  by_cases h : (n : ℚ) < 0
  · rw [if_pos h]
    rw [show (-(n : ℚ)) = ((-n : ℤ) : ℚ) by push_cast; ring]
    rw [show ((-n : ℤ) : ℚ).floor = -n from rfl]
    omega
  · rw [if_neg h]
    rfl

theorem validateItem_some (o : Obj) (n : ℤ)
    (hq : pyInt (dGetD o "quantity" (.num 1)) = some n) :
    validateItem o =
      (let nm := pyStrip (pyStr (dGetD o "name" (.str "Unknown Item")))
       if nm ≠ "" ∧ nm ≠ "Unknown Item" then
        .ok (some [("name", .str nm),
                   ("quantity", .num ((max 1 n : ℤ) : ℚ)),
                   ("unit_price", .num (cleanNumericValue (dGetD o "unit_price" (.num 0)) "unit_price")),
                   ("total_price", .num (cleanNumericValue (dGetD o "total_price" (.num 0)) "total_price"))])
       else .ok none) := by
  unfold validateItem
  rw [hq]
  rfl

theorem validateItem_err (o : Obj)
    (hq : pyInt (dGetD o "quantity" (.num 1)) = none) :
    validateItem o = .error (.typeError "int() argument invalid") := by
  unfold validateItem
  rw [hq]
  rfl

theorem validateItem_ok_norm (o : Obj) (res : Option Obj)
    (h : validateItem o = .ok res) :
    ∀ vi, res = some vi → NormItemP (.obj vi) := by
  intro vi hvi
  subst hvi
  cases hq : pyInt (dGetD o "quantity" (.num 1)) with
  | none => rw [validateItem_err o hq] at h; cases h
  | some n =>
    rw [validateItem_some o n hq] at h
    by_cases hname : pyStrip (pyStr (dGetD o "name" (.str "Unknown Item"))) ≠ "" ∧
        pyStrip (pyStr (dGetD o "name" (.str "Unknown Item"))) ≠ "Unknown Item"
    · rw [if_pos hname] at h
      simp only [Except.ok.injEq, Option.some.injEq] at h
      refine ⟨pyStrip (pyStr (dGetD o "name" (.str "Unknown Item"))), max 1 n,
        cleanNumericValue (dGetD o "unit_price" (.num 0)) "unit_price",
        cleanNumericValue (dGetD o "total_price" (.num 0)) "total_price",
        by rw [← h], hname.1, hname.2, pyStrip_idem _, le_max_left 1 n,
        cleanNumericValue_nonneg _ _, cleanNumericValue_nonneg _ _⟩
    · rw [if_neg hname] at h
      cases h

theorem validateItem_norm_fix (vi : Obj) (h : NormItemP (.obj vi)) :
    validateItem vi = .ok (some vi) := by
  obtain ⟨nm, q, up, tp, hvi, hne, hsent, hstrip, hq1, hup, htp⟩ := h
  have hvi2 : vi = [("name", JValue.str nm), ("quantity", JValue.num (q : ℚ)),
      ("unit_price", JValue.num up), ("total_price", JValue.num tp)] := by
    injection hvi
  subst hvi2
  have hqget : dGetD [("name", JValue.str nm), ("quantity", JValue.num (q : ℚ)),
      ("unit_price", JValue.num up), ("total_price", JValue.num tp)] "quantity" (.num 1) =
      .num (q : ℚ) := by
    simp [dGetD, dGet]
  have hnget : dGetD [("name", JValue.str nm), ("quantity", JValue.num (q : ℚ)),
      ("unit_price", JValue.num up), ("total_price", JValue.num tp)] "name"
      (.str "Unknown Item") = .str nm := by
    simp [dGetD, dGet]
  have huget : dGetD [("name", JValue.str nm), ("quantity", JValue.num (q : ℚ)),
      ("unit_price", JValue.num up), ("total_price", JValue.num tp)] "unit_price"
      (.num 0) = .num up := by
    simp [dGetD, dGet]
  have htget : dGetD [("name", JValue.str nm), ("quantity", JValue.num (q : ℚ)),
      ("unit_price", JValue.num up), ("total_price", JValue.num tp)] "total_price"
      (.num 0) = .num tp := by
    simp [dGetD, dGet]
  have hqint : pyInt (dGetD [("name", JValue.str nm), ("quantity", JValue.num (q : ℚ)),
      ("unit_price", JValue.num up), ("total_price", JValue.num tp)] "quantity" (.num 1)) =
      some q := by
    rw [hqget]
    show some (pyTrunc ((q : ℤ) : ℚ)) = some q
    rw [pyTrunc_intCast]
  rw [validateItem_some _ q hqint]
  simp only [hnget, pyStr]
  rw [hstrip]
  rw [if_pos ⟨hne, hsent⟩]
  rw [huget, htget, max_eq_right hq1,
    cleanNumericValue_num_eq up "unit_price" (by decide) hup,
    cleanNumericValue_num_eq tp "total_price" (by decide) htp]

theorem validateItemsStep_obj (acc : List JValue) (o : Obj) :
    validateItemsStep acc (.obj o) =
      (validateItem o >>= fun r =>
        match r with
        | some vi => pure (acc ++ [JValue.obj vi])
        | none => pure acc) := rfl

theorem validateItemsStep_some (acc : List JValue) (o vi : Obj)
    (h : validateItem o = .ok (some vi)) :
    validateItemsStep acc (.obj o) = .ok (acc ++ [JValue.obj vi]) := by
  rw [validateItemsStep_obj, h]
  rfl

theorem validateItemsStep_none (acc : List JValue) (o : Obj)
    (h : validateItem o = .ok none) :
    validateItemsStep acc (.obj o) = .ok acc := by
  rw [validateItemsStep_obj, h]
  rfl

theorem validateItemsStep_err (acc : List JValue) (o : Obj) (e : PyErr)
    (h : validateItem o = .error e) :
    validateItemsStep acc (.obj o) = .error e := by
  rw [validateItemsStep_obj, h]
  rfl

theorem validateItemsStep_nonobj (acc : List JValue) (it : JValue)
    (h : ∀ o, it ≠ .obj o) :
    validateItemsStep acc it = .ok acc := by
  cases it with
  | obj o => exact absurd rfl (h o)
  | null => rfl
  | bool b => rfl
  | num q => rfl
  | str s => rfl
  | arr xs => rfl

theorem validateItems_from_norm (xs : List JValue) (acc ys : List JValue)
    (hacc : ∀ it ∈ acc, NormItemP it)
    (h : xs.foldlM validateItemsStep acc = .ok ys) :
    ∀ it ∈ ys, NormItemP it := by
  induction xs generalizing acc with
  | nil =>
    rw [List.foldlM_nil] at h
    have : acc = ys := by
      have h2 : Except.ok acc = Except.ok ys := h
      injection h2
    subst this
    exact hacc
  | cons x t ih =>
    rw [List.foldlM_cons] at h
    cases x with
    | obj o =>
      cases hv : validateItem o with
      | error e =>
        rw [validateItemsStep_err acc o e hv, exceptBind_err] at h
        cases h
      | ok res =>
        cases res with
        | none =>
          rw [validateItemsStep_none acc o hv, exceptBind_ok] at h
          exact ih acc hacc h
        | some vi =>
          rw [validateItemsStep_some acc o vi hv, exceptBind_ok] at h
          refine ih (acc ++ [JValue.obj vi]) ?_ h
          intro it hit
          rcases List.mem_append.mp hit with hl | hr
          · exact hacc it hl
          · rw [List.mem_singleton.mp hr]
            exact validateItem_ok_norm o (some vi) hv vi rfl
    | null =>
      rw [validateItemsStep_nonobj acc _ (fun _ h' => by cases h'), exceptBind_ok] at h
      exact ih acc hacc h
    | bool b =>
      rw [validateItemsStep_nonobj acc _ (fun _ h' => by cases h'), exceptBind_ok] at h
      exact ih acc hacc h
    | num q =>
      rw [validateItemsStep_nonobj acc _ (fun _ h' => by cases h'), exceptBind_ok] at h
      exact ih acc hacc h
    | str s =>
      rw [validateItemsStep_nonobj acc _ (fun _ h' => by cases h'), exceptBind_ok] at h
      exact ih acc hacc h
    | arr zs =>
      rw [validateItemsStep_nonobj acc _ (fun _ h' => by cases h'), exceptBind_ok] at h
      exact ih acc hacc h

theorem validateItems_ok_norm (xs ys : List JValue) (h : validateItems xs = .ok ys) :
    ∀ it ∈ ys, NormItemP it :=
  validateItems_from_norm xs [] ys (fun _ hit => absurd hit (List.not_mem_nil _)) h

theorem validateItems_from_fix (xs : List JValue) (acc : List JValue)
    (h : ∀ it ∈ xs, NormItemP it) :
    xs.foldlM validateItemsStep acc = .ok (acc ++ xs) := by
  induction xs generalizing acc with
  | nil => simp [List.foldlM_nil]; rfl
  | cons x t ih =>
    have hx := h x (List.mem_cons_self x t)
    obtain ⟨nm, q, up, tp, hvi, h2, h3, h4, h5, h6, h7⟩ := hx
    rw [List.foldlM_cons, hvi]
    have hfix : validateItem [("name", JValue.str nm), ("quantity", JValue.num (q : ℚ)),
        ("unit_price", JValue.num up), ("total_price", JValue.num tp)] =
        .ok (some [("name", JValue.str nm), ("quantity", JValue.num (q : ℚ)),
          ("unit_price", JValue.num up), ("total_price", JValue.num tp)]) :=
      validateItem_norm_fix _ ⟨nm, q, up, tp, rfl, h2, h3, h4, h5, h6, h7⟩
    rw [validateItemsStep_some acc _ _ hfix, exceptBind_ok,
      ih _ (fun it hit => h it (List.mem_cons_of_mem _ hit))]
    rw [← hvi]
    simp

theorem validateItems_norm_fix (xs : List JValue) (h : ∀ it ∈ xs, NormItemP it) :
    validateItems xs = .ok xs := by
  unfold validateItems
  rw [validateItems_from_fix xs [] h]
  rfl

/-! ## Lemmas: the items pass -/

theorem itemsStage_arr (d : Obj) (xs : List JValue)
    (h : dGet d "items" = some (.arr xs)) :
    itemsStage d = (validateItems xs).map (fun ys => dSet d "items" (.arr ys)) := by
  unfold itemsStage
  rw [h]

theorem itemsStage_skip (d : Obj)
    (h : ∀ xs, dGet d "items" ≠ some (.arr xs)) :
    itemsStage d = .ok d := by
  unfold itemsStage
  cases hg : dGet d "items" with
  | none => rfl
  | some v =>
    cases v with
    | arr xs => exact absurd hg (h xs)
    | null => rfl
    | bool b => rfl
    | num q => rfl
    | str s => rfl
    | obj o => rfl

theorem itemsStage_frame (d d' : Obj) (hok : itemsStage d = .ok d')
    (k : String) (hk : k ≠ "items") : dGet d' k = dGet d k := by
  cases hg : dGet d "items" with
  | none =>
    rw [itemsStage_skip d (fun xs h' => by rw [hg] at h'; cases h')] at hok
    injection hok with h2
    rw [h2]
  | some v =>
    cases v with
    | arr xs =>
      rw [itemsStage_arr d xs hg] at hok
      cases hys : validateItems xs with
      | error e => rw [hys] at hok; cases hok
      | ok ys =>
        rw [hys] at hok
        injection hok with h2
        rw [← h2, dGet_dSet_ne _ _ _ _ (Ne.symm hk)]
    | null =>
      rw [itemsStage_skip d (fun xs h' => by rw [hg] at h'; cases h')] at hok
      injection hok with h2; rw [h2]
    | bool b =>
      rw [itemsStage_skip d (fun xs h' => by rw [hg] at h'; cases h')] at hok
      injection hok with h2; rw [h2]
    | num q =>
      rw [itemsStage_skip d (fun xs h' => by rw [hg] at h'; cases h')] at hok
      injection hok with h2; rw [h2]
    | str s =>
      rw [itemsStage_skip d (fun xs h' => by rw [hg] at h'; cases h')] at hok
      injection hok with h2; rw [h2]
    | obj o =>
      rw [itemsStage_skip d (fun xs h' => by rw [hg] at h'; cases h')] at hok
      injection hok with h2; rw [h2]

theorem itemsStage_post (d d' : Obj) (hok : itemsStage d = .ok d') :
    ∀ v, dGet d' "items" = some v → ∀ xs, v = .arr xs → ∀ it ∈ xs, NormItemP it := by
  intro v hv xs hxs it hit
  subst hxs
  cases hg : dGet d "items" with
  | none =>
    rw [itemsStage_skip d (fun zs h' => by rw [hg] at h'; cases h')] at hok
    injection hok with h2
    rw [← h2, hg] at hv
    cases hv
  | some w =>
    cases w with
    | arr zs =>
      rw [itemsStage_arr d zs hg] at hok
      cases hys : validateItems zs with
      | error e => rw [hys] at hok; cases hok
      | ok ys =>
        rw [hys] at hok
        injection hok with h2
        rw [← h2, dGet_dSet_self] at hv
        injection hv with h3
        injection h3 with h4
        subst h4
        exact validateItems_ok_norm zs _ hys it hit
    | null =>
      rw [itemsStage_skip d (fun zs h' => by rw [hg] at h'; cases h')] at hok
      injection hok with h2
      rw [← h2, hg] at hv
      cases hv
    | bool b =>
      rw [itemsStage_skip d (fun zs h' => by rw [hg] at h'; cases h')] at hok
      injection hok with h2
      rw [← h2, hg] at hv
      cases hv
    | num q =>
      rw [itemsStage_skip d (fun zs h' => by rw [hg] at h'; cases h')] at hok
      injection hok with h2
      rw [← h2, hg] at hv
      cases hv
    | str s =>
      rw [itemsStage_skip d (fun zs h' => by rw [hg] at h'; cases h')] at hok
      injection hok with h2
      rw [← h2, hg] at hv
      cases hv
    | obj o =>
      rw [itemsStage_skip d (fun zs h' => by rw [hg] at h'; cases h')] at hok
      injection hok with h2
      rw [← h2, hg] at hv
      cases hv

theorem itemsStage_fix (d : Obj)
    (h : ∀ v, dGet d "items" = some v → ∀ xs, v = .arr xs → ∀ it ∈ xs, NormItemP it) :
    itemsStage d = .ok d := by
  cases hg : dGet d "items" with
  | none => exact itemsStage_skip d (fun xs h' => by rw [hg] at h'; cases h')
  | some v =>
    cases v with
    | arr xs =>
      rw [itemsStage_arr d xs hg,
        validateItems_norm_fix xs (h _ hg xs rfl)]
      show Except.ok (dSet d "items" (.arr xs)) = _
      rw [dSet_self d "items" _ hg]
    | null => exact itemsStage_skip d (fun xs h' => by rw [hg] at h'; cases h')
    | bool b => exact itemsStage_skip d (fun xs h' => by rw [hg] at h'; cases h')
    | num q => exact itemsStage_skip d (fun xs h' => by rw [hg] at h'; cases h')
    | str s => exact itemsStage_skip d (fun xs h' => by rw [hg] at h'; cases h')
    | obj o => exact itemsStage_skip d (fun xs h' => by rw [hg] at h'; cases h')

/-! ## Lemmas: the cross-validator -/

theorem cvItemsCheck_shape (d d1 : Obj) (adj : List ℚ)
    (h : cvItemsCheck d = .ok (d1, adj)) :
    (d1 = d ∧ adj = []) ∨
      (∃ notes, dGetD d "extraction_notes" (.str "") = .str notes ∧
        d1 = dSet d "extraction_notes"
          (.str (notes ++ " Items total doesn\x27t match receipt total.")) ∧
        adj = [-(1 / 5)]) := by
  unfold cvItemsCheck at h
  split at h
  · split at h
    · rename_i itemsV heqg htruthy
      cases hs : sumTotalPrices itemsV with
      | error e => rw [hs, exceptBind_err] at h; cases h
      | ok itemsTotal =>
        rw [hs, exceptBind_ok] at h
        split at h
        · split at h
          · cases h
          · split at h
            · split at h
              · split at h
                · rename_i notes heqn
                  injection h with h2
                  injection h2 with ha hb
                  exact Or.inr ⟨notes, heqn, ha.symm, hb.symm⟩
                · cases h
              · injection h with h2
                injection h2 with ha hb
                exact Or.inl ⟨ha.symm, hb.symm⟩
            · injection h with h2
              injection h2 with ha hb
              exact Or.inl ⟨ha.symm, hb.symm⟩
        · injection h with h2
          injection h2 with ha hb
          exact Or.inl ⟨ha.symm, hb.symm⟩
    · injection h with h2
      injection h2 with ha hb
      exact Or.inl ⟨ha.symm, hb.symm⟩
  · injection h with h2
    injection h2 with ha hb
    exact Or.inl ⟨ha.symm, hb.symm⟩

theorem cvSubtotalCheck_shape (d1 : Obj) (adj : List ℚ)
    (h : cvSubtotalCheck d1 = .ok adj) : adj = [] ∨ adj = [-(1 / 10)] := by
  unfold cvSubtotalCheck at h
  repeat' split at h
  all_goals try cases h
  all_goals try exact Or.inl rfl
  all_goals split <;> first | exact Or.inl rfl | exact Or.inr rfl

theorem cvHighCheck_shape (d1 : Obj) (adj : List ℚ)
    (h : cvHighCheck d1 = .ok adj) : adj = [] ∨ adj = [-(1 / 10)] := by
  unfold cvHighCheck at h
  repeat' split at h
  all_goals try cases h
  all_goals first | exact Or.inl rfl | exact Or.inr rfl

theorem cvMerchantCheck_shape (d1 : Obj) :
    cvMerchantCheck d1 = [] ∨ cvMerchantCheck d1 = [-(1 / 5)] := by
  unfold cvMerchantCheck
  split
  · split
    · exact Or.inr rfl
    · exact Or.inl rfl
  · exact Or.inl rfl

theorem cvAdj_sum_nonpos (adj1 adj2 adj3 adj4 : List ℚ)
    (h1 : adj1 = [] ∨ adj1 = [-(1 / 5)]) (h2 : adj2 = [] ∨ adj2 = [-(1 / 10)])
    (h3 : adj3 = [] ∨ adj3 = [-(1 / 10)]) (h4 : adj4 = [] ∨ adj4 = [-(1 / 5)]) :
    (adj1 ++ adj2 ++ adj3 ++ adj4).sum ≤ 0 := by
  rcases h1 with rfl | rfl <;> rcases h2 with rfl | rfl <;>
    rcases h3 with rfl | rfl <;> rcases h4 with rfl | rfl <;> norm_num

theorem crossValidateData_inv (d d' : Obj) (hok : crossValidateData d = .ok d') :
    ∃ (d1 : Obj) (adj1 adj2 adj3 : List ℚ) (oq : ℚ),
      cvItemsCheck d = .ok (d1, adj1) ∧ cvSubtotalCheck d1 = .ok adj2 ∧
      cvHighCheck d1 = .ok adj3 ∧
      pyAsNumber (dGetD d "confidence" (.num (1 / 2))) = some oq ∧
      d' = dSet d1 "confidence"
        (.num (max 0 (min 1 (oq + (adj1 ++ adj2 ++ adj3 ++ cvMerchantCheck d1).sum)))) := by
  unfold crossValidateData at hok
  cases h1 : cvItemsCheck d with
  | error e => rw [h1, exceptBind_err] at hok; cases hok
  | ok p =>
    obtain ⟨d1, adj1⟩ := p
    rw [h1, exceptBind_ok] at hok
    have hok2 : (cvSubtotalCheck d1 >>= fun adj2 =>
        cvHighCheck d1 >>= fun adj3 =>
        match pyAsNumber (dGetD d "confidence" (.num (1 / 2))) with
        | none => (Except.error (.typeError "unsupported operand type for +") : Except PyErr Obj)
        | some oq =>
          Except.ok (dSet d1 "confidence"
            (.num (max 0 (min 1 (oq + (adj1 ++ adj2 ++ adj3 ++ cvMerchantCheck d1).sum)))))) =
        .ok d' := hok
    cases h2 : cvSubtotalCheck d1 with
    | error e => rw [h2, exceptBind_err] at hok2; cases hok2
    | ok adj2 =>
      rw [h2, exceptBind_ok] at hok2
      cases h3 : cvHighCheck d1 with
      | error e => rw [h3, exceptBind_err] at hok2; cases hok2
      | ok adj3 =>
        rw [h3, exceptBind_ok] at hok2
        cases h4 : pyAsNumber (dGetD d "confidence" (.num (1 / 2))) with
        | none => rw [h4] at hok2; cases hok2
        | some oq =>
          rw [h4] at hok2
          injection hok2 with h5
          exact ⟨d1, adj1, adj2, adj3, oq, rfl, h2, h3, rfl, h5.symm⟩

theorem crossValidateData_frame (d d' : Obj) (hok : crossValidateData d = .ok d') :
    ∀ k, k ≠ "confidence" → k ≠ "extraction_notes" → dGet d' k = dGet d k := by
  intro k hkc hkn
  obtain ⟨d1, adj1, adj2, adj3, oq, h1, -, -, -, hd'⟩ := crossValidateData_inv d d' hok
  rw [hd', dGet_dSet_ne _ _ _ _ (Ne.symm hkc)]
  rcases cvItemsCheck_shape d d1 adj1 h1 with ⟨rfl, -⟩ | ⟨notes, -, rfl, -⟩
  · rfl
  · exact dGet_dSet_ne _ _ _ _ (Ne.symm hkn)

theorem crossValidateData_notes (d d' : Obj) (hok : crossValidateData d = .ok d') :
    ∀ notes, dGet d "extraction_notes" = some (.str notes) →
      ∃ suffix, dGet d' "extraction_notes" = some (.str (notes ++ suffix)) := by
  intro notes hn
  obtain ⟨d1, adj1, adj2, adj3, oq, h1, -, -, -, hd'⟩ := crossValidateData_inv d d' hok
  rw [hd', dGet_dSet_ne _ _ _ _ (by decide)]
  rcases cvItemsCheck_shape d d1 adj1 h1 with ⟨rfl, -⟩ | ⟨notes0, hn0, rfl, -⟩
  · refine ⟨"", ?_⟩
    rw [hn, String.append_empty]
  · have hnotes0 : notes0 = notes := by
      unfold dGetD at hn0
      rw [hn, Option.getD_some] at hn0
      exact (JValue.str.inj hn0).symm
    refine ⟨" Items total doesn\x27t match receipt total.", ?_⟩
    rw [dGet_dSet_self, hnotes0]

theorem crossValidateData_conf (d d' : Obj) (c : ℚ)
    (hc : dGet d "confidence" = some (.num c)) (h0 : 0 ≤ c) (h1 : c ≤ 1)
    (hok : crossValidateData d = .ok d') :
    ∃ c', dGet d' "confidence" = some (.num c') ∧ c' ≤ c ∧ 0 ≤ c' ∧ c' ≤ 1 := by
  obtain ⟨d1, adj1, adj2, adj3, oq, hi, hs, hh, hoq, hd'⟩ := crossValidateData_inv d d' hok
  have hoqc : oq = c := by
    unfold dGetD at hoq
    rw [hc, Option.getD_some] at hoq
    injection hoq with h2
    exact h2.symm
  subst hoqc
  have hsum : (adj1 ++ adj2 ++ adj3 ++ cvMerchantCheck d1).sum ≤ 0 :=
    cvAdj_sum_nonpos _ _ _ _
      ((cvItemsCheck_shape d d1 adj1 hi).imp (fun h => h.2) (fun ⟨_, _, _, h⟩ => h))
      (cvSubtotalCheck_shape d1 adj2 hs) (cvHighCheck_shape d1 adj3 hh)
      (cvMerchantCheck_shape d1)
  refine ⟨max 0 (min 1 (oq + (adj1 ++ adj2 ++ adj3 ++ cvMerchantCheck d1).sum)),
    by rw [hd', dGet_dSet_self], ?_, le_max_left 0 _, ?_⟩
  · have hle : oq + (adj1 ++ adj2 ++ adj3 ++ cvMerchantCheck d1).sum ≤ oq := by linarith
    exact max_le h0 (le_trans (min_le_right 1 _) hle)
  · exact max_le (by norm_num) (min_le_left 1 _)

theorem crossValidateJ_obj (d : Obj) :
    crossValidateJ (.obj d) = (crossValidateData d).map JValue.obj := rfl

/-! ## Lemmas: every internally raised error is a `TypeError`

`_parse_json_response` catches every `json.JSONDecodeError` itself, so the
`except json.JSONDecodeError` arm of the retry loop's final attempt is dead
code: the errors that can escape an attempt are transport errors, the
empty-response `ValueError`, and `TypeError`s from the dynamic typing of the
validator and cross-validator. -/

theorem validateItem_err_shape (o : Obj) (e : PyErr) (h : validateItem o = .error e) :
    e = .typeError "int() argument invalid" := by
  cases hq : pyInt (dGetD o "quantity" (.num 1)) with
  | none =>
    rw [validateItem_err o hq] at h
    injection h with h2
    exact h2.symm
  | some n =>
    rw [validateItem_some o n hq] at h
    by_cases hname : pyStrip (pyStr (dGetD o "name" (.str "Unknown Item"))) ≠ "" ∧
        pyStrip (pyStr (dGetD o "name" (.str "Unknown Item"))) ≠ "Unknown Item"
    · rw [if_pos hname] at h
      cases h
    · rw [if_neg hname] at h
      cases h

theorem validateItems_from_err (xs : List JValue) (acc : List JValue) (e : PyErr)
    (h : xs.foldlM validateItemsStep acc = .error e) :
    e = .typeError "int() argument invalid" := by
  induction xs generalizing acc with
  | nil =>
    rw [List.foldlM_nil] at h
    cases h
  | cons x t ih =>
    rw [List.foldlM_cons] at h
    cases x with
    | obj o =>
      cases hv : validateItem o with
      | error e2 =>
        rw [validateItemsStep_err acc o e2 hv, exceptBind_err] at h
        injection h with h2
        rw [← h2]
        exact validateItem_err_shape o e2 hv
      | ok res =>
        cases res with
        | none =>
          rw [validateItemsStep_none acc o hv, exceptBind_ok] at h
          exact ih acc h
        | some vi =>
          rw [validateItemsStep_some acc o vi hv, exceptBind_ok] at h
          exact ih _ h
    | null =>
      rw [validateItemsStep_nonobj acc _ (fun _ h' => by cases h'), exceptBind_ok] at h
      exact ih acc h
    | bool b =>
      rw [validateItemsStep_nonobj acc _ (fun _ h' => by cases h'), exceptBind_ok] at h
      exact ih acc h
    | num q =>
      rw [validateItemsStep_nonobj acc _ (fun _ h' => by cases h'), exceptBind_ok] at h
      exact ih acc h
    | str s =>
      rw [validateItemsStep_nonobj acc _ (fun _ h' => by cases h'), exceptBind_ok] at h
      exact ih acc h
    | arr zs =>
      rw [validateItemsStep_nonobj acc _ (fun _ h' => by cases h'), exceptBind_ok] at h
      exact ih acc h

theorem itemsStage_err_shape (d : Obj) (e : PyErr) (h : itemsStage d = .error e) :
    e = .typeError "int() argument invalid" := by
  unfold itemsStage at h
  split at h
  · rename_i xs heq
    cases hys : validateItems xs with
    | error e2 =>
      rw [hys] at h
      injection h with h2
      rw [← h2]
      exact validateItems_from_err xs [] e2 hys
    | ok ys => rw [hys] at h; cases h
  · cases h

theorem validateObjStages_err_shape (d : Obj) (today : PyDate) (e : PyErr)
    (h : validateObjStages d today = .error e) :
    e = .typeError "int() argument invalid" :=
  itemsStage_err_shape _ e h

theorem exceptMap_err {e' a b : Type} (f : a → b) (x : Except e' a) (e : e')
    (h : x.map f = .error e) : x = .error e := by
  cases x with
  | error e2 =>
    have h2 : (Except.error e2 : Except e' a).map f = (Except.error e2 : Except e' b) := rfl
    rw [h2] at h
    injection h with h3
    rw [h3]
  | ok v =>
    have h2 : (Except.ok v : Except e' a).map f = Except.ok (f v) := rfl
    rw [h2] at h
    cases h

theorem exceptMap_ok {e' a b : Type} (f : a → b) (x : Except e' a) (v : b)
    (h : x.map f = .ok v) : ∃ w, x = .ok w ∧ v = f w := by
  cases x with
  | error e2 =>
    have h2 : (Except.error e2 : Except e' a).map f = (Except.error e2 : Except e' b) := rfl
    rw [h2] at h
    cases h
  | ok w =>
    have h2 : (Except.ok w : Except e' a).map f = Except.ok (f w) := rfl
    rw [h2] at h
    injection h with h3
    exact ⟨w, rfl, h3.symm⟩

theorem validateAndEnhanceResult_obj (d : Obj) (today : PyDate) :
    validateAndEnhanceResult (.obj d) today =
      (validateObjStages ((requiredDefaults today).foldl defaultFieldPure d) today).map
        JValue.obj := by
  unfold validateAndEnhanceResult
  rw [foldlM_defaultStep_obj, exceptBind_ok]

theorem validateAndEnhanceResult_obj_err_shape (d : Obj) (today : PyDate) (e : PyErr)
    (h : validateAndEnhanceResult (.obj d) today = .error e) :
    e = .typeError "int() argument invalid" := by
  rw [validateAndEnhanceResult_obj] at h
  exact validateObjStages_err_shape _ today e (exceptMap_err _ _ _ h)

theorem validateAndEnhanceResult_err_shape (v : JValue) (today : PyDate) (e : PyErr)
    (h : validateAndEnhanceResult v today = .error e) : ∃ m, e = .typeError m := by
  cases v with
  | obj d => exact ⟨_, validateAndEnhanceResult_obj_err_shape d today e h⟩
  | null =>
    obtain ⟨msg, hmsg⟩ := foldlM_defaultStep_nonobj today .null (fun _ h' => by cases h')
    unfold validateAndEnhanceResult at h
    rw [hmsg, exceptBind_err] at h
    injection h with h2
    exact ⟨msg, h2.symm⟩
  | bool b =>
    obtain ⟨msg, hmsg⟩ := foldlM_defaultStep_nonobj today (.bool b) (fun _ h' => by cases h')
    unfold validateAndEnhanceResult at h
    rw [hmsg, exceptBind_err] at h
    injection h with h2
    exact ⟨msg, h2.symm⟩
  | num q =>
    obtain ⟨msg, hmsg⟩ := foldlM_defaultStep_nonobj today (.num q) (fun _ h' => by cases h')
    unfold validateAndEnhanceResult at h
    rw [hmsg, exceptBind_err] at h
    injection h with h2
    exact ⟨msg, h2.symm⟩
  | str s =>
    obtain ⟨msg, hmsg⟩ := foldlM_defaultStep_nonobj today (.str s) (fun _ h' => by cases h')
    unfold validateAndEnhanceResult at h
    rw [hmsg, exceptBind_err] at h
    injection h with h2
    exact ⟨msg, h2.symm⟩
  | arr xs =>
    obtain ⟨msg, hmsg⟩ := foldlM_defaultStep_nonobj today (.arr xs) (fun _ h' => by cases h')
    unfold validateAndEnhanceResult at h
    rw [hmsg, exceptBind_err] at h
    injection h with h2
    exact ⟨msg, h2.symm⟩

theorem sumPricesStep_err_shape (acc : ℚ) (it : JValue) (e : PyErr)
    (h : sumPricesStep acc it = .error e) : ∃ m, e = .typeError m := by
  unfold sumPricesStep at h
  split at h
  · split at h
    · cases h
    · injection h with h2
      exact ⟨_, h2.symm⟩
  · injection h with h2
    exact ⟨_, h2.symm⟩

theorem sumPrices_fold_err (xs : List JValue) (acc : ℚ) (e : PyErr)
    (h : xs.foldlM sumPricesStep acc = .error e) : ∃ m, e = .typeError m := by
  induction xs generalizing acc with
  | nil => rw [List.foldlM_nil] at h; cases h
  | cons x t ih =>
    rw [List.foldlM_cons] at h
    cases hx : sumPricesStep acc x with
    | error e2 =>
      rw [hx, exceptBind_err] at h
      injection h with h2
      rw [← h2]
      exact sumPricesStep_err_shape acc x e2 hx
    | ok a =>
      rw [hx, exceptBind_ok] at h
      exact ih a h

theorem sumTotalPrices_err_shape (v : JValue) (e : PyErr)
    (h : sumTotalPrices v = .error e) : ∃ m, e = .typeError m := by
  cases v with
  | arr xs => exact sumPrices_fold_err xs 0 e h
  | null => exact ⟨"object is not iterable", by injection h with h2; exact h2.symm⟩
  | bool b => exact ⟨"object is not iterable", by injection h with h2; exact h2.symm⟩
  | num q => exact ⟨"object is not iterable", by injection h with h2; exact h2.symm⟩
  | str s => exact ⟨"object is not iterable", by injection h with h2; exact h2.symm⟩
  | obj o => exact ⟨"object is not iterable", by injection h with h2; exact h2.symm⟩

theorem cvItemsCheck_err_shape (d : Obj) (e : PyErr) (h : cvItemsCheck d = .error e) :
    ∃ m, e = .typeError m := by
  unfold cvItemsCheck at h
  split at h
  · split at h
    · rename_i itemsV heqg htruthy
      cases hs : sumTotalPrices itemsV with
      | error e2 =>
        rw [hs, exceptBind_err] at h
        injection h with h2
        rw [← h2]
        exact sumTotalPrices_err_shape itemsV e2 hs
      | ok itemsTotal =>
        rw [hs, exceptBind_ok] at h
        repeat' split at h
        all_goals try cases h
        all_goals exact ⟨_, rfl⟩
    · cases h
  · cases h

theorem cvSubtotalCheck_err_shape (d1 : Obj) (e : PyErr)
    (h : cvSubtotalCheck d1 = .error e) : ∃ m, e = .typeError m := by
  unfold cvSubtotalCheck at h
  repeat' split at h
  all_goals try cases h
  all_goals exact ⟨_, rfl⟩

theorem cvHighCheck_err_shape (d1 : Obj) (e : PyErr)
    (h : cvHighCheck d1 = .error e) : ∃ m, e = .typeError m := by
  unfold cvHighCheck at h
  repeat' split at h
  all_goals try cases h
  all_goals exact ⟨_, rfl⟩

theorem crossValidateData_err_shape (d : Obj) (e : PyErr)
    (h : crossValidateData d = .error e) : ∃ m, e = .typeError m := by
  unfold crossValidateData at h
  cases h1 : cvItemsCheck d with
  | error e2 =>
    rw [h1, exceptBind_err] at h
    injection h with h2
    rw [← h2]
    exact cvItemsCheck_err_shape d e2 h1
  | ok p =>
    obtain ⟨d1, adj1⟩ := p
    rw [h1, exceptBind_ok] at h
    have hok2 : (cvSubtotalCheck d1 >>= fun adj2 =>
        cvHighCheck d1 >>= fun adj3 =>
        match pyAsNumber (dGetD d "confidence" (.num (1 / 2))) with
        | none => (Except.error (.typeError "unsupported operand type for +") : Except PyErr Obj)
        | some oq =>
          Except.ok (dSet d1 "confidence"
            (.num (max 0 (min 1 (oq + (adj1 ++ adj2 ++ adj3 ++ cvMerchantCheck d1).sum)))))) =
        .error e := h
    cases h2 : cvSubtotalCheck d1 with
    | error e2 =>
      rw [h2, exceptBind_err] at hok2
      injection hok2 with h3
      rw [← h3]
      exact cvSubtotalCheck_err_shape d1 e2 h2
    | ok adj2 =>
      rw [h2, exceptBind_ok] at hok2
      cases h3 : cvHighCheck d1 with
      | error e2 =>
        rw [h3, exceptBind_err] at hok2
        injection hok2 with h4
        rw [← h4]
        exact cvHighCheck_err_shape d1 e2 h3
      | ok adj3 =>
        rw [h3, exceptBind_ok] at hok2
        cases h4 : pyAsNumber (dGetD d "confidence" (.num (1 / 2))) with
        | none =>
          rw [h4] at hok2
          injection hok2 with h5
          exact ⟨_, h5.symm⟩
        | some oq =>
          rw [h4] at hok2
          cases hok2

theorem crossValidateJ_err_shape (v : JValue) (e : PyErr)
    (h : crossValidateJ v = .error e) : ∃ m, e = .typeError m := by
  cases v with
  | obj d =>
    rw [crossValidateJ_obj] at h
    exact crossValidateData_err_shape d e (exceptMap_err _ _ _ h)
  | null => exact ⟨"object has no attribute get", by injection h with h2; exact h2.symm⟩
  | bool b => exact ⟨"object has no attribute get", by injection h with h2; exact h2.symm⟩
  | num q => exact ⟨"object has no attribute get", by injection h with h2; exact h2.symm⟩
  | str s => exact ⟨"object has no attribute get", by injection h with h2; exact h2.symm⟩
  | arr xs => exact ⟨"object has no attribute get", by injection h with h2; exact h2.symm⟩

theorem processOnce_err_shape (text : String) (today : PyDate) (e : PyErr)
    (h : processOnce text today = .error e) : ∃ m, e = .typeError m := by
  unfold processOnce at h
  have h2 : (validateAndEnhanceResult (parseJsonResponse (cleanResponseText text) today) today >>=
      fun validated => crossValidateJ validated) = .error e := h
  cases hv : validateAndEnhanceResult (parseJsonResponse (cleanResponseText text) today) today with
  | error e2 =>
    rw [hv, exceptBind_err] at h2
    injection h2 with h3
    rw [← h3]
    exact validateAndEnhanceResult_err_shape _ today e2 hv
  | ok validated =>
    rw [hv, exceptBind_ok] at h2
    exact crossValidateJ_err_shape validated e h2

theorem attemptOnce_err_shape (stub : ModelStub) (i : Nat) (today : PyDate) (e : PyErr)
    (h : attemptOnce stub i today = .error e) :
    (∃ m, e = .transport m) ∨ e = .valueError "Empty response from AI model" ∨
      ∃ m, e = .typeError m := by
  unfold attemptOnce at h
  cases hs : stub i with
  | error m =>
    rw [hs] at h
    have h2 : ((Except.error (PyErr.transport m) : Except PyErr String) >>= fun text =>
        if text = "" then Except.error (.valueError "Empty response from AI model")
        else processOnce (pyStrip text) today) = .error e := h
    rw [exceptBind_err] at h2
    injection h2 with h3
    exact Or.inl ⟨m, h3.symm⟩
  | ok t =>
    rw [hs] at h
    have h2 : ((Except.ok t : Except PyErr String) >>= fun text =>
        if text = "" then Except.error (.valueError "Empty response from AI model")
        else processOnce (pyStrip text) today) = .error e := h
    rw [exceptBind_ok] at h2
    by_cases ht : t = ""
    · rw [if_pos ht] at h2
      injection h2 with h3
      exact Or.inr (Or.inl h3.symm)
    · rw [if_neg ht] at h2
      exact Or.inr (Or.inr (processOnce_err_shape _ today e h2))

theorem processReceipt_shape (stub : ModelStub) (today : PyDate) :
    (∃ i r, attemptOnce stub i today = .ok r ∧ processReceipt stub today = (r, i + 1)) ∨
    (∃ e, attemptOnce stub 2 today = .error e ∧
      processReceipt stub today = (createFallbackResult (pyErrStr e) today, 3)) := by
  cases ha0 : attemptOnce stub 0 today with
  | ok r =>
    refine Or.inl ⟨0, r, ha0, ?_⟩
    simp only [processReceipt, ha0]
  | error e0 =>
    cases ha1 : attemptOnce stub 1 today with
    | ok r =>
      refine Or.inl ⟨1, r, ha1, ?_⟩
      simp only [processReceipt, ha0, ha1]
    | error e1 =>
      cases ha2 : attemptOnce stub 2 today with
      | ok r =>
        refine Or.inl ⟨2, r, ha2, ?_⟩
        simp only [processReceipt, ha0, ha1, ha2]
      | error e2 =>
        refine Or.inr ⟨e2, rfl, ?_⟩
        rcases attemptOnce_err_shape stub 2 today e2 ha2 with ⟨m, rfl⟩ | rfl | ⟨m, rfl⟩ <;>
          simp only [processReceipt, ha0, ha1, ha2]

/-! ## Lemmas: the validator establishes and preserves the normal form -/

theorem validateObjStages_norm (d d' : Obj) (today : PyDate) (ht : today.Valid)
    (hm : ∃ v, dGet d "merchant_name" = some v ∧ isNullOrEmptyStr v = false)
    (htot : (dGet d "total_amount").isSome)
    (hconf : (dGet d "confidence").isSome)
    (hok : validateObjStages d today = .ok d') :
    NormObj d' today := by
  have hout : itemsStage (currencyStage (timeStage (dateStage (numericStage
      (categoryStage (merchantStage d))) today))) = .ok d' := hok
  have hmpost := merchantStage_post d hm
  have hmerch : dGet d' "merchant_name" = dGet (merchantStage d) "merchant_name" := by
    rw [itemsStage_frame _ _ hout _ (by decide), currencyStage_frame _ _ (by decide),
      timeStage_frame _ _ (by decide), dateStage_frame _ _ _ (by decide),
      numericStage_frame _ _ (by decide), categoryStage_frame _ _ (by decide)]
  have hcat : dGet d' "category" = dGet (categoryStage (merchantStage d)) "category" := by
    rw [itemsStage_frame _ _ hout _ (by decide), currencyStage_frame _ _ (by decide),
      timeStage_frame _ _ (by decide), dateStage_frame _ _ _ (by decide),
      numericStage_frame _ _ (by decide)]
  have hnum : ∀ f ∈ numericFields,
      dGet d' f = dGet (numericStage (categoryStage (merchantStage d))) f := by
    intro f hf
    have hf2 := hf
    simp only [numericFields, List.mem_cons, List.not_mem_nil, or_false] at hf2
    rcases hf2 with rfl | rfl | rfl | rfl | rfl | rfl <;>
      rw [itemsStage_frame _ _ hout _ (by decide), currencyStage_frame _ _ (by decide),
        timeStage_frame _ _ (by decide), dateStage_frame _ _ _ (by decide)]
  have hdate : dGet d' "transaction_date" =
      dGet (dateStage (numericStage (categoryStage (merchantStage d))) today)
        "transaction_date" := by
    rw [itemsStage_frame _ _ hout _ (by decide), currencyStage_frame _ _ (by decide),
      timeStage_frame _ _ (by decide)]
  have htime : dGet d' "transaction_time" =
      dGet (timeStage (dateStage (numericStage (categoryStage (merchantStage d))) today))
        "transaction_time" := by
    rw [itemsStage_frame _ _ hout _ (by decide), currencyStage_frame _ _ (by decide)]
  have hcur : dGet d' "currency" =
      dGet (currencyStage (timeStage (dateStage (numericStage (categoryStage
        (merchantStage d))) today))) "currency" := by
    rw [itemsStage_frame _ _ hout _ (by decide)]
  refine ⟨?_, ?_, ?_, ?_, ?_, ?_, ?_, ?_, ?_, ?_, ?_⟩
  · rw [hmerch]
    exact hmpost.1
  · rw [hmerch]
    exact hmpost.2.1
  · rw [hmerch]
    exact hmpost.2.2
  · rw [hcat]
    exact categoryStage_post (merchantStage d)
  · rw [hdate, dateStage_get]
    obtain ⟨dt, hdtv, hrender⟩ := validateDate_valid
      (dGetD (numericStage (categoryStage (merchantStage d))) "transaction_date" .null)
      today ht
    exact ⟨dt, hdtv, by rw [hrender]⟩
  · intro f hf v hv
    rw [hnum f hf, numericStage_get _ f hf] at hv
    obtain ⟨w, hw, hvw⟩ := Option.map_eq_some'.mp hv
    refine ⟨cleanNumericValue w f, hvw.symm, cleanNumericValue_nonneg w f, ?_⟩
    intro hfc
    subst hfc
    exact cleanNumericValue_conf_le_one w
  · rw [hnum "total_amount" (by decide), numericStage_get _ _ (by decide)]
    have : dGet (categoryStage (merchantStage d)) "total_amount" =
        dGet d "total_amount" := by
      rw [categoryStage_frame _ _ (by decide), merchantStage_frame _ _ (by decide)]
    rw [this]
    obtain ⟨v, hv⟩ := Option.isSome_iff_exists.mp htot
    rw [hv]
    rfl
  · rw [hnum "confidence" (by decide), numericStage_get _ _ (by decide)]
    have : dGet (categoryStage (merchantStage d)) "confidence" =
        dGet d "confidence" := by
      rw [categoryStage_frame _ _ (by decide), merchantStage_frame _ _ (by decide)]
    rw [this]
    obtain ⟨v, hv⟩ := Option.isSome_iff_exists.mp hconf
    rw [hv]
    rfl
  · rw [hcur, currencyStage_get]
    refine ⟨normalizeCurrency (dGetD (timeStage (dateStage (numericStage (categoryStage
      (merchantStage d))) today)) "currency" (.str "USD")), rfl, ?_⟩
    exact (normalizeCurrency_fix _).1
  · intro v hv
    rw [htime] at hv
    exact timeStage_post _ v hv
  · intro v hv xs hxs it hit
    exact itemsStage_post _ _ hout v hv xs hxs it hit

theorem cleanNumericField_fix (d : Obj) (f : String)
    (h : ∀ v, dGet d f = some v →
      ∃ q : ℚ, v = .num q ∧ 0 ≤ q ∧ (f = "confidence" → q ≤ 1)) :
    cleanNumericField d f = d := by
  cases hg : dGet d f with
  | none => exact cleanNumericField_eq_none d f hg
  | some v =>
    obtain ⟨q, rfl, hq0, hq1⟩ := h v hg
    rw [cleanNumericField_eq_some d f _ hg]
    by_cases hc : f = "confidence"
    · subst hc
      rw [cleanNumericValue_conf_eq q hq0 (hq1 rfl), dSet_self d _ _ hg]
    · rw [cleanNumericValue_num_eq q f hc hq0, dSet_self d _ _ hg]

theorem numericFold_fix (lst : List String) (d : Obj)
    (h : ∀ f ∈ lst, ∀ v, dGet d f = some v →
      ∃ q : ℚ, v = .num q ∧ 0 ≤ q ∧ (f = "confidence" → q ≤ 1)) :
    lst.foldl cleanNumericField d = d := by
  induction lst with
  | nil => rfl
  | cons g t ih =>
    rw [List.foldl_cons, cleanNumericField_fix d g (h g (List.mem_cons_self g t))]
    exact ih (fun f hf => h f (List.mem_cons_of_mem g hf))

theorem merchantStage_fix (d : Obj) (today : PyDate) (h : NormObj d today) :
    merchantStage d = d := by
  obtain ⟨v, hv⟩ := Option.isSome_iff_exists.mp h.merchant_some
  cases v with
  | str s =>
    obtain ⟨hstrip, hne⟩ := h.merchant_str s hv
    rw [merchantStage_eq_str d s hv, if_neg (by rw [hstrip]; exact hne), hstrip,
      dSet_self d _ _ hv]
  | null => exact merchantStage_other d (fun s hs => by rw [hv] at hs; cases hs)
  | bool b => exact merchantStage_other d (fun s hs => by rw [hv] at hs; cases hs)
  | num q => exact merchantStage_other d (fun s hs => by rw [hv] at hs; cases hs)
  | arr xs => exact merchantStage_other d (fun s hs => by rw [hv] at hs; cases hs)
  | obj o => exact merchantStage_other d (fun s hs => by rw [hv] at hs; cases hs)

theorem categoryStage_fix (d : Obj) (today : PyDate) (h : NormObj d today) :
    categoryStage d = d := by
  obtain ⟨s, hs, hmem⟩ := h.category
  rw [categoryStage_eq]
  rw [if_pos ?_]
  apply (isCategoryMember_iff _).mpr
  refine ⟨s, ?_, hmem⟩
  unfold dGetD
  rw [hs]
  rfl

theorem numericStage_fix (d : Obj) (today : PyDate) (h : NormObj d today) :
    numericStage d = d :=
  numericFold_fix numericFields d h.numerics

theorem dateStage_fix (d : Obj) (today : PyDate)
    (hy : ∃ dt, PyDate.Valid dt ∧ 1000 ≤ dt.year ∧
      dGet d "transaction_date" = some (.str (renderDate dt))) :
    dateStage d today = d := by
  obtain ⟨dt, hdtv, h4, hdget⟩ := hy
  unfold dateStage
  have hgd : dGetD d "transaction_date" .null = .str (renderDate dt) := by
    unfold dGetD
    rw [hdget]
    rfl
  rw [hgd, validateDate_render dt today hdtv h4, dSet_self d _ _ hdget]

theorem timeStage_fix (d : Obj) (today : PyDate) (h : NormObj d today) :
    timeStage d = d := by
  cases hg : dGet d "transaction_time" with
  | none => exact timeStage_eq_none d hg
  | some v =>
    cases htr : truthy v with
    | false =>
      exact timeStage_skip d (fun w hw => by
        rw [hg] at hw
        injection hw with h2
        rw [← h2]
        exact htr)
    | true =>
      rcases h.time v hg with hfalse | hfix
      · rw [htr] at hfalse
        cases hfalse
      · rw [timeStage_set d v hg htr, hfix, dSet_self d _ _ hg]

theorem currencyStage_fix (d : Obj) (today : PyDate) (h : NormObj d today) :
    currencyStage d = d := by
  obtain ⟨s, hs, hnorm⟩ := h.currency
  unfold currencyStage
  have hgd : dGetD d "currency" (.str "USD") = .str s := by
    unfold dGetD
    rw [hs]
    rfl
  rw [hgd, hnorm, dSet_self d _ _ hs]

theorem validateObjStages_fix (d : Obj) (today : PyDate) (h : NormObj d today)
    (hy : ∃ dt, PyDate.Valid dt ∧ 1000 ≤ dt.year ∧
      dGet d "transaction_date" = some (.str (renderDate dt))) :
    validateObjStages d today = .ok d := by
  unfold validateObjStages
  rw [merchantStage_fix d today h, categoryStage_fix d today h, numericStage_fix d today h,
    dateStage_fix d today hy, timeStage_fix d today h, currencyStage_fix d today h]
  exact itemsStage_fix d h.items

theorem defaultFieldPure_fix (d : Obj) (kv : String × JValue) (v : JValue)
    (hg : dGet d kv.1 = some v) (hne : isNullOrEmptyStr v = false) :
    defaultFieldPure d kv = d := by
  rw [defaultFieldPure_some d kv v hg, if_neg (by simp [hne])]

theorem foldl_defaultFieldPure_fix (lst : List (String × JValue)) (d : Obj)
    (h : ∀ kv ∈ lst, ∃ v, dGet d kv.1 = some v ∧ isNullOrEmptyStr v = false) :
    lst.foldl defaultFieldPure d = d := by
  induction lst with
  | nil => rfl
  | cons a t ih =>
    obtain ⟨v, hv, hne⟩ := h a (List.mem_cons_self a t)
    rw [List.foldl_cons, defaultFieldPure_fix d a v hv hne]
    exact ih (fun kv hkv => h kv (List.mem_cons_of_mem a hkv))

theorem categoryList_ne_empty : ∀ s ∈ categoryList, s ≠ "" := by decide

theorem normObj_required_filled (d : Obj) (today : PyDate) (h : NormObj d today) :
    ∀ kv ∈ requiredDefaults today, ∃ v, dGet d kv.1 = some v ∧
      isNullOrEmptyStr v = false := by
  intro kv hkv
  unfold requiredDefaults at hkv
  simp only [List.mem_cons, List.not_mem_nil, or_false] at hkv
  rcases hkv with rfl | rfl | rfl | rfl | rfl | rfl
  · obtain ⟨v, hv⟩ := Option.isSome_iff_exists.mp h.merchant_some
    exact ⟨v, hv, h.merchant_ne v hv⟩
  · obtain ⟨dt, hdtv, hdget⟩ := h.date
    refine ⟨.str (renderDate dt), hdget, ?_⟩
    simp [isNullOrEmptyStr, renderDate_ne_empty dt]
  · obtain ⟨v, hv⟩ := Option.isSome_iff_exists.mp h.total_some
    obtain ⟨q, rfl, -, -⟩ := h.numerics "total_amount" (by decide) v hv
    exact ⟨.num q, hv, rfl⟩
  · obtain ⟨s, hs, hnorm⟩ := h.currency
    refine ⟨.str s, hs, ?_⟩
    have hne : s ≠ "" := by
      rw [← hnorm]
      exact (normalizeCurrency_fix (.str s)).2
    simp [isNullOrEmptyStr, hne]
  · obtain ⟨s, hs, hmem⟩ := h.category
    refine ⟨.str s, hs, ?_⟩
    simp [isNullOrEmptyStr, categoryList_ne_empty s hmem]
  · obtain ⟨v, hv⟩ := Option.isSome_iff_exists.mp h.conf_some
    obtain ⟨q, rfl, -, -⟩ := h.numerics "confidence" (by decide) v hv
    exact ⟨.num q, hv, rfl⟩

theorem validateAndEnhanceResult_fix (d : Obj) (today : PyDate) (h : NormObj d today)
    (hy : ∃ dt, PyDate.Valid dt ∧ 1000 ≤ dt.year ∧
      dGet d "transaction_date" = some (.str (renderDate dt))) :
    validateAndEnhanceResult (.obj d) today = .ok (.obj d) := by
  rw [validateAndEnhanceResult_obj,
    foldl_defaultFieldPure_fix _ d (normObj_required_filled d today h),
    validateObjStages_fix d today h hy]
  rfl

theorem validateAndEnhanceResult_norm (v r : JValue) (today : PyDate) (ht : today.Valid)
    (hok : validateAndEnhanceResult v today = .ok r) :
    ∃ d', r = .obj d' ∧ NormObj d' today := by
  cases v with
  | obj d =>
    rw [validateAndEnhanceResult_obj] at hok
    obtain ⟨d', hd', hr⟩ := exceptMap_ok _ _ _ hok
    refine ⟨d', hr, ?_⟩
    have hpost := foldl_defaultFieldPure_post (requiredDefaults today) d
      (requiredDefaults_vals today) (requiredDefaults_keys today)
    refine validateObjStages_norm _ d' today ht ?_ ?_ ?_ hd'
    · exact hpost ("merchant_name", .str "Unknown") (by simp [requiredDefaults])
    · obtain ⟨v2, hv2, -⟩ := hpost ("total_amount", .num 0) (by simp [requiredDefaults])
      rw [hv2]
      rfl
    · obtain ⟨v2, hv2, -⟩ := hpost ("confidence", .num (1 / 2)) (by simp [requiredDefaults])
      rw [hv2]
      rfl
  | null =>
    obtain ⟨msg, hmsg⟩ := foldlM_defaultStep_nonobj today .null (fun _ h' => by cases h')
    unfold validateAndEnhanceResult at hok
    rw [hmsg, exceptBind_err] at hok
    cases hok
  | bool b =>
    obtain ⟨msg, hmsg⟩ := foldlM_defaultStep_nonobj today (.bool b) (fun _ h' => by cases h')
    unfold validateAndEnhanceResult at hok
    rw [hmsg, exceptBind_err] at hok
    cases hok
  | num q =>
    obtain ⟨msg, hmsg⟩ := foldlM_defaultStep_nonobj today (.num q) (fun _ h' => by cases h')
    unfold validateAndEnhanceResult at hok
    rw [hmsg, exceptBind_err] at hok
    cases hok
  | str s =>
    obtain ⟨msg, hmsg⟩ := foldlM_defaultStep_nonobj today (.str s) (fun _ h' => by cases h')
    unfold validateAndEnhanceResult at hok
    rw [hmsg, exceptBind_err] at hok
    cases hok
  | arr xs =>
    obtain ⟨msg, hmsg⟩ := foldlM_defaultStep_nonobj today (.arr xs) (fun _ h' => by cases h')
    unfold validateAndEnhanceResult at hok
    rw [hmsg, exceptBind_err] at hok
    cases hok

/-! ## Lemmas: the record invariant on every pipeline output -/

theorem crossValidate_norm_record (d d' : Obj) (today : PyDate)
    (hn : NormObj d today) (hok : crossValidateData d = .ok d') :
    RecordInvariant (.obj d') := by
  have hframe := crossValidateData_frame d d' hok
  have hconf0 : ∃ c : ℚ, dGet d "confidence" = some (.num c) ∧ 0 ≤ c ∧ c ≤ 1 := by
    obtain ⟨v, hv⟩ := Option.isSome_iff_exists.mp hn.conf_some
    obtain ⟨q, rfl, hq0, hq1⟩ := hn.numerics "confidence" (by decide) v hv
    exact ⟨q, hv, hq0, hq1 rfl⟩
  obtain ⟨c, hc, hc0, hc1⟩ := hconf0
  obtain ⟨c', hc', -, hc'0, hc'1⟩ := crossValidateData_conf d d' c hc hc0 hc1 hok
  refine ⟨d', rfl, ?_, ?_, ?_, ?_, ?_, ?_, ?_⟩
  · intro f hf
    simp only [requiredFieldNames, List.mem_cons, List.not_mem_nil, or_false] at hf
    rcases hf with rfl | rfl | rfl | rfl | rfl | rfl
    · rw [hframe _ (by decide) (by decide)]
      exact hn.merchant_some
    · rw [hframe _ (by decide) (by decide)]
      obtain ⟨dt, -, hd⟩ := hn.date
      rw [hd]
      rfl
    · rw [hframe _ (by decide) (by decide)]
      exact hn.total_some
    · rw [hframe _ (by decide) (by decide)]
      obtain ⟨s, hs, -⟩ := hn.currency
      rw [hs]
      rfl
    · rw [hframe _ (by decide) (by decide)]
      obtain ⟨s, hs, -⟩ := hn.category
      rw [hs]
      rfl
    · rw [hc']
      rfl
  · obtain ⟨s, hs, hmem⟩ := hn.category
    rw [hframe _ (by decide) (by decide)]
    exact ⟨s, hs, hmem⟩
  · exact ⟨c', hc', hc'0, hc'1⟩
  · obtain ⟨dt, hdtv, hd⟩ := hn.date
    rw [hframe _ (by decide) (by decide)]
    exact ⟨renderDate dt, hd, dt, hdtv, rfl⟩
  · obtain ⟨v, hv⟩ := Option.isSome_iff_exists.mp hn.total_some
    obtain ⟨q, rfl, -, -⟩ := hn.numerics "total_amount" (by decide) v hv
    rw [hframe _ (by decide) (by decide)]
    exact ⟨q, hv⟩
  · obtain ⟨s, hs, -⟩ := hn.currency
    rw [hframe _ (by decide) (by decide)]
    exact ⟨s, hs⟩
  · intro xs hxs it hit
    rw [hframe _ (by decide) (by decide)] at hxs
    obtain ⟨nm, q, up, tp, rfl, -, -, -, hq1, -, -⟩ :=
      hn.items _ hxs xs rfl it hit
    refine ⟨_, rfl, (q : ℚ), ?_, ?_⟩
    · simp [dGet]
    · exact_mod_cast hq1

theorem createFallbackResult_record (msg : String) (today : PyDate) (ht : today.Valid) :
    RecordInvariant (createFallbackResult msg today) := by
  refine ⟨_, rfl, ?_, ?_, ?_, ?_, ?_, ?_, ?_⟩
  · intro f hf
    simp only [requiredFieldNames, List.mem_cons, List.not_mem_nil, or_false] at hf
    rcases hf with rfl | rfl | rfl | rfl | rfl | rfl <;> rfl
  · exact ⟨"Other", rfl, by decide⟩
  · exact ⟨1 / 10, rfl, by norm_num, by norm_num⟩
  · exact ⟨renderDate today, rfl, today, ht, rfl⟩
  · exact ⟨0, rfl⟩
  · exact ⟨"USD", rfl⟩
  · intro xs hxs
    rw [show dGet [("merchant_name", JValue.str "Unknown"),
      ("transaction_date", .str (renderDate today)),
      ("total_amount", .num 0), ("currency", .str "USD"), ("category", .str "Other"),
      ("confidence", .num (1 / 10)),
      ("extraction_notes", .str ("Processing failed: " ++ msg))] "items" = none from rfl] at hxs
    cases hxs

theorem processOnce_record (text : String) (today : PyDate) (ht : today.Valid) (r : JValue)
    (hok : processOnce text today = .ok r) : RecordInvariant r := by
  unfold processOnce at hok
  have h2 : (validateAndEnhanceResult (parseJsonResponse (cleanResponseText text) today) today >>=
      fun validated => crossValidateJ validated) = .ok r := hok
  cases hv : validateAndEnhanceResult (parseJsonResponse (cleanResponseText text) today) today with
  | error e => rw [hv, exceptBind_err] at h2; cases h2
  | ok validated =>
    rw [hv, exceptBind_ok] at h2
    obtain ⟨d', rfl, hnorm⟩ := validateAndEnhanceResult_norm _ validated today ht hv
    rw [crossValidateJ_obj] at h2
    obtain ⟨d2, hd2, hr⟩ := exceptMap_ok _ _ _ h2
    rw [hr]
    exact crossValidate_norm_record d' d2 today hnorm hd2

theorem attemptOnce_record (stub : ModelStub) (i : Nat) (today : PyDate) (ht : today.Valid)
    (r : JValue) (h : attemptOnce stub i today = .ok r) : RecordInvariant r := by
  unfold attemptOnce at h
  cases hs : stub i with
  | error m =>
    rw [hs] at h
    have h2 : ((Except.error (PyErr.transport m) : Except PyErr String) >>= fun text =>
        if text = "" then Except.error (.valueError "Empty response from AI model")
        else processOnce (pyStrip text) today) = .ok r := h
    rw [exceptBind_err] at h2
    cases h2
  | ok t =>
    rw [hs] at h
    have h2 : ((Except.ok t : Except PyErr String) >>= fun text =>
        if text = "" then Except.error (.valueError "Empty response from AI model")
        else processOnce (pyStrip text) today) = .ok r := h
    rw [exceptBind_ok] at h2
    by_cases hemp : t = ""
    · rw [if_pos hemp] at h2
      cases h2
    · rw [if_neg hemp] at h2
      exact processOnce_record (pyStrip t) today ht r h2

/-! ## Lemmas: first format wins, and items succeed when quantities coerce -/

theorem findSome_append_first {α β : Type} (pre : List α) (x : α) (post : List α)
    (f : α → Option β) (b : β) (hpre : ∀ a ∈ pre, f a = none) (hx : f x = some b) :
    (pre ++ x :: post).findSome? f = some b := by
  induction pre with
  | nil => simp [List.findSome?_cons, hx]
  | cons a t ih =>
    rw [List.cons_append, List.findSome?_cons, hpre a (List.mem_cons_self a t)]
    exact ih (fun g hg => hpre g (List.mem_cons_of_mem a hg))

theorem normalizeDateStr_first_win (s : String) (today : PyDate)
    (pre post : List DateFmt) (fmt : DateFmt) (dt : PyDate)
    (hsplit : dateFormats = pre ++ fmt :: post)
    (hpre : ∀ g ∈ pre, tryDateFormat g (pyStrip s) = none)
    (hx : tryDateFormat fmt (pyStrip s) = some dt) :
    normalizeDateStr s today = renderDate dt := by
  unfold normalizeDateStr tryDateFormats
  rw [hsplit, findSome_append_first pre fmt post _ dt hpre hx]

theorem tryDateFormats_none (s : String)
    (h : ∀ g ∈ dateFormats, tryDateFormat g (pyStrip s) = none) :
    normalizeDateStr s today = renderDate today := by
  unfold normalizeDateStr tryDateFormats
  rw [List.findSome?_eq_none_iff.mpr (fun g hg => h g hg)]

theorem validateItem_ok_of (o : Obj) (n : ℤ)
    (hq : pyInt (dGetD o "quantity" (.num 1)) = some n) :
    ∃ res, validateItem o = .ok res := by
  rw [validateItem_some o n hq]
  by_cases hname : pyStrip (pyStr (dGetD o "name" (.str "Unknown Item"))) ≠ "" ∧
      pyStrip (pyStr (dGetD o "name" (.str "Unknown Item"))) ≠ "Unknown Item"
  · rw [if_pos hname]
    exact ⟨_, rfl⟩
  · rw [if_neg hname]
    exact ⟨none, rfl⟩

theorem validateItems_from_ok (xs : List JValue) (acc : List JValue)
    (h : ∀ it ∈ xs, ∀ o : Obj, it = .obj o → pyInt (dGetD o "quantity" (.num 1)) ≠ none) :
    ∃ ys, xs.foldlM validateItemsStep acc = .ok ys := by
  induction xs generalizing acc with
  | nil => exact ⟨acc, rfl⟩
  | cons x t ih =>
    rw [List.foldlM_cons]
    have htail : ∀ it ∈ t, ∀ o : Obj, it = .obj o →
        pyInt (dGetD o "quantity" (.num 1)) ≠ none :=
      fun it hit => h it (List.mem_cons_of_mem x hit)
    cases x with
    | obj o =>
      cases hq : pyInt (dGetD o "quantity" (.num 1)) with
      | none => exact absurd hq (h _ (List.mem_cons_self _ t) o rfl)
      | some n =>
        obtain ⟨res, hres⟩ := validateItem_ok_of o n hq
        cases res with
        | some vi =>
          rw [validateItemsStep_some acc o vi hres, exceptBind_ok]
          exact ih _ htail
        | none =>
          rw [validateItemsStep_none acc o hres, exceptBind_ok]
          exact ih _ htail
    | null =>
      rw [validateItemsStep_nonobj acc _ (fun _ h' => by cases h'), exceptBind_ok]
      exact ih _ htail
    | bool b =>
      rw [validateItemsStep_nonobj acc _ (fun _ h' => by cases h'), exceptBind_ok]
      exact ih _ htail
    | num q =>
      rw [validateItemsStep_nonobj acc _ (fun _ h' => by cases h'), exceptBind_ok]
      exact ih _ htail
    | str s =>
      rw [validateItemsStep_nonobj acc _ (fun _ h' => by cases h'), exceptBind_ok]
      exact ih _ htail
    | arr zs =>
      rw [validateItemsStep_nonobj acc _ (fun _ h' => by cases h'), exceptBind_ok]
      exact ih _ htail

theorem itemsStage_ok_of (d : Obj)
    (h : ∀ xs, dGet d "items" = some (.arr xs) → ∀ it ∈ xs, ∀ o : Obj, it = .obj o →
      pyInt (dGetD o "quantity" (.num 1)) ≠ none) :
    ∃ d2, itemsStage d = .ok d2 := by
  cases hg : dGet d "items" with
  | none => exact ⟨d, itemsStage_skip d (fun xs h' => by rw [hg] at h'; cases h')⟩
  | some v =>
    cases v with
    | arr xs =>
      obtain ⟨ys, hys⟩ := validateItems_from_ok xs [] (h xs hg)
      refine ⟨dSet d "items" (.arr ys), ?_⟩
      rw [itemsStage_arr d xs hg]
      have : validateItems xs = .ok ys := hys
      rw [this]
      rfl
    | null => exact ⟨d, itemsStage_skip d (fun xs h' => by rw [hg] at h'; cases h')⟩
    | bool b => exact ⟨d, itemsStage_skip d (fun xs h' => by rw [hg] at h'; cases h')⟩
    | num q => exact ⟨d, itemsStage_skip d (fun xs h' => by rw [hg] at h'; cases h')⟩
    | str s => exact ⟨d, itemsStage_skip d (fun xs h' => by rw [hg] at h'; cases h')⟩
    | obj o => exact ⟨d, itemsStage_skip d (fun xs h' => by rw [hg] at h'; cases h')⟩

theorem attemptOnce_transport (stub : ModelStub) (i : Nat) (today : PyDate) (m : String)
    (h : stub i = .error m) : attemptOnce stub i today = .error (.transport m) := by
  unfold attemptOnce
  rw [h]
  rfl

/-! ## The claims -/

/-- Claim C1 (corrected): for every model stub and every execution path of
`process_receipt`, the returned record is a dict carrying the six required
fields, with `category` in the fixed eight-element set, `confidence` a number
in `[0, 1]`, `transaction_date` the `strftime("%Y-%m-%d")` rendering of a
valid calendar date, `total_amount` a number, `currency` a string, and every
entry of a list-valued `items` field a dict whose `quantity` is a number
`≥ 1`.  Two clauses of the original are weakened, and both weakenings are
witnessed by the counterexample: `merchant_name` is only present, not forced
to a string, and the date re-parses as `YYYY-MM-DD` only when its year has
four digits — glibc leaves years below 1000 unpadded, and such output parses
under none of the accepted formats. -/
theorem claim_C1_output_invariants (stub : ModelStub) (today : PyDate)
    (ht : today.Valid) : RecordInvariant (processReceipt stub today).1 := by
  rcases processReceipt_shape stub today with ⟨i, r, hok, heq⟩ | ⟨e, herr, heq⟩
  · rw [heq]
    exact attemptOnce_record stub i today ht r hok
  · rw [heq]
    exact createFallbackResult_record (pyErrStr e) today ht

theorem claim_C1_witness : today0.Valid ∧ RecordInvariant (processReceipt stubFail today0).1 :=
  ⟨by decide, claim_C1_output_invariants stubFail today0 (by decide)⟩

/-- Counterexamples to the original C1: a reply whose `merchant_name` is the
number `42` flows through the whole pipeline unchanged, so the returned
record's `merchant_name` is not a string; and a year-999 reply leaves the
pipeline with `transaction_date = "999-01-01"` (glibc `%Y` unpadded), which
parses under none of the six accepted formats, refuting the claimed
`YYYY-MM-DD` re-parse. -/
theorem claim_C1_counterexample :
    (∃ d : Obj, (processReceipt stub42 today0).1 = .obj d ∧
      dGet d "merchant_name" = some (.num 42) ∧
      ∀ s, dGet d "merchant_name" ≠ some (.str s)) ∧
    (∃ d : Obj, (processReceipt stub999 today0).1 = .obj d ∧
      dGet d "transaction_date" = some (.str "999-01-01") ∧
      ∀ g ∈ dateFormats, tryDateFormat g "999-01-01" = none) := by
  constructor
  · refine ⟨[("merchant_name", .num 42), ("total_amount", .num 5),
      ("transaction_date", .str "2024-01-15"), ("currency", .str "USD"),
      ("category", .str "Other"), ("confidence", .num (1 / 2))],
      by with_unfolding_all rfl, rfl, ?_⟩
    intro s h
    rw [show dGet [("merchant_name", JValue.num 42), ("total_amount", .num 5),
      ("transaction_date", .str "2024-01-15"), ("currency", .str "USD"),
      ("category", .str "Other"), ("confidence", .num (1 / 2))] "merchant_name" =
      some (JValue.num 42) from rfl] at h
    injection h with h2
    cases h2
  · exact ⟨[("transaction_date", .str "999-01-01"), ("merchant_name", .str "Unknown"),
      ("total_amount", .num 0), ("currency", .str "USD"), ("category", .str "Other"),
      ("confidence", .num (3 / 10))], by with_unfolding_all rfl, rfl, by decide⟩

/-- Claim C2 (corrected): on the input text `"not json at all"` a single
pipeline attempt succeeds with the fallback record, whose `merchant_name` is
`"Unknown"` and whose `extraction_notes` is non-empty; but its `confidence` is
`0.0`, not the claimed `0.1`: the cross-validator's unknown-merchant penalty
(`-0.2`) drives the fallback confidence `0.1` to `-0.1`, clamped to `0`. -/
theorem claim_C2_fallback_confidence :
    ∃ d : Obj, processOnce "not json at all" today0 = .ok (.obj d) ∧
      dGet d "merchant_name" = some (.str "Unknown") ∧
      dGet d "confidence" = some (.num 0) ∧
      ∃ s, dGet d "extraction_notes" = some (.str s) ∧ s ≠ "" := by
  refine ⟨[("merchant_name", .str "Unknown"), ("transaction_date", .str "2024-01-15"),
    ("total_amount", .num 0), ("currency", .str "USD"), ("category", .str "Other"),
    ("confidence", .num 0),
    ("extraction_notes", .str "Processing failed: Failed to parse AI response")],
    by with_unfolding_all rfl, rfl, rfl,
    "Processing failed: Failed to parse AI response", rfl, by decide⟩

/-- Counterexample to C2 as stated: the confidence of the record returned for
`"not json at all"` is not `0.1`. -/
theorem claim_C2_counterexample :
    ¬ ∃ d : Obj, processOnce "not json at all" today0 = .ok (.obj d) ∧
      dGet d "confidence" = some (.num (1 / 10)) := by
  rintro ⟨d, hok, hconf⟩
  have hlit : processOnce "not json at all" today0 =
      .ok (.obj [("merchant_name", .str "Unknown"), ("transaction_date", .str "2024-01-15"),
        ("total_amount", .num 0), ("currency", .str "USD"), ("category", .str "Other"),
        ("confidence", .num 0),
        ("extraction_notes", .str "Processing failed: Failed to parse AI response")]) := by
    with_unfolding_all rfl
  rw [hlit] at hok
  injection hok with h1
  injection h1 with h2
  rw [← h2] at hconf
  rw [show dGet [("merchant_name", JValue.str "Unknown"),
    ("transaction_date", .str "2024-01-15"), ("total_amount", .num 0),
    ("currency", .str "USD"), ("category", .str "Other"), ("confidence", .num 0),
    ("extraction_notes", .str "Processing failed: Failed to parse AI response")]
    "confidence" = some (JValue.num 0) from rfl] at hconf
  injection hconf with h3
  injection h3 with h4
  norm_num at h4

/-- Claim C3 (code bug): on the repair-coverage input the repair chain does
not recover the intended mapping.  The strict parse fails, the quote-escaping
rewrite of `_fix_common_json_issues` corrupts the already-valid double quotes,
every later repair stage inherits the damage, and the pipeline lands in the
brace-slice fallback of `_extract_json_from_text`, which also fails to decode,
so the fixed fallback record is returned instead of
`\x7b"merchant_name": "Cafe", "total_amount": 5.00\x7d`. -/
theorem claim_C3_repair_chain :
    parseJsonResponse (cleanResponseText repairInput) today0 =
      createFallbackResult "Failed to parse AI response" today0 ∧
    parseJsonResponse (cleanResponseText repairInput) today0 ≠ repairExpected := by
  constructor
  · with_unfolding_all rfl
  · intro h
    have hfall : parseJsonResponse (cleanResponseText repairInput) today0 =
        createFallbackResult "Failed to parse AI response" today0 := by
      with_unfolding_all rfl
    rw [hfall] at h
    have h3 := congrArg (fun v => match v with | JValue.obj o => o.length | _ => 0) h
    have h4 : (7 : Nat) = 2 := h3
    exact absurd h4 (by decide)

/-- Claim C4 (confirmed): if the model invocation raises a transport error on
every call, `process_receipt` performs exactly 3 attempts and returns the
synthetic fallback record built from the last error's message; the model of
the function is total, so no exception propagates. -/
theorem claim_C4_retry_exhaustion (stub : ModelStub) (today : PyDate)
    (hfail : ∀ i, ∃ m, stub i = .error m) :
    ∃ m2, stub 2 = .error m2 ∧
      processReceipt stub today = (createFallbackResult m2 today, 3) := by
  obtain ⟨m2, hm2⟩ := hfail 2
  refine ⟨m2, hm2, ?_⟩
  rcases processReceipt_shape stub today with ⟨i, r, hok, -⟩ | ⟨e, herr, heq⟩
  · obtain ⟨mi, hmi⟩ := hfail i
    rw [attemptOnce_transport stub i today mi hmi] at hok
    cases hok
  · rw [attemptOnce_transport stub 2 today m2 hm2] at herr
    injection herr with h2
    rw [heq, ← h2]
    rfl

theorem claim_C4_witness :
    (∀ i, ∃ m, stubFail i = .error m) ∧
    ∃ m2, stubFail 2 = .error m2 ∧
      processReceipt stubFail today0 = (createFallbackResult m2 today0, 3) :=
  ⟨fun _ => ⟨"boom", rfl⟩, claim_C4_retry_exhaustion stubFail today0 (fun _ => ⟨"boom", rfl⟩)⟩

/-- Claim C5 (corrected): the validator is not exception-free — `int()` on a
line-item quantity that is `None` or otherwise non-coercible raises a
`TypeError` that escapes `_validate_and_enhance_result`.  That is the only
exception: every error the validator raises on a dict is exactly that
`TypeError`, and when every item quantity is `int()`-coercible the validator
returns normally, all other malformed fields being repaired to defaults. -/
theorem claim_C5_validator_raises (d : Obj) (today : PyDate) :
    (∀ e, validateAndEnhanceResult (.obj d) today = .error e →
      e = .typeError "int() argument invalid") ∧
    ((∀ xs, dGet d "items" = some (.arr xs) → ∀ it ∈ xs, ∀ o : Obj, it = .obj o →
        pyInt (dGetD o "quantity" (.num 1)) ≠ none) →
      ∃ r, validateAndEnhanceResult (.obj d) today = .ok r) := by
  constructor
  · exact fun e h => validateAndEnhanceResult_obj_err_shape d today e h
  · intro hq
    rw [validateAndEnhanceResult_obj]
    unfold validateObjStages
    have hkeys : ∀ kv ∈ requiredDefaults today, kv.1 ≠ "items" := by
      intro kv hkv
      unfold requiredDefaults at hkv
      simp only [List.mem_cons, List.not_mem_nil, or_false] at hkv
      rcases hkv with rfl | rfl | rfl | rfl | rfl | rfl
      · show "merchant_name" ≠ "items"
        decide
      · show "transaction_date" ≠ "items"
        decide
      · show "total_amount" ≠ "items"
        decide
      · show "currency" ≠ "items"
        decide
      · show "category" ≠ "items"
        decide
      · show "confidence" ≠ "items"
        decide
    have hitems : dGet (currencyStage (timeStage (dateStage (numericStage (categoryStage
        (merchantStage ((requiredDefaults today).foldl defaultFieldPure d)))) today)))
        "items" = dGet d "items" := by
      rw [currencyStage_frame _ _ (by decide), timeStage_frame _ _ (by decide),
        dateStage_frame _ _ _ (by decide), numericStage_frame _ _ (by decide),
        categoryStage_frame _ _ (by decide), merchantStage_frame _ _ (by decide),
        foldl_defaultFieldPure_frame _ d _ hkeys]
    obtain ⟨d2, hd2⟩ := itemsStage_ok_of _ (fun xs hxs => hq xs (by rw [← hitems]; exact hxs))
    refine ⟨.obj d2, ?_⟩
    rw [hd2]
    rfl

theorem claim_C5_witness :
    ∃ r, validateAndEnhanceResult (.obj [("items", .arr [.obj [("name", .str "Coffee"),
      ("quantity", .num 2)]])]) today0 = .ok r :=
  (claim_C5_validator_raises [("items", .arr [.obj [("name", .str "Coffee"),
      ("quantity", .num 2)]])] today0).2
    (fun xs hxs it hit o ho => by
      injection hxs with h1
      injection h1 with h2
      rw [← h2] at hit
      rcases List.mem_singleton.mp hit with rfl
      injection ho with h3
      rw [← h3]
      intro hc
      rw [show pyInt (dGetD [("name", JValue.str "Coffee"), ("quantity", JValue.num 2)]
        "quantity" (.num 1)) = some 2 from by with_unfolding_all rfl] at hc
      cases hc)

/-- Counterexample to C5 as stated: a line item whose `quantity` is `null`
makes the validator raise (`int(None)` is a `TypeError`) instead of repairing
locally. -/
theorem claim_C5_counterexample :
    validateAndEnhanceResult (.obj [("items", .arr [.obj [("name", .str "Coffee"),
      ("quantity", .null)]])]) today0 = .error (.typeError "int() argument invalid") := by
  with_unfolding_all rfl

/-- Claim C6 (confirmed): on every record produced by the validator, a
successful cross-validation only ever lowers the confidence, and the result
stays in `[0, 1]`. -/
theorem claim_C6_confidence_monotone (v r : JValue) (d d' : Obj) (today : PyDate)
    (ht : today.Valid) (hv : validateAndEnhanceResult v today = .ok r) (hr : r = .obj d)
    (hok : crossValidateData d = .ok d') :
    ∃ c c' : ℚ, dGet d "confidence" = some (.num c) ∧
      dGet d' "confidence" = some (.num c') ∧ c' ≤ c ∧ 0 ≤ c' ∧ c' ≤ 1 := by
  subst hr
  obtain ⟨d0, hobj, hn⟩ := validateAndEnhanceResult_norm v _ today ht hv
  have hd0 : d = d0 := by injection hobj
  subst hd0
  obtain ⟨vC, hvC⟩ := Option.isSome_iff_exists.mp hn.conf_some
  obtain ⟨q, rfl, hq0, hq1⟩ := hn.numerics "confidence" (by decide) vC hvC
  obtain ⟨c', hc', hle, h0, h1⟩ := crossValidateData_conf d d' q hvC hq0 (hq1 rfl) hok
  exact ⟨q, c', hvC, hc', hle, h0, h1⟩

theorem claim_C6_witness :
    today0.Valid ∧ validateAndEnhanceResult (.obj []) today0 = .ok (.obj normEmpty) ∧
    crossValidateData normEmpty = .ok normEmptyCross ∧
    ∃ c c' : ℚ, dGet normEmpty "confidence" = some (.num c) ∧
      dGet normEmptyCross "confidence" = some (.num c') ∧ c' ≤ c ∧ 0 ≤ c' ∧ c' ≤ 1 :=
  ⟨by decide, by with_unfolding_all rfl, by with_unfolding_all rfl,
    claim_C6_confidence_monotone (.obj []) (.obj normEmpty) normEmpty normEmptyCross today0
      (by decide) (by with_unfolding_all rfl) rfl (by with_unfolding_all rfl)⟩

/-- Claim C7 (corrected): re-running the validator on a record it produced
(with the same current date) returns the record unchanged, provided the
record's `transaction_date` carries a four-digit year.  Without that proviso
the claim is false of the program: glibc's `%Y` leaves years below 1000
unpadded, the re-parse then fails under every accepted format, and the second
pass substitutes the current date — see the counterexample. -/
theorem claim_C7_idempotent (v r : JValue) (today : PyDate) (ht : today.Valid)
    (hok : validateAndEnhanceResult v today = .ok r)
    (hy : ∀ d', r = .obj d' → ∃ dt, PyDate.Valid dt ∧ 1000 ≤ dt.year ∧
      dGet d' "transaction_date" = some (.str (renderDate dt))) :
    validateAndEnhanceResult r today = .ok r := by
  obtain ⟨d', rfl, hn⟩ := validateAndEnhanceResult_norm v r today ht hok
  exact validateAndEnhanceResult_fix d' today hn (hy d' rfl)

theorem claim_C7_witness :
    today0.Valid ∧ validateAndEnhanceResult (.obj []) today0 = .ok (.obj normEmpty) ∧
    validateAndEnhanceResult (.obj normEmpty) today0 = .ok (.obj normEmpty) :=
  ⟨by decide, by with_unfolding_all rfl,
    claim_C7_idempotent (.obj []) (.obj normEmpty) today0 (by decide)
      (by with_unfolding_all rfl)
      (fun d' hd' => by
        injection hd' with h2
        rw [← h2]
        exact ⟨today0, by decide, by decide, by with_unfolding_all rfl⟩)⟩

/-- Counterexample to C7 as stated: a decoded `transaction_date` of
`"0999-01-01"` validates to `"999-01-01"` (unpadded glibc year), which the
second validation pass cannot re-parse and replaces with the current date, so
the two passes disagree. -/
theorem claim_C7_counterexample :
    ∃ d d2 : Obj,
      validateAndEnhanceResult (.obj [("transaction_date", .str "0999-01-01")]) today0 =
        .ok (.obj d) ∧
      dGet d "transaction_date" = some (.str "999-01-01") ∧
      validateAndEnhanceResult (.obj d) today0 = .ok (.obj d2) ∧
      dGet d2 "transaction_date" = some (.str "2024-01-15") ∧
      JValue.obj d2 ≠ JValue.obj d := by
  refine ⟨[("transaction_date", .str "999-01-01"), ("merchant_name", .str "Unknown"),
    ("total_amount", .num 0), ("currency", .str "USD"), ("category", .str "Other"),
    ("confidence", .num (1 / 2))],
    [("transaction_date", .str "2024-01-15"), ("merchant_name", .str "Unknown"),
    ("total_amount", .num 0), ("currency", .str "USD"), ("category", .str "Other"),
    ("confidence", .num (1 / 2))],
    by with_unfolding_all rfl, rfl, by with_unfolding_all rfl, rfl, ?_⟩
  intro h
  injection h with h2
  injection h2 with hhead htail
  injection hhead with hk hv
  injection hv with hs
  exact absurd hs (by decide)

/-- Claim C8 (corrected): date normalization tries the six accepted formats
in their listed order and the first one that parses wins; input that parses
under no format (such as the invalid calendar date `"31/02/2024"`) is replaced
by the current date rather than raising; and the output is always the
`strftime("%Y-%m-%d")` rendering of a valid calendar date.  The claim's "the
output always parses as a valid calendar date" holds only for four-digit
years: glibc leaves years below 1000 unpadded, and the resulting output parses
under none of the accepted formats — the round-trip is restored exactly under
the `1000 ≤ year` proviso of the last conjunct (see the counterexample). -/
theorem claim_C8_date_normalization :
    (∀ (v : JValue) (today : PyDate), today.Valid →
      ∃ dt, PyDate.Valid dt ∧ validateDate v today = renderDate dt) ∧
    (∀ (s : String) (today : PyDate) (pre post : List DateFmt) (fmt : DateFmt) (dt : PyDate),
      s ≠ "" → dateFormats = pre ++ fmt :: post →
      (∀ g ∈ pre, tryDateFormat g (pyStrip s) = none) →
      tryDateFormat fmt (pyStrip s) = some dt →
      validateDate (.str s) today = renderDate dt) ∧
    (∀ (s : String) (today : PyDate), s ≠ "" →
      (∀ g ∈ dateFormats, tryDateFormat g (pyStrip s) = none) →
      validateDate (.str s) today = renderDate today) ∧
    (∀ dt : PyDate, PyDate.Valid dt → 1000 ≤ dt.year →
      tryDateFormat .ymdDash (renderDate dt) = some dt) := by
  refine ⟨fun v today ht => validateDate_valid v today ht, ?_, ?_, ?_⟩
  · intro s today pre post fmt dt hne hsplit hpre hx
    rw [validateDate_str, if_neg hne]
    exact normalizeDateStr_first_win s today pre post fmt dt hsplit hpre hx
  · intro s today hne hall
    rw [validateDate_str, if_neg hne]
    exact tryDateFormats_none s hall
  · exact fun dt hv h4 => tryDateFormat_render dt hv h4

theorem claim_C8_witness :
    ("31/02/2024" : String) ≠ "" ∧
    (∀ g ∈ dateFormats, tryDateFormat g (pyStrip "31/02/2024") = none) ∧
    validateDate (.str "31/02/2024") today0 = renderDate today0 :=
  ⟨by decide, by decide,
    claim_C8_date_normalization.2.2.1 "31/02/2024" today0 (by decide) (by decide)⟩

/-- Counterexample to C8 as stated: `"0999-01-01"` parses (four-digit `%Y`),
but its re-rendering `"999-01-01"` has an unpadded three-digit year that no
accepted format re-parses, and normalizing it again falls back to the current
date. -/
theorem claim_C8_counterexample :
    validateDate (.str "0999-01-01") today0 = "999-01-01" ∧
    (∀ g ∈ dateFormats, tryDateFormat g (pyStrip "999-01-01") = none) ∧
    validateDate (.str "999-01-01") today0 = renderDate today0 :=
  ⟨by decide, by decide, by decide⟩

/-- Claim C9 (confirmed): a successful cross-validation changes at most
`confidence` and `extraction_notes`, and any pre-existing note text survives
as a prefix of the new note. -/
theorem claim_C9_cross_frame (d d' : Obj) (hok : crossValidateData d = .ok d') :
    (∀ k, k ≠ "confidence" → k ≠ "extraction_notes" → dGet d' k = dGet d k) ∧
    (∀ notes, dGet d "extraction_notes" = some (.str notes) →
      ∃ suffix, dGet d' "extraction_notes" = some (.str (notes ++ suffix))) :=
  ⟨crossValidateData_frame d d' hok, crossValidateData_notes d d' hok⟩

theorem claim_C9_witness :
    crossValidateData normEmpty = .ok normEmptyCross ∧
    ((∀ k, k ≠ "confidence" → k ≠ "extraction_notes" →
        dGet normEmptyCross k = dGet normEmpty k) ∧
      (∀ notes, dGet normEmpty "extraction_notes" = some (.str notes) →
        ∃ suffix, dGet normEmptyCross "extraction_notes" = some (.str (notes ++ suffix)))) :=
  ⟨by with_unfolding_all rfl,
    claim_C9_cross_frame normEmpty normEmptyCross (by with_unfolding_all rfl)⟩

/-- Claim C10 (confirmed): when every model reply sanitizes and decodes to a
JSON value that is not an object, no attempt returns it: the validator raises
a `TypeError` internally on each of the 3 attempts, and `process_receipt`
returns the synthetic fallback record (merchant `"Unknown"`, confidence `0.1`)
after exhausting the retry budget. -/
theorem claim_C10_nonobject_rejected (stub : ModelStub) (t : String) (today : PyDate)
    (v : JValue) (hstub : ∀ i, stub i = .ok t)
    (hparse : parseJsonResponse (cleanResponseText (pyStrip t)) today = v)
    (hnonobj : ∀ d, v ≠ .obj d) :
    ∃ msg, processReceipt stub today = (createFallbackResult msg today, 3) ∧
      ∃ d, createFallbackResult msg today = .obj d ∧
        dGet d "merchant_name" = some (.str "Unknown") ∧
        dGet d "confidence" = some (.num (1 / 10)) := by
  have hne : t ≠ "" := by
    intro h0
    subst h0
    have : v = .obj [] := by
      rw [← hparse]
      with_unfolding_all rfl
    exact hnonobj [] this
  obtain ⟨msg, hmsg⟩ := foldlM_defaultStep_nonobj today v hnonobj
  have hverr : validateAndEnhanceResult v today = .error (.typeError msg) := by
    unfold validateAndEnhanceResult
    rw [hmsg, exceptBind_err]
  have hponce : processOnce (pyStrip t) today = .error (.typeError msg) := by
    unfold processOnce
    show (validateAndEnhanceResult (parseJsonResponse (cleanResponseText (pyStrip t)) today)
      today >>= fun validated => crossValidateJ validated) = _
    rw [hparse, hverr, exceptBind_err]
  have hatt : ∀ i, attemptOnce stub i today = .error (.typeError msg) := by
    intro i
    unfold attemptOnce
    rw [hstub i]
    show ((Except.ok t : Except PyErr String) >>= fun text =>
      if text = "" then Except.error (.valueError "Empty response from AI model")
      else processOnce (pyStrip text) today) = _
    rw [exceptBind_ok, if_neg hne, hponce]
  refine ⟨msg, ?_, _, rfl, rfl, rfl⟩
  rcases processReceipt_shape stub today with ⟨i, r, hok, -⟩ | ⟨e, herr, heq⟩
  · rw [hatt i] at hok
    cases hok
  · rw [hatt 2] at herr
    injection herr with h2
    rw [heq, ← h2]
    rfl

theorem claim_C10_witness :
    (∀ i, stubArr i = .ok "[1, 2]") ∧
    parseJsonResponse (cleanResponseText (pyStrip "[1, 2]")) today0 =
      .arr [.num 1, .num 2] ∧
    (∀ d, JValue.arr [.num 1, .num 2] ≠ .obj d) ∧
    ∃ msg, processReceipt stubArr today0 = (createFallbackResult msg today0, 3) ∧
      ∃ d, createFallbackResult msg today0 = .obj d ∧
        dGet d "merchant_name" = some (.str "Unknown") ∧
        dGet d "confidence" = some (.num (1 / 10)) :=
  ⟨fun _ => rfl, by with_unfolding_all rfl, fun d h => JValue.noConfusion h,
    claim_C10_nonobject_rejected stubArr "[1, 2]" today0 (.arr [.num 1, .num 2])
      (fun _ => rfl) (by with_unfolding_all rfl) (fun d h => JValue.noConfusion h)⟩

end ReceiptAI
